import Mathlib

/-!
# PLX 8000 Linux driver: the request dispatcher (Dispatch.c)

A shallow embedding of `Dispatch_open`, `Dispatch_release`, `Dispatch_mmap` and
`Dispatch_IoControl` from `Linux/Driver/Source.Plx8000/Dispatch.c`, with the data
structures of `DrvDefs.h`.

Conventions of the embedding:

* Machine integers are `Nat` with an explicit `% 2 ^ w` wherever the C code truncates
  (`U8`, `U16`, `U32`, `U64`, and the pointer-sized `PLX_UINT_PTR`).  `int` results are `Int`;
  an `int` expression assigned to a `U64` is cut to 32 bits and sign-extended (`intToU64`).
* A pointer to a `DEVICE_OBJECT` is the position of the object in the driver's device list
  (the list is the chain of `NextDevice` links); `none` is the null pointer.
  A pointer to a `struct file` is its address, a `Nat`; pointers to wait objects and user
  addresses are `Nat` too, `0` being `NULL`.
* Functions that Dispatch.c calls but that live in other files of the driver (`StartDevice`,
  `StopDevice`, the `Plx...` API functions) are not executed: every call is recorded, with its
  arguments, in the list `calls` of the result, and what the callee hands back is supplied by
  an oracle.  The results of kernel primitives (`down_interruptible`, `copy_from_user`,
  `copy_to_user`, the remap functions) are inputs as well.
* Dereferencing `filp->private_data` as a device object when it is not one is undefined
  behaviour in C; the embedding returns `none` there.
* The API functions behind the recorded calls, the interrupt handler and its deferred
  procedure (`ApiFunc.c`, `SuppFunc.c`, `Driver.c`) are not among the sources.  The section
  on the notification and memory core models them from the specification; each definition
  there says so and names what is missing.
-/

namespace Plx8000

/-! ## Constants -/

/-- Minor number of Management interface (`DrvDefs.h`). -/
def PLX_MNGMT_INTERFACE : Nat := 0xff

/-- Linux errno `ENODEV`. -/
def ENODEV : Int := 19

/-- Linux errno `ERESTARTSYS`. -/
def ERESTARTSYS : Int := 512

/-- Linux errno `EFAULT`. -/
def EFAULT : Int := 14

/-- Number of BARs of a type 0 PCI header, `PCI_NUM_BARS_TYPE_00`. -/
def PCI_NUM_BARS_TYPE_00 : Nat := 6

/-! ## Data structures of DrvDefs.h -/

/-- Lifecycle state of a wait object (`PLX_STATE` values used for wait objects). -/
inductive PLX_STATE where
  | PLX_STATE_WAITING
  | PLX_STATE_TRIGGERED
  | PLX_STATE_CANCELLED
  deriving DecidableEq, Repr

/-- Modelled from the spec: an entry of the wait queue of a wait object (`wait_queue_head_t`
is a kernel type, not among the sources): a thread blocked in `Wait` (§4.1), the ticks left
until its timeout expires, and whether it has been woken by a trigger. -/
structure Sleeper where
  thread : Nat
  remaining : Nat
  woken : Bool
  deriving DecidableEq, Repr

/-- PCI Interrupt wait object.  `addr` is the address of the object, which is the handle user
space holds for it; `ListEntry` is the position of the object in the registry list. -/
structure PLX_WAIT_OBJECT where
  addr : Nat
  pOwner : Nat
  Notify_Flags : Nat
  Notify_Doorbell : Nat
  Source_Ints : Nat
  Source_Doorbell : Nat
  state : PLX_STATE
  SleepCount : Nat
  WaitQueue : List Sleeper
  deriving DecidableEq, Repr

/-- Information about contiguous, page-locked buffers. -/
structure PLX_PHYS_MEM_OBJECT where
  pOwner : Nat
  pKernelVa : Nat
  CpuPhysical : Nat
  BusPhysical : Nat
  Size : Nat
  deriving DecidableEq, Repr

/-- BAR properties: the two fields of `PLX_PCI_BAR_PROP` that Dispatch.c reads. -/
structure PLX_PCI_BAR_PROP where
  Physical : Nat
  bIoSpace : Bool
  deriving DecidableEq, Repr

/-- PCI BAR Space information. -/
structure PLX_PCI_BAR_INFO where
  pVa : Nat
  Properties : PLX_PCI_BAR_PROP
  bResourceClaimed : Bool
  deriving DecidableEq, Repr

/-- All relevant information about the device (the fields the dispatcher and the registries
use; locks and register offsets are left out). -/
structure DEVICE_EXTENSION where
  OpenCount : Nat
  PciBar : List PLX_PCI_BAR_INFO
  Source_Ints : Nat
  Source_Doorbell : Nat
  bDpcPending : Bool
  List_WaitObjects : List PLX_WAIT_OBJECT
  List_PhysicalMem : List PLX_PHYS_MEM_OBJECT
  deriving DecidableEq, Repr

/-- The device object; `NextDevice` is the successor in the driver's list. -/
structure DEVICE_OBJECT where
  DeviceExtension : DEVICE_EXTENSION
  deriving DecidableEq, Repr

/-- Main driver object: the device list (first device at position 0) and the common buffer. -/
structure DRIVER_OBJECT where
  DeviceObject : List DEVICE_OBJECT
  CommonBuffer : PLX_PHYS_MEM_OBJECT
  deriving DecidableEq, Repr

/-- What `filp->private_data` points to. -/
inductive PrivateData where
  | null
  | driver
  | device (fdo : Nat)
  deriving DecidableEq, Repr

/-- The kernel `struct file`: its address (the value of the pointer `filp`) and its
private data. -/
structure file where
  addr : Nat
  private_data : PrivateData
  deriving DecidableEq, Repr

/-- The kernel `struct inode`: only the minor number, `iminor(inode)`, is read. -/
structure inode where
  minor : Nat
  deriving DecidableEq, Repr

/-! ## The request envelope (PlxIoctl.h, PlxTypes.h, PlxStat.h are not among the sources) -/

/-- API status codes.  `PlxStat.h` is not among the sources: the two constants Dispatch.c
names are `ApiSuccess` and `ApiUnsupportedFunction`; the others stand for what the API
functions may hand back. -/
inductive PLX_STATUS where
  | ApiSuccess
  | ApiFailed
  | ApiNullParam
  | ApiUnsupportedFunction
  | ApiInvalidData
  | ApiInvalidHandle
  | ApiInsufficientResources
  | ApiWaitTimeout
  | ApiWaitCanceled
  deriving DecidableEq, Repr

/-- Device key: the three fields Dispatch.c reads, and the rest of the key. -/
structure PLX_DEVICE_KEY where
  bus : Nat
  slot : Nat
  function : Nat
  other : Nat
  deriving DecidableEq, Repr

/-- Interrupt descriptor; Dispatch.c only passes it on. -/
structure PLX_INTERRUPT where
  raw : Nat
  deriving DecidableEq, Repr

/-- Physical memory descriptor: the three fields Dispatch.c writes, and the rest. -/
structure PLX_PHYSICAL_MEM where
  PhysicalAddr : Nat
  CpuPhysical : Nat
  Size : Nat
  other : Nat
  deriving DecidableEq, Repr

/-- Port properties; Dispatch.c only passes them on. -/
structure PLX_PORT_PROP where
  raw : Nat
  deriving DecidableEq, Repr

/-- Transfer parameters: the two fields Dispatch.c reads, and the rest. -/
structure PLX_DMA_PARAMS where
  UserVa : Nat
  ByteCount : Nat
  other : Nat
  deriving DecidableEq, Repr

/-- The union `u` of `PLX_PARAMS`, one field per member that Dispatch.c names.  (The members
share storage in C; no function of Dispatch.c reads one member after writing another.) -/
structure PLX_PARAMS_UNION where
  PlxIntr : PLX_INTERRUPT
  PciMemory : PLX_PHYSICAL_MEM
  PortProp : PLX_PORT_PROP
  BarProp : PLX_PCI_BAR_PROP
  TxParams : PLX_DMA_PARAMS
  deriving DecidableEq, Repr

/-- The I/O control message `PLX_PARAMS`; `value0`, `value1`, `value2` are `value[0..2]`,
each a U64. -/
structure PLX_PARAMS where
  ReturnCode : PLX_STATUS
  Key : PLX_DEVICE_KEY
  value0 : Nat
  value1 : Nat
  value2 : Nat
  u : PLX_PARAMS_UNION
  deriving DecidableEq, Repr

/-- The case labels of the switch in `Dispatch_IoControl`, in source order. -/
inductive PLX_IOCTL where
  | PLX_IOCTL_PCI_DEVICE_FIND
  | PLX_IOCTL_DRIVER_VERSION
  | PLX_IOCTL_CHIP_TYPE_GET
  | PLX_IOCTL_CHIP_TYPE_SET
  | PLX_IOCTL_GET_PORT_PROPERTIES
  | PLX_IOCTL_PCI_DEVICE_RESET
  | PLX_IOCTL_PCI_REGISTER_READ
  | PLX_IOCTL_PCI_REGISTER_WRITE
  | PLX_IOCTL_PCI_REG_READ_BYPASS_OS
  | PLX_IOCTL_PCI_REG_WRITE_BYPASS_OS
  | PLX_IOCTL_REGISTER_READ
  | PLX_IOCTL_REGISTER_WRITE
  | PLX_IOCTL_MAPPED_REGISTER_READ
  | PLX_IOCTL_MAPPED_REGISTER_WRITE
  | PLX_IOCTL_MAILBOX_READ
  | PLX_IOCTL_MAILBOX_WRITE
  | PLX_IOCTL_PCI_BAR_PROPERTIES
  | PLX_IOCTL_PCI_BAR_MAP
  | PLX_IOCTL_PCI_BAR_UNMAP
  | PLX_IOCTL_EEPROM_PRESENT
  | PLX_IOCTL_EEPROM_PROBE
  | PLX_IOCTL_EEPROM_CRC_GET
  | PLX_IOCTL_EEPROM_CRC_UPDATE
  | PLX_IOCTL_EEPROM_READ_BY_OFFSET
  | PLX_IOCTL_EEPROM_WRITE_BY_OFFSET
  | PLX_IOCTL_EEPROM_READ_BY_OFFSET_16
  | PLX_IOCTL_EEPROM_WRITE_BY_OFFSET_16
  | PLX_IOCTL_IO_PORT_READ
  | PLX_IOCTL_IO_PORT_WRITE
  | PLX_IOCTL_PHYSICAL_MEM_ALLOCATE
  | PLX_IOCTL_PHYSICAL_MEM_FREE
  | PLX_IOCTL_PHYSICAL_MEM_MAP
  | PLX_IOCTL_PHYSICAL_MEM_UNMAP
  | PLX_IOCTL_COMMON_BUFFER_PROPERTIES
  | PLX_IOCTL_INTR_ENABLE
  | PLX_IOCTL_INTR_DISABLE
  | PLX_IOCTL_NOTIFICATION_REGISTER_FOR
  | PLX_IOCTL_NOTIFICATION_WAIT
  | PLX_IOCTL_NOTIFICATION_STATUS
  | PLX_IOCTL_NOTIFICATION_CANCEL
  | PLX_IOCTL_NT_PROBE_REQ_ID
  | PLX_IOCTL_NT_LUT_PROPERTIES
  | PLX_IOCTL_NT_LUT_ADD
  | PLX_IOCTL_NT_LUT_DISABLE
  deriving DecidableEq, Repr

open PLX_IOCTL in
/-- All case labels, in source order. -/
def PLX_IOCTL.all : List PLX_IOCTL :=
  [PLX_IOCTL_PCI_DEVICE_FIND, PLX_IOCTL_DRIVER_VERSION, PLX_IOCTL_CHIP_TYPE_GET,
   PLX_IOCTL_CHIP_TYPE_SET, PLX_IOCTL_GET_PORT_PROPERTIES, PLX_IOCTL_PCI_DEVICE_RESET,
   PLX_IOCTL_PCI_REGISTER_READ, PLX_IOCTL_PCI_REGISTER_WRITE,
   PLX_IOCTL_PCI_REG_READ_BYPASS_OS, PLX_IOCTL_PCI_REG_WRITE_BYPASS_OS,
   PLX_IOCTL_REGISTER_READ, PLX_IOCTL_REGISTER_WRITE, PLX_IOCTL_MAPPED_REGISTER_READ,
   PLX_IOCTL_MAPPED_REGISTER_WRITE, PLX_IOCTL_MAILBOX_READ, PLX_IOCTL_MAILBOX_WRITE,
   PLX_IOCTL_PCI_BAR_PROPERTIES, PLX_IOCTL_PCI_BAR_MAP, PLX_IOCTL_PCI_BAR_UNMAP,
   PLX_IOCTL_EEPROM_PRESENT, PLX_IOCTL_EEPROM_PROBE, PLX_IOCTL_EEPROM_CRC_GET,
   PLX_IOCTL_EEPROM_CRC_UPDATE, PLX_IOCTL_EEPROM_READ_BY_OFFSET,
   PLX_IOCTL_EEPROM_WRITE_BY_OFFSET, PLX_IOCTL_EEPROM_READ_BY_OFFSET_16,
   PLX_IOCTL_EEPROM_WRITE_BY_OFFSET_16, PLX_IOCTL_IO_PORT_READ, PLX_IOCTL_IO_PORT_WRITE,
   PLX_IOCTL_PHYSICAL_MEM_ALLOCATE, PLX_IOCTL_PHYSICAL_MEM_FREE, PLX_IOCTL_PHYSICAL_MEM_MAP,
   PLX_IOCTL_PHYSICAL_MEM_UNMAP, PLX_IOCTL_COMMON_BUFFER_PROPERTIES, PLX_IOCTL_INTR_ENABLE,
   PLX_IOCTL_INTR_DISABLE, PLX_IOCTL_NOTIFICATION_REGISTER_FOR, PLX_IOCTL_NOTIFICATION_WAIT,
   PLX_IOCTL_NOTIFICATION_STATUS, PLX_IOCTL_NOTIFICATION_CANCEL, PLX_IOCTL_NT_PROBE_REQ_ID,
   PLX_IOCTL_NT_LUT_PROPERTIES, PLX_IOCTL_NT_LUT_ADD, PLX_IOCTL_NT_LUT_DISABLE]

/-- What the build fixes outside Dispatch.c and DrvDefs.h: the numeric command code of each
case label (PlxIoctl.h), the SDK version (Plx.h; integer constants, so of type `int`), the
width in bits of `PLX_UINT_PTR`, and
the kernel's `PAGE_SHIFT`, `VM_RESERVED`, `VM_IO` and `pgprot_noncached`. -/
structure PlxSys where
  ioctlCode : PLX_IOCTL → Nat
  PLX_SDK_VERSION_MAJOR : Nat
  PLX_SDK_VERSION_MINOR : Nat
  ptrBits : Nat
  PAGE_SHIFT : Nat
  VM_RESERVED : Nat
  VM_IO_FLAG : Nat
  pgprot_noncached : Nat → Nat

/-- The API functions called from the switch of `Dispatch_IoControl`, with their arguments
in source order.  `pdx` is the device extension pointer (`none` is `NULL`); a by-value
argument is recorded after its cast; a pointer argument is recorded as the value of what it
points to when the call is made (for a pointer to part of a `value[]` word, that part). -/
inductive CoreCall where
  | PlxDeviceFind (pdx : Option Nat) (pKey : PLX_DEVICE_KEY) (pDeviceNumber : Nat)
  | PlxChipTypeGet (pdx : Option Nat) (pChipType : Nat) (pRevision : Nat)
  | PlxChipTypeSet (pdx : Option Nat) (ChipType : Nat) (Revision : Nat)
  | PlxGetPortProperties (pdx : Option Nat) (pPortProp : PLX_PORT_PROP)
  | PlxPciDeviceReset (pdx : Option Nat)
  | PlxPciRegisterRead_UseOS (pdx : Option Nat) (offset : Nat) (pValue : Nat)
  | PlxPciRegisterWrite_UseOS (pdx : Option Nat) (offset : Nat) (value : Nat)
  | PlxPciRegisterRead_BypassOS (bus slot function : Nat) (offset : Nat) (pValue : Nat)
  | PlxPciRegisterWrite_BypassOS (bus slot function : Nat) (offset : Nat) (value : Nat)
  | PlxRegisterRead (pdx : Option Nat) (offset : Nat) (pStatus : PLX_STATUS)
      (bAdjustForPort : Bool)
  | PlxRegisterWrite (pdx : Option Nat) (offset : Nat) (value : Nat) (bAdjustForPort : Bool)
  | PlxMailboxRead (pdx : Option Nat) (mailbox : Nat) (pStatus : PLX_STATUS)
  | PlxMailboxWrite (pdx : Option Nat) (mailbox : Nat) (value : Nat)
  | PlxPciBarProperties (pdx : Option Nat) (BarIndex : Nat) (pBarProperties : PLX_PCI_BAR_PROP)
  | PlxPciBarMap (pdx : Option Nat) (BarIndex : Nat) (pUserVa : Nat) (pOwner : Nat)
  | PlxPciBarUnmap (pdx : Option Nat) (UserVa : Nat) (pOwner : Nat)
  | PlxEepromPresent (pdx : Option Nat) (pStatus : Nat)
  | PlxEepromProbe (pdx : Option Nat) (pFlag : Nat)
  | PlxEepromCrcGet (pdx : Option Nat) (pCrc : Nat) (pCrcStatus : Nat)
  | PlxEepromCrcUpdate (pdx : Option Nat) (pCrc : Nat) (bUpdateEeprom : Nat)
  | PlxEepromReadByOffset (pdx : Option Nat) (offset : Nat) (pValue : Nat)
  | PlxEepromWriteByOffset (pdx : Option Nat) (offset : Nat) (value : Nat)
  | PlxEepromReadByOffset_16 (pdx : Option Nat) (offset : Nat) (pValue : Nat)
  | PlxEepromWriteByOffset_16 (pdx : Option Nat) (offset : Nat) (value : Nat)
  | PlxPciIoPortTransfer (IoPort : Nat) (pBuffer : Nat) (SizeInBytes : Nat) (AccessType : Nat)
      (bReadOperation : Bool)
  | PlxPciPhysicalMemoryAllocate (pdx : Option Nat) (pPciMem : PLX_PHYSICAL_MEM)
      (bFlag : Nat) (pOwner : Nat)
  | PlxPciPhysicalMemoryFree (pdx : Option Nat) (pPciMem : PLX_PHYSICAL_MEM)
  | PlxPciPhysicalMemoryMap (pdx : Option Nat) (pPciMem : PLX_PHYSICAL_MEM) (pOwner : Nat)
  | PlxPciPhysicalMemoryUnmap (pdx : Option Nat) (pPciMem : PLX_PHYSICAL_MEM) (pOwner : Nat)
  | PlxInterruptEnable (pdx : Option Nat) (pPlxIntr : PLX_INTERRUPT)
  | PlxInterruptDisable (pdx : Option Nat) (pPlxIntr : PLX_INTERRUPT)
  | PlxNotificationRegisterFor (pdx : Option Nat) (pPlxIntr : PLX_INTERRUPT)
      (pUserWaitObject : Nat) (pOwner : Nat)
  | PlxNotificationWait (pdx : Option Nat) (pUserWaitObject : Nat) (Timeout_ms : Nat)
  | PlxNotificationStatus (pdx : Option Nat) (pUserWaitObject : Nat)
      (pPlxIntr : PLX_INTERRUPT)
  | PlxNotificationCancel (pdx : Option Nat) (pUserWaitObject : Nat) (pOwner : Nat)
  | PlxNtReqIdProbe (pdx : Option Nat) (bRead : Nat) (pReqId : Nat)
  | PlxNtLutProperties (pdx : Option Nat) (LutIndex : Nat) (pReqId : Nat) (pFlags : Nat)
      (pbEnabled : Nat)
  | PlxNtLutAdd (pdx : Option Nat) (pLutIndex : Nat) (ReqId : Nat) (flags : Nat)
      (pOwner : Nat)
  | PlxNtLutDisable (pdx : Option Nat) (LutIndex : Nat) (pOwner : Nat)
  deriving DecidableEq, Repr

/-- What an API function hands back: its `PLX_STATUS` result (for `PlxRegisterRead` and
`PlxMailboxRead`, the status stored through `pStatus`), its value result `ret` (for those
two), and what it leaves behind each pointer argument: the key, the three `value[]` words
and the union members.  A case of the switch uses the fields of the pointers it passed. -/
structure CoreRet where
  status : PLX_STATUS
  ret : Nat
  Key : PLX_DEVICE_KEY
  out0 : Nat
  out1 : Nat
  out2 : Nat
  PlxIntr : PLX_INTERRUPT
  PciMemory : PLX_PHYSICAL_MEM
  PortProp : PLX_PORT_PROP
  BarProp : PLX_PCI_BAR_PROP
  deriving DecidableEq, Repr

/-- The conversion of an `int` to a U64 on assignment.  `n` is the value the `int`
expression would have without overflow; the `int` holds it cut to 32 bits in two's
complement, and the conversion extends the sign into the upper 32 bits. -/
def intToU64 (n : Nat) : Nat :=
  if n % 2 ^ 32 < 2 ^ 31 then n % 2 ^ 32 else n % 2 ^ 32 + (2 ^ 64 - 2 ^ 32)

/-- Storing `new` through a pointer to the low-order `w` bits of a U64 holding `old`
(`PLX_CAST_64_TO_8_PTR` and its siblings, and `(VOID**)&value[0]`). -/
def storeLow (w old new : Nat) : Nat :=
  old / 2 ^ w * 2 ^ w + new % 2 ^ w

/-- The owner argument of a call, when the function takes one. -/
def CoreCall.owner? : CoreCall → Option Nat
  | .PlxPciBarMap _ _ _ o => some o
  | .PlxPciBarUnmap _ _ o => some o
  | .PlxPciPhysicalMemoryAllocate _ _ _ o => some o
  | .PlxPciPhysicalMemoryMap _ _ o => some o
  | .PlxPciPhysicalMemoryUnmap _ _ o => some o
  | .PlxNotificationRegisterFor _ _ _ o => some o
  | .PlxNotificationCancel _ _ o => some o
  | .PlxNtLutAdd _ _ _ _ o => some o
  | .PlxNtLutDisable _ _ o => some o
  | _ => none

/-- The device extension argument of a call (`none` for `NULL` and for the three functions
that take no device extension). -/
def CoreCall.pdx? : CoreCall → Option Nat
  | .PlxDeviceFind p _ _ => p
  | .PlxChipTypeGet p _ _ => p
  | .PlxChipTypeSet p _ _ => p
  | .PlxGetPortProperties p _ => p
  | .PlxPciDeviceReset p => p
  | .PlxPciRegisterRead_UseOS p _ _ => p
  | .PlxPciRegisterWrite_UseOS p _ _ => p
  | .PlxPciRegisterRead_BypassOS _ _ _ _ _ => none
  | .PlxPciRegisterWrite_BypassOS _ _ _ _ _ => none
  | .PlxRegisterRead p _ _ _ => p
  | .PlxRegisterWrite p _ _ _ => p
  | .PlxMailboxRead p _ _ => p
  | .PlxMailboxWrite p _ _ => p
  | .PlxPciBarProperties p _ _ => p
  | .PlxPciBarMap p _ _ _ => p
  | .PlxPciBarUnmap p _ _ => p
  | .PlxEepromPresent p _ => p
  | .PlxEepromProbe p _ => p
  | .PlxEepromCrcGet p _ _ => p
  | .PlxEepromCrcUpdate p _ _ => p
  | .PlxEepromReadByOffset p _ _ => p
  | .PlxEepromWriteByOffset p _ _ => p
  | .PlxEepromReadByOffset_16 p _ _ => p
  | .PlxEepromWriteByOffset_16 p _ _ => p
  | .PlxPciIoPortTransfer _ _ _ _ _ => none
  | .PlxPciPhysicalMemoryAllocate p _ _ _ => p
  | .PlxPciPhysicalMemoryFree p _ => p
  | .PlxPciPhysicalMemoryMap p _ _ => p
  | .PlxPciPhysicalMemoryUnmap p _ _ => p
  | .PlxInterruptEnable p _ => p
  | .PlxInterruptDisable p _ => p
  | .PlxNotificationRegisterFor p _ _ _ => p
  | .PlxNotificationWait p _ _ => p
  | .PlxNotificationStatus p _ _ => p
  | .PlxNotificationCancel p _ _ => p
  | .PlxNtReqIdProbe p _ _ => p
  | .PlxNtLutProperties p _ _ _ _ => p
  | .PlxNtLutAdd p _ _ _ _ => p
  | .PlxNtLutDisable p _ _ => p

/-! ## Calls into the rest of the driver made by open and release -/

/-- Calls from `Dispatch_open` and `Dispatch_release` into the rest of the driver, with
their arguments as written in the source; `api` is a call of one of the API functions that
`Dispatch_IoControl` calls as well (`PlxNotificationCancel`). -/
inductive DriverCall where
  | StartDevice (fdo : Nat)
  | StopDevice (fdo : Nat)
  | api (c : CoreCall)
  | PlxPciPhysicalMemoryFreeAll_ByOwner (pdx : Option Nat) (pOwner : Nat)
  deriving DecidableEq, Repr

/-- Outcome of `Dispatch_open` or `Dispatch_release`: the returned `int`, the driver object
and the file afterwards, and the calls made, in order. -/
structure DispatchResult where
  rc : Int
  drv : DRIVER_OBJECT
  filp : file
  calls : List DriverCall
  deriving DecidableEq, Repr

/-- The pointer `fdo->NextDevice` in a list of `len` devices. -/
def NextDevice (len : Nat) (fdo : Nat) : Option Nat :=
  if fdo + 1 < len then some (fdo + 1) else none

/-- The loop `while (i-- && fdo != NULL) fdo = fdo->NextDevice;` of `Dispatch_open`. -/
def walkDeviceList (len : Nat) : Nat → Option Nat → Option Nat
  | 0, fdo => fdo
  | _ + 1, none => none
  | i + 1, some fdo => walkDeviceList len i (NextDevice len fdo)

/-- The pointer `pGbl_DriverObject->DeviceObject`: pointer to first device in list. -/
def firstDevice (drv : DRIVER_OBJECT) : Option Nat :=
  if 0 < drv.DeviceObject.length then some 0 else none

/-- Write `f` applied to the extension of device `fdo` back into the driver object. -/
def updateExtension (drv : DRIVER_OBJECT) (fdo : Nat)
    (f : DEVICE_EXTENSION → DEVICE_EXTENSION) : DRIVER_OBJECT :=
  match drv.DeviceObject[fdo]? with
  | some d => { drv with DeviceObject := drv.DeviceObject.set fdo ⟨f d.DeviceExtension⟩ }
  | none => drv

/-- The field `fdo->DeviceExtension->OpenCount` (0 when `fdo` is not in the list). -/
def openCount (drv : DRIVER_OBJECT) (fdo : Nat) : Nat :=
  match drv.DeviceObject[fdo]? with
  | some d => d.DeviceExtension.OpenCount
  | none => 0

/-- Function `Dispatch_open`: handle open() which allows applications to create a connection to the
driver.  `down` is what `down_interruptible` returns, `start` what `StartDevice` returns. -/
def Dispatch_open (down start : Int) (drv : DRIVER_OBJECT) (ino : inode) (filp : file) :
    DispatchResult :=
  if ino.minor = PLX_MNGMT_INTERFACE then
    -- Store the driver object in the private data
    ⟨0, drv, { filp with private_data := .driver }, []⟩
  else
    -- Select desired device from device list; `i` is a U8
    match walkDeviceList drv.DeviceObject.length (ino.minor % 2 ^ 8) (firstDevice drv) with
    | none => ⟨-ENODEV, drv, filp, []⟩
    | some fdo =>
      -- Acquire open mutex
      if down < 0 then ⟨-ERESTARTSYS, drv, filp, []⟩
      else
        -- Attempt to start the device
        if start ≠ 0 then ⟨start, drv, filp, [.StartDevice fdo]⟩
        else
          -- Increment open count for this device (a U8), store device object
          ⟨0, updateExtension drv fdo (fun pdx => { pdx with OpenCount := (pdx.OpenCount + 1) % 2 ^ 8 }),
            { filp with private_data := .device fdo }, [.StartDevice fdo]⟩

/-- Function `Dispatch_release`: handle close() call, which closes the connection between the
application and drivers.  `down` is what `down_interruptible` returns. -/
def Dispatch_release (down : Int) (drv : DRIVER_OBJECT) (ino : inode) (filp : file) :
    Option DispatchResult :=
  if ino.minor = PLX_MNGMT_INTERFACE then
    -- Clear the driver object from the private data
    some ⟨0, drv, { filp with private_data := .null }, []⟩
  else
    -- Get the device object
    match filp.private_data with
    | .device fdo =>
      match drv.DeviceObject[fdo]? with
      | none => none
      | some d =>
        -- Release any pending notifications and physical memory owned by process
        let cleanup : List DriverCall :=
          [.api (.PlxNotificationCancel (some fdo) 0 filp.addr),
           .PlxPciPhysicalMemoryFreeAll_ByOwner (some fdo) filp.addr]
        -- Acquire open mutex
        if down < 0 then some ⟨-ERESTARTSYS, drv, filp, cleanup⟩
        else
          -- Decrement open count for this device (a U8)
          let count := (d.DeviceExtension.OpenCount + 2 ^ 8 - 1) % 2 ^ 8
          let drv1 := updateExtension drv fdo (fun pdx => { pdx with OpenCount := count })
          -- Stop the device if no longer used
          if count = 0 then some ⟨0, drv1, filp, cleanup ++ [.StopDevice fdo]⟩
          else some ⟨0, drv1, filp, cleanup⟩
    | _ => none

/-! ## Dispatch_IoControl -/

/-- The body of one case of the switch in `Dispatch_IoControl`: the API calls it makes and
the I/O buffer afterwards.  `api` hands back what the called function returns and stores,
`pdx` and `pOwner` are the locals of that name, `b` is `IoBuffer`. -/
def ioctlCase (sys : PlxSys) (api : CoreCall → CoreRet) (drv : DRIVER_OBJECT)
    (pdx : Option Nat) (pOwner : Nat) (b : PLX_PARAMS) : PLX_IOCTL → List CoreCall × PLX_PARAMS
  -- Driver Query Functions
  | .PLX_IOCTL_PCI_DEVICE_FIND =>
    let c := CoreCall.PlxDeviceFind pdx b.Key (b.value0 % 2 ^ 8)
    ([c], { b with ReturnCode := (api c).status, Key := (api c).Key,
                   value0 := storeLow 8 b.value0 (api c).out0 })
  | .PLX_IOCTL_DRIVER_VERSION =>
    -- the expression is an `int`, converted to the U64 `value[0]` on assignment
    ([], { b with value0 := intToU64 ((sys.PLX_SDK_VERSION_MAJOR <<< 16) |||
                                      (sys.PLX_SDK_VERSION_MINOR <<< 8) ||| (0 <<< 0)) })
  | .PLX_IOCTL_CHIP_TYPE_GET =>
    let c := CoreCall.PlxChipTypeGet pdx (b.value0 % 2 ^ 16) (b.value1 % 2 ^ 8)
    ([c], { b with ReturnCode := (api c).status,
                   value0 := storeLow 16 b.value0 (api c).out0,
                   value1 := storeLow 8 b.value1 (api c).out1 })
  | .PLX_IOCTL_CHIP_TYPE_SET =>
    let c := CoreCall.PlxChipTypeSet pdx (b.value0 % 2 ^ 16) (b.value1 % 2 ^ 8)
    ([c], { b with ReturnCode := (api c).status })
  | .PLX_IOCTL_GET_PORT_PROPERTIES =>
    let c := CoreCall.PlxGetPortProperties pdx b.u.PortProp
    ([c], { b with ReturnCode := (api c).status, u := { b.u with PortProp := (api c).PortProp } })
  -- Device Control Functions
  | .PLX_IOCTL_PCI_DEVICE_RESET =>
    let c := CoreCall.PlxPciDeviceReset pdx
    ([c], { b with ReturnCode := (api c).status })
  -- PCI Register Access Functions
  | .PLX_IOCTL_PCI_REGISTER_READ =>
    let c := CoreCall.PlxPciRegisterRead_UseOS pdx (b.value0 % 2 ^ 16) (b.value1 % 2 ^ 32)
    ([c], { b with ReturnCode := (api c).status, value1 := storeLow 32 b.value1 (api c).out1 })
  | .PLX_IOCTL_PCI_REGISTER_WRITE =>
    let c := CoreCall.PlxPciRegisterWrite_UseOS pdx (b.value0 % 2 ^ 16) (b.value1 % 2 ^ 32)
    ([c], { b with ReturnCode := (api c).status })
  | .PLX_IOCTL_PCI_REG_READ_BYPASS_OS =>
    let c := CoreCall.PlxPciRegisterRead_BypassOS b.Key.bus b.Key.slot b.Key.function
      (b.value0 % 2 ^ 16) (b.value1 % 2 ^ 32)
    ([c], { b with ReturnCode := (api c).status, value1 := storeLow 32 b.value1 (api c).out1 })
  | .PLX_IOCTL_PCI_REG_WRITE_BYPASS_OS =>
    let c := CoreCall.PlxPciRegisterWrite_BypassOS b.Key.bus b.Key.slot b.Key.function
      (b.value0 % 2 ^ 16) (b.value1 % 2 ^ 32)
    ([c], { b with ReturnCode := (api c).status })
  -- PLX-specific Register Access Functions
  | .PLX_IOCTL_REGISTER_READ =>
    let c := CoreCall.PlxRegisterRead pdx (b.value0 % 2 ^ 32) b.ReturnCode true
    ([c], { b with ReturnCode := (api c).status, value1 := (api c).ret % 2 ^ 32 })
  | .PLX_IOCTL_REGISTER_WRITE =>
    let c := CoreCall.PlxRegisterWrite pdx (b.value0 % 2 ^ 32) (b.value1 % 2 ^ 32) true
    ([c], { b with ReturnCode := (api c).status })
  | .PLX_IOCTL_MAPPED_REGISTER_READ =>
    let c := CoreCall.PlxRegisterRead pdx (b.value0 % 2 ^ 32) b.ReturnCode false
    ([c], { b with ReturnCode := (api c).status, value1 := (api c).ret % 2 ^ 32 })
  | .PLX_IOCTL_MAPPED_REGISTER_WRITE =>
    let c := CoreCall.PlxRegisterWrite pdx (b.value0 % 2 ^ 32) (b.value1 % 2 ^ 32) false
    ([c], { b with ReturnCode := (api c).status })
  | .PLX_IOCTL_MAILBOX_READ =>
    let c := CoreCall.PlxMailboxRead pdx (b.value0 % 2 ^ 16) b.ReturnCode
    ([c], { b with ReturnCode := (api c).status, value1 := (api c).ret % 2 ^ 32 })
  | .PLX_IOCTL_MAILBOX_WRITE =>
    let c := CoreCall.PlxMailboxWrite pdx (b.value0 % 2 ^ 16) (b.value1 % 2 ^ 32)
    ([c], { b with ReturnCode := (api c).status })
  -- PCI Mapping Functions
  | .PLX_IOCTL_PCI_BAR_PROPERTIES =>
    let c := CoreCall.PlxPciBarProperties pdx (b.value0 % 2 ^ 8) b.u.BarProp
    ([c], { b with ReturnCode := (api c).status, u := { b.u with BarProp := (api c).BarProp } })
  | .PLX_IOCTL_PCI_BAR_MAP =>
    let c := CoreCall.PlxPciBarMap pdx (b.value0 % 2 ^ 8) b.value1 pOwner
    ([c], { b with ReturnCode := (api c).status, value1 := (api c).out1 % 2 ^ 64 })
  | .PLX_IOCTL_PCI_BAR_UNMAP =>
    let c := CoreCall.PlxPciBarUnmap pdx (b.value1 % 2 ^ sys.ptrBits) pOwner
    ([c], { b with ReturnCode := (api c).status })
  -- Serial EEPROM Access Functions
  | .PLX_IOCTL_EEPROM_PRESENT =>
    let c := CoreCall.PlxEepromPresent pdx (b.value0 % 2 ^ 8)
    ([c], { b with ReturnCode := (api c).status, value0 := storeLow 8 b.value0 (api c).out0 })
  | .PLX_IOCTL_EEPROM_PROBE =>
    let c := CoreCall.PlxEepromProbe pdx (b.value0 % 2 ^ 8)
    ([c], { b with ReturnCode := (api c).status, value0 := storeLow 8 b.value0 (api c).out0 })
  | .PLX_IOCTL_EEPROM_CRC_GET =>
    let c := CoreCall.PlxEepromCrcGet pdx (b.value0 % 2 ^ 32) (b.value1 % 2 ^ 8)
    ([c], { b with ReturnCode := (api c).status,
                   value0 := storeLow 32 b.value0 (api c).out0,
                   value1 := storeLow 8 b.value1 (api c).out1 })
  | .PLX_IOCTL_EEPROM_CRC_UPDATE =>
    let c := CoreCall.PlxEepromCrcUpdate pdx (b.value0 % 2 ^ 32) (b.value1 % 2 ^ 8)
    ([c], { b with ReturnCode := (api c).status, value0 := storeLow 32 b.value0 (api c).out0 })
  | .PLX_IOCTL_EEPROM_READ_BY_OFFSET =>
    let c := CoreCall.PlxEepromReadByOffset pdx (b.value0 % 2 ^ 16) (b.value1 % 2 ^ 32)
    ([c], { b with ReturnCode := (api c).status, value1 := storeLow 32 b.value1 (api c).out1 })
  | .PLX_IOCTL_EEPROM_WRITE_BY_OFFSET =>
    let c := CoreCall.PlxEepromWriteByOffset pdx (b.value0 % 2 ^ 16) (b.value1 % 2 ^ 32)
    ([c], { b with ReturnCode := (api c).status })
  | .PLX_IOCTL_EEPROM_READ_BY_OFFSET_16 =>
    let c := CoreCall.PlxEepromReadByOffset_16 pdx (b.value0 % 2 ^ 16) (b.value1 % 2 ^ 16)
    ([c], { b with ReturnCode := (api c).status, value1 := storeLow 16 b.value1 (api c).out1 })
  | .PLX_IOCTL_EEPROM_WRITE_BY_OFFSET_16 =>
    let c := CoreCall.PlxEepromWriteByOffset_16 pdx (b.value0 % 2 ^ 16) (b.value1 % 2 ^ 16)
    ([c], { b with ReturnCode := (api c).status })
  -- I/O Port Access Functions
  | .PLX_IOCTL_IO_PORT_READ =>
    let c := CoreCall.PlxPciIoPortTransfer b.value0 (b.u.TxParams.UserVa % 2 ^ sys.ptrBits)
      b.u.TxParams.ByteCount (b.value1 % 2 ^ 32) true
    ([c], { b with ReturnCode := (api c).status })
  | .PLX_IOCTL_IO_PORT_WRITE =>
    let c := CoreCall.PlxPciIoPortTransfer b.value0 (b.u.TxParams.UserVa % 2 ^ sys.ptrBits)
      b.u.TxParams.ByteCount (b.value1 % 2 ^ 32) false
    ([c], { b with ReturnCode := (api c).status })
  -- Physical Memory Functions
  | .PLX_IOCTL_PHYSICAL_MEM_ALLOCATE =>
    let c := CoreCall.PlxPciPhysicalMemoryAllocate pdx b.u.PciMemory (b.value0 % 2 ^ 8) pOwner
    ([c], { b with ReturnCode := (api c).status,
                   u := { b.u with PciMemory := (api c).PciMemory } })
  | .PLX_IOCTL_PHYSICAL_MEM_FREE =>
    let c := CoreCall.PlxPciPhysicalMemoryFree pdx b.u.PciMemory
    ([c], { b with ReturnCode := (api c).status,
                   u := { b.u with PciMemory := (api c).PciMemory } })
  | .PLX_IOCTL_PHYSICAL_MEM_MAP =>
    let c := CoreCall.PlxPciPhysicalMemoryMap pdx b.u.PciMemory pOwner
    ([c], { b with ReturnCode := (api c).status,
                   u := { b.u with PciMemory := (api c).PciMemory } })
  | .PLX_IOCTL_PHYSICAL_MEM_UNMAP =>
    let c := CoreCall.PlxPciPhysicalMemoryUnmap pdx b.u.PciMemory pOwner
    ([c], { b with ReturnCode := (api c).status,
                   u := { b.u with PciMemory := (api c).PciMemory } })
  | .PLX_IOCTL_COMMON_BUFFER_PROPERTIES =>
    -- Return buffer information
    ([], { b with ReturnCode := .ApiSuccess,
                  u := { b.u with PciMemory :=
                    { b.u.PciMemory with PhysicalAddr := drv.CommonBuffer.BusPhysical,
                                         CpuPhysical := drv.CommonBuffer.CpuPhysical,
                                         Size := drv.CommonBuffer.Size } } })
  -- Interrupt Support Functions
  | .PLX_IOCTL_INTR_ENABLE =>
    let c := CoreCall.PlxInterruptEnable pdx b.u.PlxIntr
    ([c], { b with ReturnCode := (api c).status, u := { b.u with PlxIntr := (api c).PlxIntr } })
  | .PLX_IOCTL_INTR_DISABLE =>
    let c := CoreCall.PlxInterruptDisable pdx b.u.PlxIntr
    ([c], { b with ReturnCode := (api c).status, u := { b.u with PlxIntr := (api c).PlxIntr } })
  | .PLX_IOCTL_NOTIFICATION_REGISTER_FOR =>
    let c := CoreCall.PlxNotificationRegisterFor pdx b.u.PlxIntr
      (b.value0 % 2 ^ sys.ptrBits) pOwner
    ([c], { b with ReturnCode := (api c).status,
                   value0 := storeLow sys.ptrBits b.value0 (api c).out0 % 2 ^ 64,
                   u := { b.u with PlxIntr := (api c).PlxIntr } })
  | .PLX_IOCTL_NOTIFICATION_WAIT =>
    let c := CoreCall.PlxNotificationWait pdx (b.value0 % 2 ^ sys.ptrBits)
      (b.value1 % 2 ^ sys.ptrBits)
    ([c], { b with ReturnCode := (api c).status })
  | .PLX_IOCTL_NOTIFICATION_STATUS =>
    let c := CoreCall.PlxNotificationStatus pdx (b.value0 % 2 ^ sys.ptrBits) b.u.PlxIntr
    ([c], { b with ReturnCode := (api c).status, u := { b.u with PlxIntr := (api c).PlxIntr } })
  | .PLX_IOCTL_NOTIFICATION_CANCEL =>
    let c := CoreCall.PlxNotificationCancel pdx (b.value0 % 2 ^ sys.ptrBits) pOwner
    ([c], { b with ReturnCode := (api c).status })
  -- NT Port Functions
  | .PLX_IOCTL_NT_PROBE_REQ_ID =>
    let c := CoreCall.PlxNtReqIdProbe pdx (b.value0 % 2 ^ 8) (b.value1 % 2 ^ 16)
    ([c], { b with ReturnCode := (api c).status, value1 := storeLow 16 b.value1 (api c).out1 })
  | .PLX_IOCTL_NT_LUT_PROPERTIES =>
    let c := CoreCall.PlxNtLutProperties pdx (b.value0 % 2 ^ 16) (b.value0 % 2 ^ 16)
      (b.value1 % 2 ^ 32) (b.value2 % 2 ^ 8)
    ([c], { b with ReturnCode := (api c).status,
                   value0 := storeLow 16 b.value0 (api c).out0,
                   value1 := storeLow 32 b.value1 (api c).out1,
                   value2 := storeLow 8 b.value2 (api c).out2 })
  | .PLX_IOCTL_NT_LUT_ADD =>
    let c := CoreCall.PlxNtLutAdd pdx (b.value0 % 2 ^ 16) (b.value1 % 2 ^ 16)
      (b.value2 % 2 ^ 32) pOwner
    ([c], { b with ReturnCode := (api c).status, value0 := storeLow 16 b.value0 (api c).out0 })
  | .PLX_IOCTL_NT_LUT_DISABLE =>
    let c := CoreCall.PlxNtLutDisable pdx (b.value0 % 2 ^ 16) pOwner
    ([c], { b with ReturnCode := (api c).status })

/-- The case label selected by `switch (cmd)`: the label whose code is `cmd`, if any. -/
def decodeCmd (sys : PlxSys) (cmd : Nat) : Option PLX_IOCTL :=
  PLX_IOCTL.all.find? (fun c => sys.ioctlCode c = cmd)

/-- The switch of `Dispatch_IoControl`, `default:` included. -/
def ioctlSwitch (sys : PlxSys) (api : CoreCall → CoreRet) (drv : DRIVER_OBJECT)
    (pdx : Option Nat) (pOwner : Nat) (b : PLX_PARAMS) (cmd : Nat) :
    List CoreCall × PLX_PARAMS :=
  match decodeCmd sys cmd with
  | some c => ioctlCase sys api drv pdx pOwner b c
  -- Unsupported Messages
  | none => ([], { b with ReturnCode := .ApiUnsupportedFunction })

/-- Outcome of `Dispatch_IoControl`: the returned `int`, the API calls made, and the buffer
handed to `copy_to_user` (`none` when `copy_to_user` is not reached). -/
structure IoControlResult where
  status : Int
  calls : List CoreCall
  copied : Option PLX_PARAMS
  deriving DecidableEq, Repr

/-- The first statement of `Dispatch_IoControl`, "Get the device extension": `some none` is
`pdx = NULL`, `some (some fdo)` is the extension of device `fdo`, and `none` is the undefined
dereference of a `private_data` that is not a device object. -/
def getDeviceExtension (drv : DRIVER_OBJECT) (ino : inode) (filp : file) :
    Option (Option Nat) :=
  if ino.minor = PLX_MNGMT_INTERFACE then
    -- Management interface node only supports some IOCTLS
    some none
  else
    match filp.private_data with
    | .device fdo => (drv.DeviceObject[fdo]?).map (fun _ => some fdo)
    | _ => none

/-- Function `Dispatch_IoControl`: processes the IOCTL messages sent to this device.
`fromUser` is the message `copy_from_user` delivers (`none` when it returns non-zero),
`toUser` is what `copy_to_user` returns (the number of bytes it could not copy). -/
def Dispatch_IoControl (sys : PlxSys) (api : CoreCall → CoreRet) (drv : DRIVER_OBJECT)
    (ino : inode) (filp : file) (cmd : Nat) (fromUser : Option PLX_PARAMS) (toUser : Nat) :
    Option IoControlResult :=
  -- Get the device extension
  match getDeviceExtension drv ino filp with
  | none => none
  | some pdx =>
    -- Copy the I/O Control message from user space
    match fromUser with
    | none => some ⟨-EFAULT, [], none⟩
    | some IoBuffer =>
      -- Track the owner
      let pOwner := filp.addr
      -- Handle the PLX specific message
      let r := ioctlSwitch sys api drv pdx pOwner IoBuffer cmd
      some ⟨(toUser : Int), r.1, some r.2⟩

/-! ## Dispatch_mmap -/

/-- The kernel `struct vm_area_struct`: the fields `Dispatch_mmap` reads or writes. -/
structure vm_area_struct where
  vm_start : Nat
  vm_end : Nat
  vm_pgoff : Nat
  vm_flags : Nat
  vm_page_prot : Nat
  deriving DecidableEq, Repr

/-- The two remap calls of `Dispatch_mmap`, with the memory area as it is when the call is
made and the other four arguments in source order. -/
inductive RemapCall where
  | Plx_io_remap_pfn_range (vma : vm_area_struct) (addr pfn size prot : Nat)
  | Plx_remap_pfn_range (vma : vm_area_struct) (addr pfn size prot : Nat)
  deriving DecidableEq, Repr

/-- Outcome of `Dispatch_mmap`: the returned `int`, the memory area afterwards as far as
`Dispatch_mmap` itself writes it, and the remap calls made. -/
structure MmapResult where
  rc : Int
  vma : vm_area_struct
  calls : List RemapCall
  deriving DecidableEq, Repr

/-- The part of `Dispatch_mmap` after the switch: verify the physical address, then attempt
to map the region.  `remap` is what the remap function returns. -/
def mmapRegion (sys : PlxSys) (remap : RemapCall → Int) (vma : vm_area_struct)
    (AddressToMap : Nat) (bDeviceMem : Bool) : MmapResult :=
  -- Verify physical address
  if AddressToMap = 0 then ⟨-ENODEV, vma, []⟩
  else
    -- Set the region as page-locked
    let vma1 := { vma with vm_flags := vma.vm_flags ||| sys.VM_RESERVED }
    let size := (vma1.vm_end + 2 ^ sys.ptrBits - vma1.vm_start % 2 ^ sys.ptrBits) % 2 ^ sys.ptrBits
    if bDeviceMem then
      -- Set flag for I/O resource; the region must be marked as non-cached
      let vma2 := { vma1 with vm_flags := vma1.vm_flags ||| sys.VM_IO_FLAG }
      let vma3 := { vma2 with vm_page_prot := sys.pgprot_noncached vma2.vm_page_prot }
      -- Map device memory
      let c := RemapCall.Plx_io_remap_pfn_range vma3 vma3.vm_start
        (AddressToMap >>> sys.PAGE_SHIFT) size vma3.vm_page_prot
      ⟨remap c, vma3, [c]⟩
    else
      -- Map system memory
      let c := RemapCall.Plx_remap_pfn_range vma1 vma1.vm_start
        (AddressToMap >>> sys.PAGE_SHIFT) size vma1.vm_page_prot
      ⟨remap c, vma1, [c]⟩

/-- Function `Dispatch_mmap`: maps a PCI space into user virtual space.  The device extension is
read through `filp->private_data`; `offset` is `vma->vm_pgoff`, an `unsigned long`. -/
def Dispatch_mmap (sys : PlxSys) (remap : RemapCall → Int) (drv : DRIVER_OBJECT)
    (filp : file) (vma : vm_area_struct) : Option MmapResult :=
  -- Get device extension
  match filp.private_data with
  | .device fdo =>
    match drv.DeviceObject[fdo]? with
    | none => none
    | some d =>
      let pdx := d.DeviceExtension
      -- Get the supplied offset
      let offset := vma.vm_pgoff % 2 ^ sys.ptrBits
      -- Determine if mapping to a PCI BAR or system memory
      if offset ≤ 5 then
        match pdx.PciBar[offset]? with
        | none => none
        | some bar =>
          -- Verify space is not I/O
          if bar.Properties.bIoSpace then some ⟨-ENODEV, vma, []⟩
          else
            -- Use the BAR physical address for the mapping
            some (mmapRegion sys remap vma (bar.Properties.Physical % 2 ^ sys.ptrBits) true)
      else
        -- Use provided offset as CPU physical address for mapping
        some (mmapRegion sys remap vma ((offset <<< sys.PAGE_SHIFT) % 2 ^ sys.ptrBits) false)
  | _ => none

/-! ## Sequences of open and release on one device node -/

/-- Whether a call is a call of `StopDevice`. -/
def DriverCall.isStopDevice : DriverCall → Bool
  | .StopDevice _ => true
  | _ => false

/-- An open() or a close() on the device node, naming the file handle by its address. -/
inductive NodeEvent where
  | opened (addr : Nat)
  | released (addr : Nat)
  deriving DecidableEq, Repr

/-- State of a run on one device node: the driver object, the file handles that are open,
and for each release so far, in order, whether it called `StopDevice` and how many
connections remained open after it. -/
structure NodeRun where
  drv : DRIVER_OBJECT
  handles : List file
  log : List (Bool × Nat)
  deriving DecidableEq, Repr

/-- One event of a run in which every mutex acquisition and every `StartDevice` succeeds
(`down = 0`, `start = 0`).  An open creates a fresh file handle; a release closes a handle
that is open.  `none` when the handle released is not open, or the open fails. -/
def NodeRun.step (ino : inode) (s : NodeRun) : NodeEvent → Option NodeRun
  | .opened addr =>
    let r := Dispatch_open 0 0 s.drv ino ⟨addr, .null⟩
    if r.rc = 0 ∧ ∀ f ∈ s.handles, f.addr ≠ addr then
      some ⟨r.drv, r.filp :: s.handles, s.log⟩
    else none
  | .released addr =>
    match s.handles.find? (fun f => f.addr = addr) with
    | none => none
    | some f =>
      match Dispatch_release 0 s.drv ino f with
      | none => none
      | some r =>
        let remaining := s.handles.filter (fun g => g.addr ≠ addr)
        some ⟨r.drv, remaining,
          s.log ++ [(r.calls.any DriverCall.isStopDevice, remaining.length)]⟩

/-- A run: the events one after the other. -/
def NodeRun.run (ino : inode) (s : NodeRun) : List NodeEvent → Option NodeRun
  | [] => some s
  | e :: es =>
    match s.step ino e with
    | none => none
    | some s1 => s1.run ino es

/-- Number of opens among the events of a run. -/
def countOpened : List NodeEvent → Nat
  | [] => 0
  | .opened _ :: es => countOpened es + 1
  | .released _ :: es => countOpened es

/-! ## Example values -/

/-- A device extension with the given open count, six memory BARs and empty registries. -/
def exampleExtension (count : Nat) : DEVICE_EXTENSION :=
  { OpenCount := count
    PciBar := List.replicate 6 ⟨0, ⟨0xf0000000, false⟩, true⟩
    Source_Ints := 0
    Source_Doorbell := 0
    bDpcPending := false
    List_WaitObjects := []
    List_PhysicalMem := [] }

/-- A driver object with two devices, the first with the given open count. -/
def exampleDriver (count : Nat) : DRIVER_OBJECT :=
  { DeviceObject := [⟨exampleExtension count⟩, ⟨exampleExtension 0⟩]
    CommonBuffer := ⟨0, 0xc0000000, 0x10000000, 0x10000000, 0x2000⟩ }

/-- A build: command codes numbered from 0x100 in source order, SDK 6.40, 64-bit pointers,
4 KiB pages, the flag values of a 2.6 kernel. -/
def exampleSys : PlxSys :=
  { ioctlCode := fun c => 0x100 + PLX_IOCTL.all.indexOf c
    PLX_SDK_VERSION_MAJOR := 6
    PLX_SDK_VERSION_MINOR := 40
    ptrBits := 64
    PAGE_SHIFT := 12
    VM_RESERVED := 0x80000
    VM_IO_FLAG := 0x4000
    pgprot_noncached := fun prot => prot ||| 0x10 }

/-- An I/O buffer. -/
def exampleParams : PLX_PARAMS :=
  { ReturnCode := .ApiFailed
    Key := ⟨1, 2, 0, 0⟩
    value0 := 0x1234
    value1 := 100
    value2 := 0
    u := ⟨⟨5⟩, ⟨0x10000000, 0x10000000, 0x1000, 0⟩, ⟨0⟩, ⟨0, false⟩, ⟨0, 0, 0⟩⟩ }

/-- An oracle: every API function succeeds and leaves its pointer arguments at fixed
values. -/
def exampleApi : CoreCall → CoreRet :=
  fun _ => ⟨.ApiSuccess, 7, ⟨1, 2, 0, 0⟩, 0x77, 0x88, 0x99, ⟨5⟩, ⟨0x10000000, 0x10000000, 0x1000, 0⟩,
    ⟨0⟩, ⟨0, false⟩⟩

/-- A memory area. -/
def exampleVma (pgoff : Nat) : vm_area_struct :=
  ⟨0x7f0000000000, 0x7f0000001000, pgoff, 0, 0⟩

/-- The owner argument of a call made by open or release, when the function takes one. -/
def DriverCall.owner? : DriverCall → Option Nat
  | .api c => c.owner?
  | .PlxPciPhysicalMemoryFreeAll_ByOwner _ o => some o
  | _ => none

/-- The codes whose API function takes an owner argument: notification register and cancel,
physical memory allocate, map and unmap, BAR map and unmap, NT LUT add and disable. -/
def ownerCodes : List PLX_IOCTL :=
  [.PLX_IOCTL_NOTIFICATION_REGISTER_FOR, .PLX_IOCTL_NOTIFICATION_CANCEL,
   .PLX_IOCTL_PHYSICAL_MEM_ALLOCATE, .PLX_IOCTL_PHYSICAL_MEM_MAP,
   .PLX_IOCTL_PHYSICAL_MEM_UNMAP, .PLX_IOCTL_PCI_BAR_MAP, .PLX_IOCTL_PCI_BAR_UNMAP,
   .PLX_IOCTL_NT_LUT_ADD, .PLX_IOCTL_NT_LUT_DISABLE]

/-- The example driver with one block in the physical memory registry of its first device,
owned by the file at address 20. -/
def exampleOwnedDriver : DRIVER_OBJECT :=
  { DeviceObject :=
      [⟨{ exampleExtension 2 with
          List_PhysicalMem := [⟨20, 0xffff880010000000, 0x10000000, 0x10000000, 0x1000⟩] }⟩,
       ⟨exampleExtension 0⟩]
    CommonBuffer := ⟨0, 0xc0000000, 0x10000000, 0x10000000, 0x2000⟩ }

/-- Whether `addr` lies in a block of the physical memory registry of `pdx` that is owned
by `owner` (the registry check that the specification asks of a mapping). -/
def inOwnedBlock (pdx : DEVICE_EXTENSION) (owner addr : Nat) : Bool :=
  pdx.List_PhysicalMem.any
    (fun m => m.pOwner = owner ∧ m.CpuPhysical ≤ addr ∧ addr < m.CpuPhysical + m.Size)

/-! ## The notification and memory core, modelled from the specification

`ApiFunc.c`, `SuppFunc.c` and `Driver.c`, which hold the API functions, the interrupt handler
and its deferred procedure, are not among the sources.  This section models them from the
specification (§4.1 to §4.3), over the registries of `DEVICE_EXTENSION`.  Time is counted in
ticks: a timeout is a number of ticks, and `Tick` is the passing of one. -/

/-- Modelled from the spec: the outcome of `Wait` (§4.1), which is `PlxNotificationWait` of
ApiFunc.c, not among the sources: matched line and doorbell bits, or one of three errors. -/
inductive WaitResult where
  | matched (line doorbell : Nat)
  | TimedOut
  | Cancelled
  | InvalidHandle
  deriving DecidableEq, Repr

/-- Modelled from the spec: the error taxonomy of §7 (`InvalidHandle`, `ResourceExhausted`,
`TimedOut`, `Cancelled`, `Unsupported`, `DeviceNotReady`) with `NotOwner` of §4.3; the status
codes of PlxStat.h are not among the sources. -/
inductive CoreError where
  | InvalidHandle
  | ResourceExhausted
  | TimedOut
  | Cancelled
  | Unsupported
  | DeviceNotReady
  | NotOwner
  deriving DecidableEq, Repr

/-- Modelled from the spec: whether the requested masks of a wait object intersect the fired
bits (§4.1 `Dispatch`; the matching is done in SuppFunc.c, not among the sources). -/
def PLX_WAIT_OBJECT.intersects (o : PLX_WAIT_OBJECT) (line doorbell : Nat) : Bool :=
  (o.Notify_Flags &&& line != 0) || (o.Notify_Doorbell &&& doorbell != 0)

/-- Modelled from the spec: what `Dispatch` does to one registered object (SuppFunc.c is not
among the sources).  An object whose requested mask intersects the fired bits gets the
matching bits ORed into its observed fields, is set Triggered, and has its sleepers woken;
any other object is untouched. -/
def signalObject (line doorbell : Nat) (o : PLX_WAIT_OBJECT) : PLX_WAIT_OBJECT :=
  if o.intersects line doorbell then
    { o with
      Source_Ints := o.Source_Ints ||| (o.Notify_Flags &&& line)
      Source_Doorbell := o.Source_Doorbell ||| (o.Notify_Doorbell &&& doorbell)
      state := .PLX_STATE_TRIGGERED
      WaitQueue := o.WaitQueue.map (fun s => { s with woken := true }) }
  else o

/-- Modelled from the spec: `Dispatch(firedLine, firedDoorbell)` of §4.1 (the notification
signalling of SuppFunc.c, not among the sources): one pass over the registered objects. -/
def Dispatch (line doorbell : Nat) (reg : List PLX_WAIT_OBJECT) : List PLX_WAIT_OBJECT :=
  reg.map (signalObject line doorbell)

/-- Modelled from the spec: `Register(client, lineMask, doorbellMask)` of §4.1
(`PlxNotificationRegisterFor` of ApiFunc.c, not among the sources).  `alloc` is the address
of the allocated object, `none` when the allocation fails.  The new object has observed bits
zero and state Waiting and is appended; on allocation failure the registry is left alone. -/
def Register (alloc : Option Nat) (client lineMask doorbellMask : Nat)
    (reg : List PLX_WAIT_OBJECT) : Except CoreError Nat × List PLX_WAIT_OBJECT :=
  match alloc with
  | none => (.error .ResourceExhausted, reg)
  | some a =>
    (.ok a, reg ++ [{ addr := a, pOwner := client, Notify_Flags := lineMask,
                      Notify_Doorbell := doorbellMask, Source_Ints := 0, Source_Doorbell := 0,
                      state := .PLX_STATE_WAITING, SleepCount := 0, WaitQueue := [] }])

/-- Modelled from the spec: `Status(id)` of §4.1 (`PlxNotificationStatus` of ApiFunc.c, not
among the sources): a non-blocking peek at the observed bits, which does not clear them.  The
second component is the registry afterwards. -/
def Status (id : Nat) (reg : List PLX_WAIT_OBJECT) :
    Except CoreError (Nat × Nat) × List PLX_WAIT_OBJECT :=
  match reg.find? (fun o => o.addr = id) with
  | none => (.error .InvalidHandle, reg)
  | some o => (.ok (o.Source_Ints, o.Source_Doorbell), reg)

/-- Modelled from the spec: which objects a `Cancel(id | all-for-client, client)` of §4.1
names: with an id, the object of that id; without (`none`), every object owned by the
client. -/
def cancelTarget (target : Option Nat) (client : Nat) (o : PLX_WAIT_OBJECT) : Bool :=
  match target with
  | none => o.pOwner = client
  | some id => o.addr = id

/-- Modelled from the spec: what `Cancel` leaves behind: the objects still registered, the
objects retired, and the threads it woke, each with the result of its `Wait`. -/
structure CancelOutcome where
  registry : List PLX_WAIT_OBJECT
  retired : List PLX_WAIT_OBJECT
  woken : List (Nat × WaitResult)
  deriving DecidableEq, Repr

/-- Modelled from the spec: `Cancel(id | all-for-client, client)` of §4.1
(`PlxNotificationCancel` of ApiFunc.c, not among the sources): removes the matching objects
from the registry, retires them in state Cancelled with no sleeper left, and wakes every
thread that slept on one of them with result Cancelled. -/
def Cancel (target : Option Nat) (client : Nat) (reg : List PLX_WAIT_OBJECT) : CancelOutcome :=
  { registry := reg.filter (fun o => !cancelTarget target client o)
    retired := (reg.filter (cancelTarget target client)).map
      (fun o => { o with state := .PLX_STATE_CANCELLED, SleepCount := 0, WaitQueue := [] })
    woken := (reg.filter (cancelTarget target client)).flatMap
      (fun o => o.WaitQueue.map (fun s => (s.thread, WaitResult.Cancelled))) }

/-- Apply `f` to the registered object of address `id`. -/
def updateObject (id : Nat) (f : PLX_WAIT_OBJECT → PLX_WAIT_OBJECT)
    (reg : List PLX_WAIT_OBJECT) : List PLX_WAIT_OBJECT :=
  reg.map (fun o => if o.addr = id then f o else o)

/-- Modelled from the spec: the first half of `Wait(id, timeout)` of §4.1
(`PlxNotificationWait` of ApiFunc.c, not among the sources), done under the registry lock:
an unknown id is answered InvalidHandle; otherwise the sleeper count is incremented and the
thread joins the wait queue, already woken when the object is Triggered ("check
already-triggered, else sleep"), and to sleep for `timeout` ticks otherwise.  A timeout of 0
on an object that is not Triggered elapses at once.  The second component is the result when
the call returns without queueing the thread. -/
def WaitEnter (thread id timeout : Nat) (reg : List PLX_WAIT_OBJECT) :
    List PLX_WAIT_OBJECT × Option WaitResult :=
  match reg.find? (fun o => o.addr = id) with
  | none => (reg, some .InvalidHandle)
  | some o =>
    if o.state = .PLX_STATE_TRIGGERED then
      (updateObject id (fun o => { o with SleepCount := o.SleepCount + 1,
                                          WaitQueue := o.WaitQueue ++ [⟨thread, timeout, true⟩] }) reg,
        none)
    else if timeout = 0 then (reg, some .TimedOut)
    else
      (updateObject id (fun o => { o with SleepCount := o.SleepCount + 1,
                                          WaitQueue := o.WaitQueue ++ [⟨thread, timeout, false⟩] }) reg,
        none)

/-- Whether `thread` is in the wait queue of `o` and has been woken. -/
def PLX_WAIT_OBJECT.hasWoken (o : PLX_WAIT_OBJECT) (thread : Nat) : Bool :=
  o.WaitQueue.any (fun s => s.thread = thread && s.woken)

/-- Modelled from the spec: the second half of `Wait` for a thread woken by a trigger: under
the registry lock it reads and clears the observed bits of its object, which goes back to
Waiting, leaves the wait queue and decrements the sleeper count.  `none` when the thread is
not a woken sleeper. -/
def WaitLeave (thread : Nat) (reg : List PLX_WAIT_OBJECT) :
    Option (WaitResult × List PLX_WAIT_OBJECT) :=
  match reg.find? (fun o => o.hasWoken thread) with
  | none => none
  | some o =>
    some (.matched o.Source_Ints o.Source_Doorbell,
      updateObject o.addr (fun o => { o with Source_Ints := 0, Source_Doorbell := 0,
                                             state := .PLX_STATE_WAITING,
                                             SleepCount := o.SleepCount - 1,
                                             WaitQueue := o.WaitQueue.filter
                                               (fun s => s.thread ≠ thread) }) reg)

/-- Whether the timeout of a sleeper expires with the next tick. -/
def Sleeper.expires (s : Sleeper) : Bool :=
  !s.woken && decide (s.remaining ≤ 1)

/-- Modelled from the spec: one tick of time for one object: every sleeper that has not been
woken has one tick less to sleep; a sleeper whose timeout expires leaves the queue, the
sleeper count is decremented for it, and its `Wait` returns TimedOut (observed bits and state
are not touched). -/
def tickObject (o : PLX_WAIT_OBJECT) : PLX_WAIT_OBJECT :=
  { o with
    SleepCount := o.SleepCount - (o.WaitQueue.filter Sleeper.expires).length
    WaitQueue := (o.WaitQueue.filter (fun s => !s.expires)).map
      (fun s => if s.woken then s else { s with remaining := s.remaining - 1 }) }

/-- Modelled from the spec: one tick of time for the registry, with the threads whose `Wait`
timed out. -/
def Tick (reg : List PLX_WAIT_OBJECT) : List PLX_WAIT_OBJECT × List (Nat × WaitResult) :=
  (reg.map tickObject,
   reg.flatMap (fun o => (o.WaitQueue.filter Sleeper.expires).map
     (fun s => (s.thread, WaitResult.TimedOut))))

/-- Modelled from the spec: the operations of §4.1 on the wait-object registry of a device, as
the events of a run (the callers are in ApiFunc.c and SuppFunc.c, not among the sources),
with the passing of one tick of time. -/
inductive CoreEvent where
  | register (alloc : Option Nat) (client lineMask doorbellMask : Nat)
  | waitEnter (thread id timeout : Nat)
  | waitLeave (thread : Nat)
  | status (id : Nat)
  | cancel (target : Option Nat) (client : Nat)
  | dispatch (line doorbell : Nat)
  | tick
  deriving DecidableEq, Repr

/-- The wait-object registry of a device together with the results of the `Wait` calls that
have returned, in order, each with the thread that made the call. -/
structure CoreState where
  registry : List PLX_WAIT_OBJECT
  results : List (Nat × WaitResult)
  deriving DecidableEq, Repr

/-- Modelled from the spec: one event on the registry.  Every operation is one step, as the
registry lock of §5 orders all registry mutations; a `Wait` that returns at once, times out
or is cancelled reports its result here, a `Wait` woken by a trigger when it leaves. -/
def CoreState.step (s : CoreState) : CoreEvent → CoreState
  | .register alloc client lineMask doorbellMask =>
    { s with registry := (Register alloc client lineMask doorbellMask s.registry).2 }
  | .waitEnter thread id timeout =>
    match WaitEnter thread id timeout s.registry with
    | (reg, none) => { s with registry := reg }
    | (reg, some r) => { registry := reg, results := s.results ++ [(thread, r)] }
  | .waitLeave thread =>
    match WaitLeave thread s.registry with
    | none => s
    | some (r, reg) => { registry := reg, results := s.results ++ [(thread, r)] }
  | .status id => { s with registry := (Status id s.registry).2 }
  | .cancel target client =>
    { registry := (Cancel target client s.registry).registry
      results := s.results ++ (Cancel target client s.registry).woken }
  | .dispatch line doorbell => { s with registry := Dispatch line doorbell s.registry }
  | .tick => { registry := (Tick s.registry).1, results := s.results ++ (Tick s.registry).2 }

/-- A run of events on the registry. -/
def CoreState.run (s : CoreState) (es : List CoreEvent) : CoreState :=
  es.foldl CoreState.step s

/-- Whether `thread` sleeps, not woken, on a registered object. -/
def CoreState.blocked (s : CoreState) (thread : Nat) : Bool :=
  s.registry.any (fun o => o.WaitQueue.any (fun sl => sl.thread = thread && !sl.woken))

/-- Number of ticks among the events. -/
def countTicks : List CoreEvent → Nat
  | [] => 0
  | .tick :: es => countTicks es + 1
  | _ :: es => countTicks es

/-- Whether an event is `thread` entering `Wait`. -/
def CoreEvent.isWaitEnterOf (thread : Nat) : CoreEvent → Bool
  | .waitEnter t _ _ => t = thread
  | _ => false

/-- Whether an event is the passing of a tick, or a `Dispatch` whose fired bits intersect
neither mask of `o`. -/
def CoreEvent.isQuietFor (o : PLX_WAIT_OBJECT) : CoreEvent → Bool
  | .tick => true
  | .dispatch line doorbell => !o.intersects line doorbell
  | _ => false

/-- Modelled from the spec: `FreeAllByOwner(client)` of §4.3
(`PlxPciPhysicalMemoryFreeAll_ByOwner`, declared in a file that is not among the sources):
frees every block owned by the client. -/
def FreeAllByOwner (client : Nat) (reg : List PLX_PHYS_MEM_OBJECT) : List PLX_PHYS_MEM_OBJECT :=
  reg.filter (fun m => m.pOwner ≠ client)

/-- The driver object during the teardown of a client, with the wait objects retired and the
threads woken so far. -/
structure Teardown where
  drv : DRIVER_OBJECT
  retired : List PLX_WAIT_OBJECT
  woken : List (Nat × WaitResult)
  deriving DecidableEq, Repr

/-- Modelled from the spec: what a call recorded by `Dispatch_release` does to the registries
of the device it names (the called functions are not among the sources).
`PlxNotificationCancel` is `Cancel` of §4.1, a null wait object meaning all objects of the
owner; `PlxPciPhysicalMemoryFreeAll_ByOwner` is `FreeAllByOwner` of §4.3; `StartDevice` and
`StopDevice` are not among the registry operations of the spec and leave both registries as
they are. -/
def DriverCall.perform (t : Teardown) : DriverCall → Teardown
  | .api (.PlxNotificationCancel (some fdo) pUserWaitObject pOwner) =>
    match t.drv.DeviceObject[fdo]? with
    | none => t
    | some d =>
      let c := Cancel (if pUserWaitObject = 0 then none else some pUserWaitObject) pOwner
        d.DeviceExtension.List_WaitObjects
      { drv := updateExtension t.drv fdo (fun pdx => { pdx with List_WaitObjects := c.registry })
        retired := t.retired ++ c.retired
        woken := t.woken ++ c.woken }
  | .PlxPciPhysicalMemoryFreeAll_ByOwner (some fdo) pOwner =>
    { t with
      drv := (updateExtension t.drv fdo (fun pdx =>
        { pdx with List_PhysicalMem := FreeAllByOwner pOwner pdx.List_PhysicalMem })) }
  | _ => t

/-- The teardown of a client: `Dispatch_release` on its file handle, with the calls it makes
carried out on the registries in the order they are made. -/
def teardown (down : Int) (drv : DRIVER_OBJECT) (ino : inode) (filp : file) : Option Teardown :=
  (Dispatch_release down drv ino filp).map
    (fun r => r.calls.foldl DriverCall.perform ⟨r.drv, [], []⟩)

/-- The wait-queue entries of `thread` in the registry. -/
def sleepersOf (thread : Nat) (reg : List PLX_WAIT_OBJECT) : List Sleeper :=
  reg.flatMap (fun o => o.WaitQueue.filter (fun s => s.thread = thread))

/-- The results of the `Wait` calls of `thread` among the results reported, in order. -/
def resultsOf (thread : Nat) (l : List (Nat × WaitResult)) : List WaitResult :=
  (l.filter (fun p => p.1 = thread)).map (fun p => p.2)

/-! ### Interrupt handler and bottom half -/

/-- Modelled from the spec: the interrupt state of one device (§4.2; the handler and its
deferred procedure are in Driver.c, not among the sources).  Beside the device extension,
with its captured bits `Source_Ints`, `Source_Doorbell` and pending flag `bDpcPending`:
whether a bottom half is queued and has not started, the snapshot of a bottom half that is
running, the snapshots passed to `Dispatch` so far, and for every scheduling of the bottom
half the pending flag, the queued flag and the running flag found at that moment. -/
structure IsrState where
  pdx : DEVICE_EXTENSION
  queued : Bool
  running : Option (Nat × Nat)
  delivered : List (Nat × Nat)
  schedules : List (Bool × Bool × Bool)
  deriving DecidableEq, Repr

/-- Modelled from the spec: the events of the interrupt hand-off of §4.2: an interrupt with
the given owned line and doorbell bits live, the start of a bottom-half pass, or its end. -/
inductive IsrEvent where
  | interrupt (line doorbell : Nat)
  | bottomHalfBegin
  | bottomHalfEnd
  deriving DecidableEq, Repr

/-- Modelled from the spec: the immediate handler of §4.2.  With no owned bit live it
declines.  Otherwise it captures the bits, ORing them into the captured bits of the device,
and schedules the bottom half unless the pending flag is set. -/
def OnInterrupt (line doorbell : Nat) (s : IsrState) : IsrState :=
  if line = 0 ∧ doorbell = 0 then s
  else
    let pdx1 := { s.pdx with Source_Ints := s.pdx.Source_Ints ||| line,
                             Source_Doorbell := s.pdx.Source_Doorbell ||| doorbell }
    if s.pdx.bDpcPending then { s with pdx := pdx1 }
    else
      { s with pdx := { pdx1 with bDpcPending := true }
               queued := true
               schedules := s.schedules ++ [(s.pdx.bDpcPending, s.queued, s.running.isSome)] }

/-- Modelled from the spec: the start of a bottom-half pass of §4.2: a queued bottom half
takes the captured bits as its snapshot ("captured once per bottom-half pass") and empties
them.  Nothing happens when no bottom half is queued. -/
def DpcBegin (s : IsrState) : IsrState :=
  if s.queued then
    { s with pdx := { s.pdx with Source_Ints := 0, Source_Doorbell := 0 }
             queued := false
             running := some (s.pdx.Source_Ints, s.pdx.Source_Doorbell) }
  else s

/-- Modelled from the spec: the end of a bottom-half pass of §4.2: `Dispatch` is called with
the snapshot on the wait-object registry and the pending flag is cleared.  Nothing happens
when no bottom half is running. -/
def DpcEnd (s : IsrState) : IsrState :=
  match s.running with
  | none => s
  | some snap =>
    { s with pdx := { s.pdx with List_WaitObjects := Dispatch snap.1 snap.2 s.pdx.List_WaitObjects,
                                 bDpcPending := false }
             running := none
             delivered := s.delivered ++ [snap] }

/-- Modelled from the spec: one event of the hand-off of §4.2 on the interrupt state. -/
def IsrState.step (s : IsrState) : IsrEvent → IsrState
  | .interrupt line doorbell => OnInterrupt line doorbell s
  | .bottomHalfBegin => DpcBegin s
  | .bottomHalfEnd => DpcEnd s

/-- A run of events on the interrupt state. -/
def IsrState.run (s : IsrState) (es : List IsrEvent) : IsrState :=
  es.foldl IsrState.step s

/-- The line bits of a list of snapshots, ORed. -/
def orLine (l : List (Nat × Nat)) : Nat :=
  l.foldr (fun p acc => p.1 ||| acc) 0

/-- The doorbell bits of a list of snapshots, ORed. -/
def orDoorbell (l : List (Nat × Nat)) : Nat :=
  l.foldr (fun p acc => p.2 ||| acc) 0

/-- A wait object at address `a` of client `owner` with the given masks, freshly registered. -/
def exampleWaitObject (a owner lineMask doorbellMask : Nat) : PLX_WAIT_OBJECT :=
  { addr := a, pOwner := owner, Notify_Flags := lineMask, Notify_Doorbell := doorbellMask,
    Source_Ints := 0, Source_Doorbell := 0, state := .PLX_STATE_WAITING, SleepCount := 0,
    WaitQueue := [] }

/-- Three wait objects: two of the client at address 10, one of them with thread 7 asleep on
it, and one of the client at address 20. -/
def exampleWaitObjects : List PLX_WAIT_OBJECT :=
  [{ exampleWaitObject 0x1000 10 0x1 0 with SleepCount := 1, WaitQueue := [⟨7, 100, false⟩] },
   exampleWaitObject 0x2000 20 0x3 0,
   exampleWaitObject 0x3000 10 0x2 0x4]

/-- Four memory blocks: three of the client at address 10 and one of the client at
address 20. -/
def exampleBlocks : List PLX_PHYS_MEM_OBJECT :=
  [⟨10, 0xffff880010000000, 0x10000000, 0x10000000, 0x1000⟩,
   ⟨20, 0xffff880010002000, 0x10002000, 0x10002000, 0x1000⟩,
   ⟨10, 0xffff880010004000, 0x10004000, 0x10004000, 0x2000⟩,
   ⟨10, 0xffff880010008000, 0x10008000, 0x10008000, 0x1000⟩]

/-- The example driver whose first device has the example wait objects and memory blocks
in its registries. -/
def exampleBusyDriver : DRIVER_OBJECT :=
  { DeviceObject :=
      [⟨{ exampleExtension 2 with
          List_WaitObjects := exampleWaitObjects
          List_PhysicalMem := exampleBlocks }⟩,
       ⟨exampleExtension 0⟩]
    CommonBuffer := ⟨0, 0xc0000000, 0x10000000, 0x10000000, 0x2000⟩ }

/-! ### Example values for other builds -/

/-- The example build with 32-bit pointers. -/
def exampleSys32 : PlxSys :=
  { exampleSys with ptrBits := 32 }

/-- The example build with an SDK major version of 32768 and minor version 0. -/
def exampleHighVersionSys : PlxSys :=
  { exampleSys with PLX_SDK_VERSION_MAJOR := 32768, PLX_SDK_VERSION_MINOR := 0 }

/-- A driver object with one device whose BAR 0 is a memory space at 4 GiB and whose BAR 1 is
a memory space at 4 GiB + 8 KiB. -/
def exampleHighBarDriver : DRIVER_OBJECT :=
  { DeviceObject :=
      [⟨{ exampleExtension 1 with
          PciBar := [⟨0, ⟨0x100000000, false⟩, true⟩, ⟨0, ⟨0x100002000, false⟩, true⟩] ++
            List.replicate 4 ⟨0, ⟨0, false⟩, false⟩ }⟩]
    CommonBuffer := ⟨0, 0xc0000000, 0x10000000, 0x10000000, 0x2000⟩ }

/-- A memory area of one page in a 32-bit address space. -/
def exampleVma32 (pgoff : Nat) : vm_area_struct :=
  ⟨0x40000000, 0x40001000, pgoff, 0, 0⟩

/-! ## Lemmas on the device list -/

theorem walkDeviceList_lt (len : Nat) :
    ∀ (i : Nat) (p : Option Nat) (fdo : Nat), (∀ k, p = some k → k < len) →
      walkDeviceList len i p = some fdo → fdo < len := by
  intro i
  induction i with
  | zero =>
    intro p fdo hp h
    simp only [walkDeviceList] at h
    exact hp fdo h
  | succ n ih =>
    intro p fdo hp h
    cases p with
    | none => simp [walkDeviceList] at h
    | some k =>
      simp only [walkDeviceList] at h
      refine ih (NextDevice len k) fdo ?_ h
      intro j hj
      unfold NextDevice at hj
      split at hj
      · cases hj; assumption
      · cases hj

theorem firstDevice_lt (drv : DRIVER_OBJECT) (k : Nat) (h : firstDevice drv = some k) :
    k < drv.DeviceObject.length := by
  unfold firstDevice at h
  split at h
  · cases h; assumption
  · cases h

theorem openCount_updateExtension (drv : DRIVER_OBJECT) (fdo : Nat)
    (f : DEVICE_EXTENSION → DEVICE_EXTENSION) (h : fdo < drv.DeviceObject.length) :
    openCount (updateExtension drv fdo f) fdo
      = (f (drv.DeviceObject.get ⟨fdo, h⟩).DeviceExtension).OpenCount := by
  unfold openCount updateExtension
  have hget : drv.DeviceObject[fdo]? = some (drv.DeviceObject.get ⟨fdo, h⟩) := by
    simp [List.getElem?_eq_getElem h]
  rw [hget]
  simp [List.getElem?_set, h]

theorem openCount_eq_get (drv : DRIVER_OBJECT) (fdo : Nat) (h : fdo < drv.DeviceObject.length) :
    openCount drv fdo = (drv.DeviceObject.get ⟨fdo, h⟩).DeviceExtension.OpenCount := by
  unfold openCount
  simp [List.getElem?_eq_getElem h]

theorem openCount_updateExtension_ne (drv : DRIVER_OBJECT) (fdo other : Nat)
    (f : DEVICE_EXTENSION → DEVICE_EXTENSION) (h : other ≠ fdo) :
    openCount (updateExtension drv fdo f) other = openCount drv other := by
  unfold openCount updateExtension
  cases hd : drv.DeviceObject[fdo]? with
  | none => rfl
  | some d =>
    simp only [List.getElem?_set_ne (Ne.symm h)]

/-! ## Dispatch_release and Dispatch_open -/

/-- C1: on a device node, `Dispatch_release` calls `PlxNotificationCancel` with a null wait
object and the closing file as owner, then `PlxPciPhysicalMemoryFreeAll_ByOwner` with the
same file as owner, both on the extension of the device the handle refers to, each once, and
nothing else except possibly `StopDevice` afterwards; this holds for every open count and
every outcome of the mutex acquisition. -/
theorem Dispatch_release_cancels_and_frees (down : Int) (drv : DRIVER_OBJECT) (ino : inode)
    (filp : file) (fdo : Nat) (d : DEVICE_OBJECT)
    (hminor : ino.minor ≠ PLX_MNGMT_INTERFACE)
    (hpriv : filp.private_data = .device fdo)
    (hdev : drv.DeviceObject[fdo]? = some d) :
    ∃ r, Dispatch_release down drv ino filp = some r ∧
      (r.calls = [.api (.PlxNotificationCancel (some fdo) 0 filp.addr),
                  .PlxPciPhysicalMemoryFreeAll_ByOwner (some fdo) filp.addr] ∨
       r.calls = [.api (.PlxNotificationCancel (some fdo) 0 filp.addr),
                  .PlxPciPhysicalMemoryFreeAll_ByOwner (some fdo) filp.addr,
                  .StopDevice fdo]) ∧
      r.calls.count (.api (.PlxNotificationCancel (some fdo) 0 filp.addr)) = 1 ∧
      r.calls.count (.PlxPciPhysicalMemoryFreeAll_ByOwner (some fdo) filp.addr) = 1 := by
  unfold Dispatch_release
  rw [if_neg hminor]
  simp only [hpriv, hdev]
  split
  · exact ⟨_, rfl, Or.inl rfl, by simp [List.count_cons], by simp [List.count_cons]⟩
  · split
    · exact ⟨_, rfl, Or.inr rfl, by simp [List.count_cons], by simp [List.count_cons]⟩
    · exact ⟨_, rfl, Or.inl rfl, by simp [List.count_cons], by simp [List.count_cons]⟩

/-- Witness for C1: closing file 10 on the first example device, open count 3. -/
theorem Dispatch_release_cancels_and_frees_witness :
    ∃ r, Dispatch_release 0 (exampleDriver 3) ⟨0⟩ ⟨10, .device 0⟩ = some r ∧
      (r.calls = [.api (.PlxNotificationCancel (some 0) 0 10),
                  .PlxPciPhysicalMemoryFreeAll_ByOwner (some 0) 10] ∨
       r.calls = [.api (.PlxNotificationCancel (some 0) 0 10),
                  .PlxPciPhysicalMemoryFreeAll_ByOwner (some 0) 10,
                  .StopDevice 0]) ∧
      r.calls.count (.api (.PlxNotificationCancel (some 0) 0 10)) = 1 ∧
      r.calls.count (.PlxPciPhysicalMemoryFreeAll_ByOwner (some 0) 10) = 1 :=
  Dispatch_release_cancels_and_frees 0 (exampleDriver 3) ⟨0⟩ ⟨10, .device 0⟩ 0
    ⟨exampleExtension 3⟩ (by decide) rfl rfl

theorem Dispatch_open_nodev (down start : Int) (drv : DRIVER_OBJECT) (ino : inode)
    (filp : file) (hminor : ino.minor ≠ PLX_MNGMT_INTERFACE)
    (hw : walkDeviceList drv.DeviceObject.length (ino.minor % 2 ^ 8) (firstDevice drv) = none) :
    Dispatch_open down start drv ino filp = ⟨-ENODEV, drv, filp, []⟩ := by
  unfold Dispatch_open
  rw [if_neg hminor, hw]

theorem Dispatch_open_interrupted (down start : Int) (drv : DRIVER_OBJECT) (ino : inode)
    (filp : file) (fdo : Nat) (hminor : ino.minor ≠ PLX_MNGMT_INTERFACE)
    (hw : walkDeviceList drv.DeviceObject.length (ino.minor % 2 ^ 8) (firstDevice drv)
      = some fdo)
    (hdown : down < 0) :
    Dispatch_open down start drv ino filp = ⟨-ERESTARTSYS, drv, filp, []⟩ := by
  unfold Dispatch_open
  rw [if_neg hminor, hw]
  simp only [if_pos hdown]

theorem Dispatch_open_start_failed (down start : Int) (drv : DRIVER_OBJECT) (ino : inode)
    (filp : file) (fdo : Nat) (hminor : ino.minor ≠ PLX_MNGMT_INTERFACE)
    (hw : walkDeviceList drv.DeviceObject.length (ino.minor % 2 ^ 8) (firstDevice drv)
      = some fdo)
    (hdown : ¬ down < 0) (hstart : start ≠ 0) :
    Dispatch_open down start drv ino filp = ⟨start, drv, filp, [.StartDevice fdo]⟩ := by
  unfold Dispatch_open
  rw [if_neg hminor, hw]
  simp only [if_neg hdown, if_pos hstart]

theorem Dispatch_open_started (down start : Int) (drv : DRIVER_OBJECT) (ino : inode)
    (filp : file) (fdo : Nat) (hminor : ino.minor ≠ PLX_MNGMT_INTERFACE)
    (hw : walkDeviceList drv.DeviceObject.length (ino.minor % 2 ^ 8) (firstDevice drv)
      = some fdo)
    (hdown : ¬ down < 0) (hstart : start = 0) :
    Dispatch_open down start drv ino filp =
      ⟨0, updateExtension drv fdo
            (fun pdx => { pdx with OpenCount := (pdx.OpenCount + 1) % 2 ^ 8 }),
        { filp with private_data := .device fdo }, [.StartDevice fdo]⟩ := by
  unfold Dispatch_open
  rw [if_neg hminor, hw]
  simp only [if_neg hdown, hstart, ne_eq, not_true_eq_false, if_false]

/-- C10: on a device node `Dispatch_open` is all-or-nothing.  Either it returns 0, and then
`StartDevice` was called on the selected device and returned 0, the open count of that device
went up by one modulo 256 (no other device's count changed) and the device object is the
handle's private data; or it returns a non-zero code, which is `-ENODEV`, `-ERESTARTSYS` or
the non-zero code `StartDevice` returned, and the driver object (so every open count) and the
handle are unchanged. -/
theorem Dispatch_open_all_or_nothing (down start : Int) (drv : DRIVER_OBJECT) (ino : inode)
    (filp : file) (hminor : ino.minor ≠ PLX_MNGMT_INTERFACE) :
    (∃ fdo, fdo < drv.DeviceObject.length ∧
        (Dispatch_open down start drv ino filp).rc = 0 ∧ start = 0 ∧
        (Dispatch_open down start drv ino filp).calls = [.StartDevice fdo] ∧
        openCount (Dispatch_open down start drv ino filp).drv fdo
          = (openCount drv fdo + 1) % 2 ^ 8 ∧
        (∀ other, other ≠ fdo →
          openCount (Dispatch_open down start drv ino filp).drv other = openCount drv other) ∧
        (Dispatch_open down start drv ino filp).filp = { filp with private_data := .device fdo })
    ∨
    ((Dispatch_open down start drv ino filp).rc ≠ 0 ∧
        (((Dispatch_open down start drv ino filp).rc = -ENODEV ∧
            (Dispatch_open down start drv ino filp).calls = []) ∨
         ((Dispatch_open down start drv ino filp).rc = -ERESTARTSYS ∧
            (Dispatch_open down start drv ino filp).calls = []) ∨
         ((Dispatch_open down start drv ino filp).rc = start ∧
            ∃ fdo, (Dispatch_open down start drv ino filp).calls = [.StartDevice fdo])) ∧
        (Dispatch_open down start drv ino filp).drv = drv ∧
        (Dispatch_open down start drv ino filp).filp = filp) := by
  cases hw : walkDeviceList drv.DeviceObject.length (ino.minor % 2 ^ 8) (firstDevice drv) with
  | none =>
    right
    rw [Dispatch_open_nodev down start drv ino filp hminor hw]
    exact ⟨by simp [ENODEV], Or.inl ⟨rfl, rfl⟩, rfl, rfl⟩
  | some fdo =>
    have hlt : fdo < drv.DeviceObject.length :=
      walkDeviceList_lt _ _ _ fdo (fun k hk => firstDevice_lt drv k hk) hw
    by_cases hdown : down < 0
    · right
      rw [Dispatch_open_interrupted down start drv ino filp fdo hminor hw hdown]
      exact ⟨by simp [ERESTARTSYS], Or.inr (Or.inl ⟨rfl, rfl⟩), rfl, rfl⟩
    · by_cases hstart : start ≠ 0
      · right
        rw [Dispatch_open_start_failed down start drv ino filp fdo hminor hw hdown hstart]
        exact ⟨hstart, Or.inr (Or.inr ⟨rfl, fdo, rfl⟩), rfl, rfl⟩
      · left
        have hs : start = 0 := not_not.mp hstart
        rw [Dispatch_open_started down start drv ino filp fdo hminor hw hdown hs]
        refine ⟨fdo, hlt, rfl, hs, rfl, ?_, ?_, rfl⟩
        · show openCount (updateExtension drv fdo _) fdo = _
          rw [openCount_updateExtension drv fdo _ hlt, openCount_eq_get drv fdo hlt]
        · intro other hne
          exact openCount_updateExtension_ne drv fdo other _ hne

/-- Witness for C10: opening minor 0 of the example driver, whose first device has open
count 255, with the mutex acquired and `StartDevice` returning 0. -/
theorem Dispatch_open_all_or_nothing_witness :
    (∃ fdo, fdo < (exampleDriver 255).DeviceObject.length ∧
        (Dispatch_open 0 0 (exampleDriver 255) ⟨0⟩ ⟨10, .null⟩).rc = 0 ∧ (0 : Int) = 0 ∧
        (Dispatch_open 0 0 (exampleDriver 255) ⟨0⟩ ⟨10, .null⟩).calls = [.StartDevice fdo] ∧
        openCount (Dispatch_open 0 0 (exampleDriver 255) ⟨0⟩ ⟨10, .null⟩).drv fdo
          = (openCount (exampleDriver 255) fdo + 1) % 2 ^ 8 ∧
        (∀ other, other ≠ fdo →
          openCount (Dispatch_open 0 0 (exampleDriver 255) ⟨0⟩ ⟨10, .null⟩).drv other
            = openCount (exampleDriver 255) other) ∧
        (Dispatch_open 0 0 (exampleDriver 255) ⟨0⟩ ⟨10, .null⟩).filp
          = { (⟨10, .null⟩ : file) with private_data := .device fdo })
    ∨
    ((Dispatch_open 0 0 (exampleDriver 255) ⟨0⟩ ⟨10, .null⟩).rc ≠ 0 ∧
        (((Dispatch_open 0 0 (exampleDriver 255) ⟨0⟩ ⟨10, .null⟩).rc = -ENODEV ∧
            (Dispatch_open 0 0 (exampleDriver 255) ⟨0⟩ ⟨10, .null⟩).calls = []) ∨
         ((Dispatch_open 0 0 (exampleDriver 255) ⟨0⟩ ⟨10, .null⟩).rc = -ERESTARTSYS ∧
            (Dispatch_open 0 0 (exampleDriver 255) ⟨0⟩ ⟨10, .null⟩).calls = []) ∨
         ((Dispatch_open 0 0 (exampleDriver 255) ⟨0⟩ ⟨10, .null⟩).rc = 0 ∧
            ∃ fdo, (Dispatch_open 0 0 (exampleDriver 255) ⟨0⟩ ⟨10, .null⟩).calls
              = [.StartDevice fdo])) ∧
        (Dispatch_open 0 0 (exampleDriver 255) ⟨0⟩ ⟨10, .null⟩).drv = exampleDriver 255 ∧
        (Dispatch_open 0 0 (exampleDriver 255) ⟨0⟩ ⟨10, .null⟩).filp = ⟨10, .null⟩) :=
  Dispatch_open_all_or_nothing 0 0 (exampleDriver 255) ⟨0⟩ ⟨10, .null⟩ (by decide)

/-! ## Dispatch_IoControl -/

theorem PLX_IOCTL.mem_all (c : PLX_IOCTL) : c ∈ PLX_IOCTL.all := by
  cases c <;> simp [PLX_IOCTL.all]

theorem decodeCmd_eq_none (sys : PlxSys) (cmd : Nat) (h : ∀ c, sys.ioctlCode c ≠ cmd) :
    decodeCmd sys cmd = none := by
  unfold decodeCmd
  rw [List.find?_eq_none]
  intro c _
  simpa using h c

theorem decodeCmd_code (sys : PlxSys) (cmd : Nat) (c : PLX_IOCTL)
    (h : decodeCmd sys cmd = some c) : sys.ioctlCode c = cmd := by
  unfold decodeCmd at h
  simpa using List.find?_some h

theorem decodeCmd_isSome (sys : PlxSys) (cmd : Nat) (c : PLX_IOCTL)
    (h : sys.ioctlCode c = cmd) : ∃ c1, decodeCmd sys cmd = some c1 := by
  cases hd : decodeCmd sys cmd with
  | some c1 => exact ⟨c1, rfl⟩
  | none =>
    unfold decodeCmd at hd
    rw [List.find?_eq_none] at hd
    have := hd c (PLX_IOCTL.mem_all c)
    simp [h] at this

theorem Dispatch_IoControl_eq (sys : PlxSys) (api : CoreCall → CoreRet) (drv : DRIVER_OBJECT)
    (ino : inode) (filp : file) (cmd : Nat) (b : PLX_PARAMS) (toUser : Nat) (pdx : Option Nat)
    (hpdx : getDeviceExtension drv ino filp = some pdx) :
    Dispatch_IoControl sys api drv ino filp cmd (some b) toUser =
      some ⟨(toUser : Int), (ioctlSwitch sys api drv pdx filp.addr b cmd).1,
        some (ioctlSwitch sys api drv pdx filp.addr b cmd).2⟩ := by
  unfold Dispatch_IoControl
  rw [hpdx]

theorem ioctlSwitch_default (sys : PlxSys) (api : CoreCall → CoreRet) (drv : DRIVER_OBJECT)
    (pdx : Option Nat) (pOwner : Nat) (b : PLX_PARAMS) (cmd : Nat)
    (h : decodeCmd sys cmd = none) :
    ioctlSwitch sys api drv pdx pOwner b cmd
      = ([], { b with ReturnCode := .ApiUnsupportedFunction }) := by
  unfold ioctlSwitch
  rw [h]

theorem ioctlSwitch_case (sys : PlxSys) (api : CoreCall → CoreRet) (drv : DRIVER_OBJECT)
    (pdx : Option Nat) (pOwner : Nat) (b : PLX_PARAMS) (cmd : Nat) (c : PLX_IOCTL)
    (h : decodeCmd sys cmd = some c) :
    ioctlSwitch sys api drv pdx pOwner b cmd = ioctlCase sys api drv pdx pOwner b c := by
  unfold ioctlSwitch
  rw [h]

theorem exampleSys_decode (c : PLX_IOCTL) :
    decodeCmd exampleSys (exampleSys.ioctlCode c) = some c := by
  cases c <;> decide

/-- C2: for a command code that is none of the codes of the switch, and a request that is
copied in, `Dispatch_IoControl` calls no API function, hands `copy_to_user` the request
buffer with `ReturnCode` set to `ApiUnsupportedFunction` and every other field as it was,
and returns what `copy_to_user` returns. -/
theorem Dispatch_IoControl_unsupported (sys : PlxSys) (api : CoreCall → CoreRet)
    (drv : DRIVER_OBJECT) (ino : inode) (filp : file) (cmd : Nat) (b : PLX_PARAMS)
    (toUser : Nat) (pdx : Option Nat)
    (hpdx : getDeviceExtension drv ino filp = some pdx)
    (hcmd : ∀ c, sys.ioctlCode c ≠ cmd) :
    Dispatch_IoControl sys api drv ino filp cmd (some b) toUser =
      some ⟨(toUser : Int), [],
        some ⟨.ApiUnsupportedFunction, b.Key, b.value0, b.value1, b.value2, b.u⟩⟩ := by
  rw [Dispatch_IoControl_eq sys api drv ino filp cmd b toUser pdx hpdx,
    ioctlSwitch_default sys api drv pdx filp.addr b cmd (decodeCmd_eq_none sys cmd hcmd)]

/-- Witness for C2: command code 0 is none of the example codes. -/
theorem Dispatch_IoControl_unsupported_witness :
    Dispatch_IoControl exampleSys exampleApi (exampleDriver 1) ⟨0⟩ ⟨10, .device 0⟩ 0
        (some exampleParams) 0 =
      some ⟨((0 : Nat) : Int), [],
        some ⟨.ApiUnsupportedFunction, exampleParams.Key, exampleParams.value0,
          exampleParams.value1, exampleParams.value2, exampleParams.u⟩⟩ :=
  Dispatch_IoControl_unsupported exampleSys exampleApi (exampleDriver 1) ⟨0⟩ ⟨10, .device 0⟩ 0
    exampleParams 0 (some 0) rfl (by intro c; cases c <;> decide)

/-- C6 as stated fails: `PLX_IOCTL_DRIVER_VERSION` is a code of the switch, the request is
copied in, and no API function is called (so not exactly one). -/
theorem Dispatch_IoControl_driver_version_calls_nothing :
    decodeCmd exampleSys 0x101 = some .PLX_IOCTL_DRIVER_VERSION ∧
    ∃ r, Dispatch_IoControl exampleSys exampleApi (exampleDriver 1) ⟨0⟩ ⟨10, .device 0⟩ 0x101
        (some exampleParams) 0 = some r ∧ r.calls = [] ∧ ¬ r.calls.length = 1 := by
  refine ⟨by decide, _, rfl, by decide, by decide⟩

/-- C6, amended: for every code of the switch and every request that is copied in,
`Dispatch_IoControl` calls exactly one API function, except for `PLX_IOCTL_DRIVER_VERSION`
and `PLX_IOCTL_COMMON_BUFFER_PROPERTIES`, which it answers itself without a call; in every
case it then hands the buffer to `copy_to_user` and returns what `copy_to_user` returns. -/
theorem Dispatch_IoControl_one_call_or_self_answer (sys : PlxSys) (api : CoreCall → CoreRet)
    (drv : DRIVER_OBJECT) (ino : inode) (filp : file) (cmd : Nat) (b : PLX_PARAMS)
    (toUser : Nat) (pdx : Option Nat) (c : PLX_IOCTL)
    (hpdx : getDeviceExtension drv ino filp = some pdx)
    (hcmd : decodeCmd sys cmd = some c) :
    ∃ r out, Dispatch_IoControl sys api drv ino filp cmd (some b) toUser = some r ∧
      r.copied = some out ∧ r.status = (toUser : Int) ∧
      r.calls.length =
        (if c = .PLX_IOCTL_DRIVER_VERSION ∨ c = .PLX_IOCTL_COMMON_BUFFER_PROPERTIES then 0
         else 1) := by
  rw [Dispatch_IoControl_eq sys api drv ino filp cmd b toUser pdx hpdx,
    ioctlSwitch_case sys api drv pdx filp.addr b cmd c hcmd]
  refine ⟨_, _, rfl, rfl, rfl, ?_⟩
  cases c <;> simp [ioctlCase]

/-- Witness for C6, amended: `PLX_IOCTL_PHYSICAL_MEM_FREE` (code 0x11e of the example
build) makes one call. -/
theorem Dispatch_IoControl_one_call_or_self_answer_witness :
    ∃ r out, Dispatch_IoControl exampleSys exampleApi (exampleDriver 1) ⟨0⟩ ⟨10, .device 0⟩
        0x11e (some exampleParams) 0 = some r ∧
      r.copied = some out ∧ r.status = ((0 : Nat) : Int) ∧
      r.calls.length =
        (if PLX_IOCTL.PLX_IOCTL_PHYSICAL_MEM_FREE = .PLX_IOCTL_DRIVER_VERSION ∨
            PLX_IOCTL.PLX_IOCTL_PHYSICAL_MEM_FREE = .PLX_IOCTL_COMMON_BUFFER_PROPERTIES then 0
         else 1) :=
  Dispatch_IoControl_one_call_or_self_answer exampleSys exampleApi (exampleDriver 1) ⟨0⟩
    ⟨10, .device 0⟩ 0x11e exampleParams 0 (some 0) .PLX_IOCTL_PHYSICAL_MEM_FREE rfl
    (by decide)

theorem ioctlCase_owner (sys : PlxSys) (api : CoreCall → CoreRet) (drv : DRIVER_OBJECT)
    (pdx : Option Nat) (pOwner : Nat) (b : PLX_PARAMS) (c : PLX_IOCTL) :
    ∀ call ∈ (ioctlCase sys api drv pdx pOwner b c).1, ∀ t, call.owner? = some t → t = pOwner := by
  cases c <;> simp [ioctlCase, CoreCall.owner?]

theorem ioctlSwitch_owner (sys : PlxSys) (api : CoreCall → CoreRet) (drv : DRIVER_OBJECT)
    (pdx : Option Nat) (pOwner : Nat) (b : PLX_PARAMS) (cmd : Nat) :
    ∀ call ∈ (ioctlSwitch sys api drv pdx pOwner b cmd).1, ∀ t,
      call.owner? = some t → t = pOwner := by
  cases hd : decodeCmd sys cmd with
  | none =>
    rw [ioctlSwitch_default sys api drv pdx pOwner b cmd hd]
    intro call hc
    cases hc
  | some c =>
    rw [ioctlSwitch_case sys api drv pdx pOwner b cmd c hd]
    exact ioctlCase_owner sys api drv pdx pOwner b c

theorem ioctlCase_ownerCodes (sys : PlxSys) (api : CoreCall → CoreRet) (drv : DRIVER_OBJECT)
    (pdx : Option Nat) (pOwner : Nat) (b : PLX_PARAMS) (c : PLX_IOCTL) (hc : c ∈ ownerCodes) :
    (ioctlCase sys api drv pdx pOwner b c).1.map CoreCall.owner? = [some pOwner] := by
  simp only [ownerCodes, List.mem_cons, List.mem_singleton, List.not_mem_nil, or_false] at hc
  rcases hc with h | h | h | h | h | h | h | h | h <;> subst h <;> rfl

theorem getDeviceExtension_mngmt (drv : DRIVER_OBJECT) (ino : inode) (filp : file)
    (hm : ino.minor = PLX_MNGMT_INTERFACE) : getDeviceExtension drv ino filp = some none := by
  unfold getDeviceExtension
  rw [if_pos hm]

theorem getDeviceExtension_device (drv : DRIVER_OBJECT) (ino : inode) (filp : file)
    (pdx : Option Nat) (hm : ino.minor ≠ PLX_MNGMT_INTERFACE)
    (hpdx : getDeviceExtension drv ino filp = some pdx) :
    ∃ fdo d, filp.private_data = .device fdo ∧ drv.DeviceObject[fdo]? = some d ∧
      pdx = some fdo := by
  unfold getDeviceExtension at hpdx
  rw [if_neg hm] at hpdx
  split at hpdx
  · rename_i fdo hp
    cases hd : drv.DeviceObject[fdo]? with
    | none => simp [hd] at hpdx
    | some d =>
      simp only [hd, Option.map_some', Option.some.injEq] at hpdx
      exact ⟨fdo, d, hp, hd, hpdx.symm⟩
  · cases hpdx

theorem Dispatch_release_device (down : Int) (drv : DRIVER_OBJECT) (ino : inode) (filp : file)
    (fdo : Nat) (d : DEVICE_OBJECT) (hminor : ino.minor ≠ PLX_MNGMT_INTERFACE)
    (hpriv : filp.private_data = .device fdo) (hdev : drv.DeviceObject[fdo]? = some d) :
    Dispatch_release down drv ino filp =
      some (if down < 0 then
          ⟨-ERESTARTSYS, drv, filp,
            [.api (.PlxNotificationCancel (some fdo) 0 filp.addr),
             .PlxPciPhysicalMemoryFreeAll_ByOwner (some fdo) filp.addr]⟩
        else
          ⟨0, updateExtension drv fdo (fun pdx =>
                { pdx with OpenCount := (d.DeviceExtension.OpenCount + 2 ^ 8 - 1) % 2 ^ 8 }),
            filp,
            [.api (.PlxNotificationCancel (some fdo) 0 filp.addr),
             .PlxPciPhysicalMemoryFreeAll_ByOwner (some fdo) filp.addr] ++
            (if (d.DeviceExtension.OpenCount + 2 ^ 8 - 1) % 2 ^ 8 = 0 then [.StopDevice fdo]
             else [])⟩) := by
  unfold Dispatch_release
  rw [if_neg hminor]
  simp only [hpriv, hdev]
  split
  · rfl
  · split <;> rfl

theorem Dispatch_release_owner (down : Int) (drv : DRIVER_OBJECT) (ino : inode) (filp : file)
    (pdx : Option Nat) (hpdx : getDeviceExtension drv ino filp = some pdx) :
    ∃ q, Dispatch_release down drv ino filp = some q ∧
      q.calls.filterMap DriverCall.owner? =
        (if ino.minor = PLX_MNGMT_INTERFACE then [] else [filp.addr, filp.addr]) := by
  by_cases hm : ino.minor = PLX_MNGMT_INTERFACE
  · unfold Dispatch_release
    rw [if_pos hm, if_pos hm]
    exact ⟨_, rfl, rfl⟩
  · obtain ⟨fdo, d, hp, hd, _⟩ := getDeviceExtension_device drv ino filp pdx hm hpdx
    rw [Dispatch_release_device down drv ino filp fdo d hm hp hd, if_neg hm]
    refine ⟨_, rfl, ?_⟩
    split
    · rfl
    · split <;> rfl

/-- C7 fails at `PLX_IOCTL_DRIVER_VERSION`: the case writes `value[0]` only, so the
`ReturnCode` of the response is whatever the caller put into the request (`ApiFailed` for one
request, `ApiWaitTimeout` for another that differs in nothing else). -/
theorem Dispatch_IoControl_driver_version_echoes_ReturnCode :
    decodeCmd exampleSys 0x101 = some .PLX_IOCTL_DRIVER_VERSION ∧
    (Dispatch_IoControl exampleSys exampleApi (exampleDriver 1) ⟨0⟩ ⟨10, .device 0⟩ 0x101
        (some { exampleParams with ReturnCode := .ApiFailed }) 0).map
      (fun r => (r.calls, r.copied.map (fun out => out.ReturnCode)))
      = some ([], some .ApiFailed) ∧
    (Dispatch_IoControl exampleSys exampleApi (exampleDriver 1) ⟨0⟩ ⟨10, .device 0⟩ 0x101
        (some { exampleParams with ReturnCode := .ApiWaitTimeout }) 0).map
      (fun r => (r.calls, r.copied.map (fun out => out.ReturnCode)))
      = some ([], some .ApiWaitTimeout) := by
  refine ⟨by decide, by decide, by decide⟩

/-- Every case of the switch other than `PLX_IOCTL_DRIVER_VERSION` writes `ReturnCode`: with
the status of the one API call it makes, or with `ApiSuccess` when it makes none. -/
theorem ioctlCase_writes_ReturnCode (sys : PlxSys) (api : CoreCall → CoreRet)
    (drv : DRIVER_OBJECT) (pdx : Option Nat) (pOwner : Nat) (b : PLX_PARAMS) (c : PLX_IOCTL)
    (hc : c ≠ .PLX_IOCTL_DRIVER_VERSION) :
    (ioctlCase sys api drv pdx pOwner b c).2.ReturnCode =
      match (ioctlCase sys api drv pdx pOwner b c).1 with
      | [] => .ApiSuccess
      | call :: _ => (api call).status := by
  cases c <;> first | rfl | exact absurd rfl hc

/-- C8: the owner identity is the file handle.  For a request on file `f`, every API call
that takes an owner gets the address of `f`, and each of the nine codes with an owner
argument makes exactly one such call; `Dispatch_release` on `f` passes the address of `f` to
cancel-all and to free-all-by-owner (and owner arguments to nothing else); and a request on
another file `g` never produces an owner argument that a request on `f` produces. -/
theorem owner_is_file_handle (sys : PlxSys) (api : CoreCall → CoreRet) (drv : DRIVER_OBJECT)
    (ino : inode) (f : file) (cmd : Nat) (b : PLX_PARAMS) (toUser : Nat) (down : Int)
    (pdx : Option Nat) (hpdx : getDeviceExtension drv ino f = some pdx) :
    ∃ r q, Dispatch_IoControl sys api drv ino f cmd (some b) toUser = some r ∧
      Dispatch_release down drv ino f = some q ∧
      (∀ call ∈ r.calls, ∀ t, call.owner? = some t → t = f.addr) ∧
      (∀ c ∈ ownerCodes, decodeCmd sys cmd = some c →
        r.calls.map CoreCall.owner? = [some f.addr]) ∧
      q.calls.filterMap DriverCall.owner? =
        (if ino.minor = PLX_MNGMT_INTERFACE then [] else [f.addr, f.addr]) ∧
      (∀ (api2 : CoreCall → CoreRet) (drv2 : DRIVER_OBJECT) (ino2 : inode) (g : file)
          (cmd2 : Nat) (b2 : PLX_PARAMS) (toUser2 : Nat) (r2 : IoControlResult),
        Dispatch_IoControl sys api2 drv2 ino2 g cmd2 (some b2) toUser2 = some r2 →
        g.addr ≠ f.addr →
        ∀ c1 ∈ r.calls, ∀ c2 ∈ r2.calls, ∀ t, c1.owner? = some t → c2.owner? ≠ some t) := by
  obtain ⟨q, hq, hqo⟩ := Dispatch_release_owner down drv ino f pdx hpdx
  refine ⟨_, q, Dispatch_IoControl_eq sys api drv ino f cmd b toUser pdx hpdx, hq,
    ioctlSwitch_owner sys api drv pdx f.addr b cmd, ?_, hqo, ?_⟩
  · intro c hc hcmd
    show (ioctlSwitch sys api drv pdx f.addr b cmd).1.map CoreCall.owner? = _
    rw [ioctlSwitch_case sys api drv pdx f.addr b cmd c hcmd]
    exact ioctlCase_ownerCodes sys api drv pdx f.addr b c hc
  · intro api2 drv2 ino2 g cmd2 b2 toUser2 r2 hr2 hne c1 hc1 c2 hc2 t h1 h2
    have ht : t = f.addr := ioctlSwitch_owner sys api drv pdx f.addr b cmd c1 hc1 t h1
    cases hg : getDeviceExtension drv2 ino2 g with
    | none =>
      unfold Dispatch_IoControl at hr2
      rw [hg] at hr2
      cases hr2
    | some pdx2 =>
      rw [Dispatch_IoControl_eq sys api2 drv2 ino2 g cmd2 b2 toUser2 pdx2 hg] at hr2
      cases hr2
      have ht2 : t = g.addr := ioctlSwitch_owner sys api2 drv2 pdx2 g.addr b2 cmd2 c2 hc2 t h2
      exact hne (ht2.symm.trans ht)

/-- Witness for C8: a `PLX_IOCTL_NOTIFICATION_REGISTER_FOR` request (code 0x124 of the
example build) on file 10 of the first example device. -/
theorem owner_is_file_handle_witness :
    ∃ r q, Dispatch_IoControl exampleSys exampleApi (exampleDriver 1) ⟨0⟩ ⟨10, .device 0⟩
        0x124 (some exampleParams) 0 = some r ∧
      Dispatch_release 0 (exampleDriver 1) ⟨0⟩ ⟨10, .device 0⟩ = some q ∧
      (∀ call ∈ r.calls, ∀ t, call.owner? = some t → t = 10) ∧
      (∀ c ∈ ownerCodes, decodeCmd exampleSys 0x124 = some c →
        r.calls.map CoreCall.owner? = [some 10]) ∧
      q.calls.filterMap DriverCall.owner? =
        (if (0 : Nat) = PLX_MNGMT_INTERFACE then [] else [10, 10]) ∧
      (∀ (api2 : CoreCall → CoreRet) (drv2 : DRIVER_OBJECT) (ino2 : inode) (g : file)
          (cmd2 : Nat) (b2 : PLX_PARAMS) (toUser2 : Nat) (r2 : IoControlResult),
        Dispatch_IoControl exampleSys api2 drv2 ino2 g cmd2 (some b2) toUser2 = some r2 →
        g.addr ≠ 10 →
        ∀ c1 ∈ r.calls, ∀ c2 ∈ r2.calls, ∀ t, c1.owner? = some t → c2.owner? ≠ some t) :=
  owner_is_file_handle exampleSys exampleApi (exampleDriver 1) ⟨0⟩ ⟨10, .device 0⟩ 0x124
    exampleParams 0 0 (some 0) rfl

/-- C9: each of the eight codes makes exactly one API call, that of its namesake function,
on the device extension of the file's device (`NULL` exactly on the management node), with
the interrupt descriptor, the memory descriptor, the handle `value[0]` and the timeout
`value[1]` of the request buffer (handle and timeout converted to pointer width). -/
theorem notification_memory_interrupt_calls (sys : PlxSys) (api : CoreCall → CoreRet)
    (drv : DRIVER_OBJECT) (ino : inode) (f : file) (cmd : Nat) (b : PLX_PARAMS) (toUser : Nat)
    (pdx : Option Nat) (hpdx : getDeviceExtension drv ino f = some pdx) :
    ∃ r, Dispatch_IoControl sys api drv ino f cmd (some b) toUser = some r ∧
      (pdx = none ↔ ino.minor = PLX_MNGMT_INTERFACE) ∧
      (ino.minor ≠ PLX_MNGMT_INTERFACE →
        ∃ fdo, f.private_data = .device fdo ∧ fdo < drv.DeviceObject.length ∧ pdx = some fdo) ∧
      (decodeCmd sys cmd = some .PLX_IOCTL_NOTIFICATION_REGISTER_FOR →
        r.calls = [.PlxNotificationRegisterFor pdx b.u.PlxIntr (b.value0 % 2 ^ sys.ptrBits)
          f.addr]) ∧
      (decodeCmd sys cmd = some .PLX_IOCTL_NOTIFICATION_WAIT →
        r.calls = [.PlxNotificationWait pdx (b.value0 % 2 ^ sys.ptrBits)
          (b.value1 % 2 ^ sys.ptrBits)]) ∧
      (decodeCmd sys cmd = some .PLX_IOCTL_NOTIFICATION_STATUS →
        r.calls = [.PlxNotificationStatus pdx (b.value0 % 2 ^ sys.ptrBits) b.u.PlxIntr]) ∧
      (decodeCmd sys cmd = some .PLX_IOCTL_NOTIFICATION_CANCEL →
        r.calls = [.PlxNotificationCancel pdx (b.value0 % 2 ^ sys.ptrBits) f.addr]) ∧
      (decodeCmd sys cmd = some .PLX_IOCTL_PHYSICAL_MEM_ALLOCATE →
        r.calls = [.PlxPciPhysicalMemoryAllocate pdx b.u.PciMemory (b.value0 % 2 ^ 8)
          f.addr]) ∧
      (decodeCmd sys cmd = some .PLX_IOCTL_PHYSICAL_MEM_FREE →
        r.calls = [.PlxPciPhysicalMemoryFree pdx b.u.PciMemory]) ∧
      (decodeCmd sys cmd = some .PLX_IOCTL_INTR_ENABLE →
        r.calls = [.PlxInterruptEnable pdx b.u.PlxIntr]) ∧
      (decodeCmd sys cmd = some .PLX_IOCTL_INTR_DISABLE →
        r.calls = [.PlxInterruptDisable pdx b.u.PlxIntr]) := by
  refine ⟨_, Dispatch_IoControl_eq sys api drv ino f cmd b toUser pdx hpdx, ?_, ?_,
    ?_, ?_, ?_, ?_, ?_, ?_, ?_, ?_⟩
  · constructor
    · intro hnone
      by_contra hm
      obtain ⟨fdo, _, _, _, hp⟩ := getDeviceExtension_device drv ino f pdx hm hpdx
      rw [hnone] at hp
      cases hp
    · intro hm
      rw [getDeviceExtension_mngmt drv ino f hm] at hpdx
      cases hpdx
      rfl
  · intro hm
    obtain ⟨fdo, d, hp, hd, hx⟩ := getDeviceExtension_device drv ino f pdx hm hpdx
    refine ⟨fdo, hp, ?_, hx⟩
    by_contra hlt
    rw [List.getElem?_eq_none (Nat.le_of_not_lt hlt)] at hd
    cases hd
  all_goals
    intro hcmd
    show (ioctlSwitch sys api drv pdx f.addr b cmd).1 = _
    rw [ioctlSwitch_case sys api drv pdx f.addr b cmd _ hcmd]
    rfl

/-- Witness for C9: a `PLX_IOCTL_NOTIFICATION_WAIT` request (code 0x125 of the example
build) on file 10 of the first example device. -/
theorem notification_memory_interrupt_calls_witness :
    ∃ r, Dispatch_IoControl exampleSys exampleApi (exampleDriver 1) ⟨0⟩ ⟨10, .device 0⟩ 0x125
        (some exampleParams) 0 = some r ∧
      r.calls = [.PlxNotificationWait (some 0) 0x1234 100] :=
  have h := notification_memory_interrupt_calls exampleSys exampleApi (exampleDriver 1) ⟨0⟩
    ⟨10, .device 0⟩ 0x125 exampleParams 0 (some 0) rfl
  h.elim fun r hr => ⟨r, hr.1, (hr.2.2.2.2.1 (by decide)).trans (by decide)⟩

/-- C3 as stated fails: file 10 asks to free the block that file 20 owns in the registry of
the first device; the free function is called with the device extension and the memory
descriptor only, no call carries the requester's handle, and the outcome is the one the
owner, file 20, gets for the same request. -/
theorem physical_mem_free_requester_not_supplied :
    decodeCmd exampleSys 0x11e = some .PLX_IOCTL_PHYSICAL_MEM_FREE ∧
    (exampleOwnedDriver.DeviceObject.head?.map (fun d => d.DeviceExtension.List_PhysicalMem)
      = some [⟨20, 0xffff880010000000, 0x10000000, exampleParams.u.PciMemory.PhysicalAddr,
        0x1000⟩]) ∧
    ∃ r, Dispatch_IoControl exampleSys exampleApi exampleOwnedDriver ⟨0⟩ ⟨10, .device 0⟩ 0x11e
        (some exampleParams) 0 = some r ∧
      r.calls = [.PlxPciPhysicalMemoryFree (some 0) exampleParams.u.PciMemory] ∧
      (¬ ∃ c ∈ r.calls, c.owner? = some 10) ∧
      Dispatch_IoControl exampleSys exampleApi exampleOwnedDriver ⟨0⟩ ⟨20, .device 0⟩ 0x11e
        (some exampleParams) 0 = some r := by
  refine ⟨by decide, by decide, _, rfl, by decide, by decide, by decide⟩

/-- C3, amended: the dispatcher does not check ownership on free.  For every
`PLX_IOCTL_PHYSICAL_MEM_FREE` request it calls `PlxPciPhysicalMemoryFree` with the device
extension and the memory descriptor of the request and nothing else, no owner is supplied,
the answer is the status that function returns, and two file handles of the same device get
the same calls and the same response for the same request. -/
theorem physical_mem_free_ignores_requester (sys : PlxSys) (api : CoreCall → CoreRet)
    (drv : DRIVER_OBJECT) (ino : inode) (f g : file) (cmd : Nat) (b : PLX_PARAMS)
    (toUser : Nat) (pdx : Option Nat)
    (hf : getDeviceExtension drv ino f = some pdx)
    (hg : getDeviceExtension drv ino g = some pdx)
    (hcmd : decodeCmd sys cmd = some .PLX_IOCTL_PHYSICAL_MEM_FREE) :
    ∃ r, Dispatch_IoControl sys api drv ino f cmd (some b) toUser = some r ∧
      Dispatch_IoControl sys api drv ino g cmd (some b) toUser = some r ∧
      r.calls = [.PlxPciPhysicalMemoryFree pdx b.u.PciMemory] ∧
      (∀ c ∈ r.calls, c.owner? = none) ∧
      r.copied = some
        { b with
          ReturnCode := (api (.PlxPciPhysicalMemoryFree pdx b.u.PciMemory)).status
          u := { b.u with
            PciMemory := (api (.PlxPciPhysicalMemoryFree pdx b.u.PciMemory)).PciMemory } } := by
  rw [Dispatch_IoControl_eq sys api drv ino f cmd b toUser pdx hf,
    Dispatch_IoControl_eq sys api drv ino g cmd b toUser pdx hg,
    ioctlSwitch_case sys api drv pdx f.addr b cmd _ hcmd,
    ioctlSwitch_case sys api drv pdx g.addr b cmd _ hcmd]
  refine ⟨_, rfl, rfl, rfl, ?_, rfl⟩
  intro c hc
  simp only [ioctlCase, List.mem_singleton] at hc
  subst hc
  rfl

/-- Witness for C3, amended: files 10 and 20 on the first device of the example driver with
an owned block. -/
theorem physical_mem_free_ignores_requester_witness :
    ∃ r, Dispatch_IoControl exampleSys exampleApi exampleOwnedDriver ⟨0⟩ ⟨10, .device 0⟩ 0x11e
        (some exampleParams) 0 = some r ∧
      Dispatch_IoControl exampleSys exampleApi exampleOwnedDriver ⟨0⟩ ⟨20, .device 0⟩ 0x11e
        (some exampleParams) 0 = some r ∧
      r.calls = [.PlxPciPhysicalMemoryFree (some 0) exampleParams.u.PciMemory] ∧
      (∀ c ∈ r.calls, c.owner? = none) ∧
      r.copied = some
        { exampleParams with
          ReturnCode :=
            (exampleApi (.PlxPciPhysicalMemoryFree (some 0) exampleParams.u.PciMemory)).status
          u := { exampleParams.u with
            PciMemory :=
              (exampleApi
                (.PlxPciPhysicalMemoryFree (some 0) exampleParams.u.PciMemory)).PciMemory } } :=
  physical_mem_free_ignores_requester exampleSys exampleApi exampleOwnedDriver ⟨0⟩
    ⟨10, .device 0⟩ ⟨20, .device 0⟩ 0x11e exampleParams 0 (some 0) rfl rfl (by decide)

/-! ## Dispatch_mmap -/

theorem mmapRegion_calls (sys : PlxSys) (remap : RemapCall → Int) (vma : vm_area_struct)
    (AddressToMap : Nat) (bDeviceMem : Bool) :
    (mmapRegion sys remap vma AddressToMap bDeviceMem).calls ≠ [] ↔ AddressToMap ≠ 0 := by
  unfold mmapRegion
  by_cases h : AddressToMap = 0
  · simp [h]
  · rw [if_neg h]
    cases bDeviceMem <;> simp [h]

/-- C4 as stated fails: with 4 KiB pages, file 10 maps page offset 0x10000, that is address
0x10000000.  On the driver whose registry holds that block for file 20 only, and on the
driver whose registry is empty, the registry check of the specification fails, and yet
`Plx_remap_pfn_range` is called for page frame 0x10000 and `Dispatch_mmap` returns its 0. -/
theorem Dispatch_mmap_maps_without_registry_check :
    (exampleOwnedDriver.DeviceObject.head?.map
      (fun d => inOwnedBlock d.DeviceExtension 10 0x10000000)) = some false ∧
    ((exampleDriver 1).DeviceObject.head?.map
      (fun d => inOwnedBlock d.DeviceExtension 10 0x10000000)) = some false ∧
    Dispatch_mmap exampleSys (fun _ => 0) exampleOwnedDriver ⟨10, .device 0⟩
        (exampleVma 0x10000) =
      some ⟨0, { exampleVma 0x10000 with vm_flags := 0x80000 },
        [.Plx_remap_pfn_range { exampleVma 0x10000 with vm_flags := 0x80000 } 0x7f0000000000
          0x10000 0x1000 0]⟩ ∧
    Dispatch_mmap exampleSys (fun _ => 0) (exampleDriver 1) ⟨10, .device 0⟩
        (exampleVma 0x10000) =
      some ⟨0, { exampleVma 0x10000 with vm_flags := 0x80000 },
        [.Plx_remap_pfn_range { exampleVma 0x10000 with vm_flags := 0x80000 } 0x7f0000000000
          0x10000 0x1000 0]⟩ := by
  refine ⟨by decide, by decide, by decide, by decide⟩

/-- C4, amended: a system-memory mapping does not consult the physical memory registry.
For a page offset outside 0..5, `Dispatch_mmap` goes on to the remap call exactly when the
address, the offset shifted by `PAGE_SHIFT` in pointer width, is not 0 (it returns `-ENODEV`
without a call when it is 0), and the outcome is the same for every device, every registry
content and every requesting file handle. -/
theorem Dispatch_mmap_system_memory (sys : PlxSys) (remap : RemapCall → Int)
    (drv : DRIVER_OBJECT) (filp : file) (vma : vm_area_struct) (fdo : Nat) (d : DEVICE_OBJECT)
    (hpriv : filp.private_data = .device fdo) (hdev : drv.DeviceObject[fdo]? = some d)
    (hoff : 5 < vma.vm_pgoff % 2 ^ sys.ptrBits) :
    ∃ r, Dispatch_mmap sys remap drv filp vma = some r ∧
      r = mmapRegion sys remap vma
        (((vma.vm_pgoff % 2 ^ sys.ptrBits) <<< sys.PAGE_SHIFT) % 2 ^ sys.ptrBits) false ∧
      (r.calls ≠ [] ↔
        ((vma.vm_pgoff % 2 ^ sys.ptrBits) <<< sys.PAGE_SHIFT) % 2 ^ sys.ptrBits ≠ 0) ∧
      (r.calls = [] → r.rc = -ENODEV ∧ r.vma = vma) ∧
      (∀ (drv2 : DRIVER_OBJECT) (g : file) (fdo2 : Nat) (d2 : DEVICE_OBJECT),
        g.private_data = .device fdo2 → drv2.DeviceObject[fdo2]? = some d2 →
        Dispatch_mmap sys remap drv2 g vma = some r) := by
  have key : ∀ (drv2 : DRIVER_OBJECT) (g : file) (fdo2 : Nat) (d2 : DEVICE_OBJECT),
      g.private_data = .device fdo2 → drv2.DeviceObject[fdo2]? = some d2 →
      Dispatch_mmap sys remap drv2 g vma = some (mmapRegion sys remap vma
        (((vma.vm_pgoff % 2 ^ sys.ptrBits) <<< sys.PAGE_SHIFT) % 2 ^ sys.ptrBits) false) := by
    intro drv2 g fdo2 d2 hp hd
    unfold Dispatch_mmap
    simp only [hp, hd]
    rw [if_neg (Nat.not_le_of_lt hoff)]
  refine ⟨_, key drv filp fdo d hpriv hdev, rfl, mmapRegion_calls _ _ _ _ _, ?_, key⟩
  intro hc
  by_cases h0 : ((vma.vm_pgoff % 2 ^ sys.ptrBits) <<< sys.PAGE_SHIFT) % 2 ^ sys.ptrBits = 0
  · unfold mmapRegion
    rw [if_pos h0]
    exact ⟨rfl, rfl⟩
  · exact absurd hc ((mmapRegion_calls _ _ _ _ _).mpr h0)

/-- Witness for C4, amended: page offset 0x10000 on the first example device. -/
theorem Dispatch_mmap_system_memory_witness :
    ∃ r, Dispatch_mmap exampleSys (fun _ => 0) (exampleDriver 1) ⟨10, .device 0⟩
        (exampleVma 0x10000) = some r ∧
      r = mmapRegion exampleSys (fun _ => 0) (exampleVma 0x10000)
        ((((exampleVma 0x10000).vm_pgoff % 2 ^ exampleSys.ptrBits) <<< exampleSys.PAGE_SHIFT)
          % 2 ^ exampleSys.ptrBits) false ∧
      (r.calls ≠ [] ↔
        (((exampleVma 0x10000).vm_pgoff % 2 ^ exampleSys.ptrBits) <<< exampleSys.PAGE_SHIFT)
          % 2 ^ exampleSys.ptrBits ≠ 0) ∧
      (r.calls = [] → r.rc = -ENODEV ∧ r.vma = exampleVma 0x10000) ∧
      (∀ (drv2 : DRIVER_OBJECT) (g : file) (fdo2 : Nat) (d2 : DEVICE_OBJECT),
        g.private_data = .device fdo2 → drv2.DeviceObject[fdo2]? = some d2 →
        Dispatch_mmap exampleSys (fun _ => 0) drv2 g (exampleVma 0x10000) = some r) :=
  Dispatch_mmap_system_memory exampleSys (fun _ => 0) (exampleDriver 1) ⟨10, .device 0⟩
    (exampleVma 0x10000) 0 ⟨exampleExtension 1⟩ rfl rfl (by decide)

/-! ## Open count and StopDevice -/

theorem updateExtension_length (drv : DRIVER_OBJECT) (fdo : Nat)
    (f : DEVICE_EXTENSION → DEVICE_EXTENSION) :
    (updateExtension drv fdo f).DeviceObject.length = drv.DeviceObject.length := by
  unfold updateExtension
  split
  · simp
  · rfl

theorem firstDevice_of_length (drv1 drv2 : DRIVER_OBJECT)
    (h : drv1.DeviceObject.length = drv2.DeviceObject.length) :
    firstDevice drv1 = firstDevice drv2 := by
  unfold firstDevice
  rw [h]

theorem length_filter_addr_ne (a : Nat) :
    ∀ (l : List file), (l.map (fun f => f.addr)).Nodup → (∃ f ∈ l, f.addr = a) →
      (l.filter (fun g => g.addr ≠ a)).length + 1 = l.length := by
  intro l
  induction l with
  | nil =>
    intro _ h
    obtain ⟨f, hf, _⟩ := h
    cases hf
  | cons x xs ih =>
    intro hnd hex
    rw [List.map_cons, List.nodup_cons] at hnd
    by_cases hx : x.addr = a
    · have hall : ∀ g ∈ xs, g.addr ≠ a := by
        intro g hg hga
        apply hnd.1
        rw [hx, ← hga]
        exact List.mem_map_of_mem (fun f => f.addr) hg
      have hfil : xs.filter (fun g => g.addr ≠ a) = xs := by
        rw [List.filter_eq_self]
        intro g hg
        simpa using hall g hg
      rw [List.filter_cons_of_neg (by simpa using hx), hfil, List.length_cons]
    · have hex2 : ∃ f ∈ xs, f.addr = a := by
        obtain ⟨f, hf, hfa⟩ := hex
        rcases List.mem_cons.mp hf with h | h
        · exact absurd (h ▸ hfa) hx
        · exact ⟨f, h, hfa⟩
      have := ih hnd.2 hex2
      rw [List.filter_cons_of_pos (by simpa using hx), List.length_cons, List.length_cons]
      omega

/-- The invariant of a run on the node of device `fdo`: the device stays selected, every
open handle refers to it, handle addresses are distinct, the open count is the number of
open handles modulo 256, and every release so far called `StopDevice` exactly when no
connection remained. -/
structure NodeRun.Inv (ino : inode) (fdo : Nat) (s : NodeRun) : Prop where
  selected : walkDeviceList s.drv.DeviceObject.length (ino.minor % 2 ^ 8) (firstDevice s.drv)
    = some fdo
  handles : ∀ f ∈ s.handles, f.private_data = .device fdo
  nodup : (s.handles.map (fun f => f.addr)).Nodup
  count : openCount s.drv fdo = s.handles.length % 2 ^ 8
  log : ∀ e ∈ s.log, (e.1 = true ↔ e.2 = 0)

theorem NodeRun.step_inv (ino : inode) (fdo : Nat) (hminor : ino.minor ≠ PLX_MNGMT_INTERFACE)
    (s s1 : NodeRun) (e : NodeEvent) (hinv : NodeRun.Inv ino fdo s)
    (hstep : s.step ino e = some s1)
    (hbound : s.handles.length + countOpened [e] < 2 ^ 8) :
    NodeRun.Inv ino fdo s1 ∧ s1.handles.length ≤ s.handles.length + countOpened [e] := by
  have hlt : fdo < s.drv.DeviceObject.length :=
    walkDeviceList_lt _ _ _ fdo (fun k hk => firstDevice_lt s.drv k hk) hinv.selected
  cases e with
  | opened addr =>
    simp only [NodeRun.step] at hstep
    rw [Dispatch_open_started 0 0 s.drv ino ⟨addr, .null⟩ fdo hminor hinv.selected
      (by decide) rfl] at hstep
    simp only at hstep
    split at hstep
    · rename_i hfresh
      cases hstep
      refine ⟨⟨?_, ?_, ?_, ?_, hinv.log⟩, ?_⟩
      · show walkDeviceList (updateExtension s.drv fdo _).DeviceObject.length _
          (firstDevice (updateExtension s.drv fdo _)) = some fdo
        rw [firstDevice_of_length _ s.drv (updateExtension_length s.drv fdo _),
          updateExtension_length]
        exact hinv.selected
      · intro f hf
        rcases List.mem_cons.mp hf with h | h
        · rw [h]
        · exact hinv.handles f h
      · show ((⟨addr, .device fdo⟩ :: s.handles : List file).map (fun f => f.addr)).Nodup
        rw [List.map_cons, List.nodup_cons]
        refine ⟨?_, hinv.nodup⟩
        intro hmem
        obtain ⟨g, hg, hga⟩ := List.mem_map.mp hmem
        exact hfresh.2 g hg hga
      · show openCount (updateExtension s.drv fdo _) fdo = (s.handles.length + 1) % 2 ^ 8
        rw [openCount_updateExtension s.drv fdo _ hlt, ← openCount_eq_get s.drv fdo hlt,
          hinv.count]
        simp [Nat.add_mod]
      · simp [countOpened]
    · cases hstep
  | released addr =>
    simp only [NodeRun.step] at hstep
    cases hfind : s.handles.find? (fun f => f.addr = addr) with
    | none => rw [hfind] at hstep; cases hstep
    | some f =>
      simp only [hfind] at hstep
      have hfmem : f ∈ s.handles := List.mem_of_find?_eq_some hfind
      have hfaddr : f.addr = addr := by simpa using List.find?_some hfind
      have hget : s.drv.DeviceObject[fdo]? = some (s.drv.DeviceObject.get ⟨fdo, hlt⟩) := by
        simp [List.getElem?_eq_getElem hlt]
      rw [Dispatch_release_device 0 s.drv ino f fdo _ hminor (hinv.handles f hfmem) hget]
        at hstep
      simp only [lt_self_iff_false, if_false] at hstep
      cases hstep
      have hlen := length_filter_addr_ne addr s.handles hinv.nodup ⟨f, hfmem, hfaddr⟩
      have hc : (s.drv.DeviceObject.get ⟨fdo, hlt⟩).DeviceExtension.OpenCount
          = s.handles.length % 2 ^ 8 := by
        rw [← openCount_eq_get s.drv fdo hlt, hinv.count]
      have hb : s.handles.length < 2 ^ 8 := by
        simp [countOpened] at hbound
        exact hbound
      have hcount : ((s.drv.DeviceObject.get ⟨fdo, hlt⟩).DeviceExtension.OpenCount + 2 ^ 8 - 1)
          % 2 ^ 8 = (s.handles.filter (fun g => g.addr ≠ addr)).length := by
        rw [hc, Nat.mod_eq_of_lt hb]
        have h1 : s.handles.length + 2 ^ 8 - 1
            = (s.handles.filter (fun g => g.addr ≠ addr)).length + 2 ^ 8 := by omega
        rw [h1, Nat.add_mod_right, Nat.mod_eq_of_lt]
        omega
      refine ⟨⟨?_, ?_, ?_, ?_, ?_⟩, ?_⟩
      rotate_right
      · show (s.handles.filter (fun g => g.addr ≠ addr)).length ≤ _
        omega
      · show walkDeviceList (updateExtension s.drv fdo _).DeviceObject.length _
          (firstDevice (updateExtension s.drv fdo _)) = some fdo
        rw [firstDevice_of_length _ s.drv (updateExtension_length s.drv fdo _),
          updateExtension_length]
        exact hinv.selected
      · intro g hg
        exact hinv.handles g (List.mem_of_mem_filter hg)
      · exact (hinv.nodup.sublist
          ((List.filter_sublist s.handles).map (fun f => f.addr)))
      · show openCount (updateExtension s.drv fdo _) fdo = _
        rw [openCount_updateExtension s.drv fdo _ hlt]
        show ((s.drv.DeviceObject.get ⟨fdo, hlt⟩).DeviceExtension.OpenCount + 2 ^ 8 - 1)
          % 2 ^ 8 = (s.handles.filter (fun g => g.addr ≠ addr)).length % 2 ^ 8
        rw [hcount, Nat.mod_eq_of_lt]
        omega
      · intro e he
        rcases List.mem_append.mp he with h | h
        · exact hinv.log e h
        · rw [List.mem_singleton] at h
          subst h
          show (List.any _ DriverCall.isStopDevice = true) ↔
            (s.handles.filter (fun g => g.addr ≠ addr)).length = 0
          rw [hcount]
          by_cases hz : (s.handles.filter (fun g => g.addr ≠ addr)).length = 0
          · rw [if_pos hz]
            exact ⟨fun _ => hz, fun _ => rfl⟩
          · rw [if_neg hz]
            exact ⟨fun h => by simp [DriverCall.isStopDevice] at h, fun h => absurd h hz⟩

theorem countOpened_cons (e : NodeEvent) (es : List NodeEvent) :
    countOpened (e :: es) = countOpened [e] + countOpened es := by
  cases e <;> simp [countOpened]
  omega

theorem NodeRun.run_inv (ino : inode) (fdo : Nat) (hminor : ino.minor ≠ PLX_MNGMT_INTERFACE) :
    ∀ (es : List NodeEvent) (s s1 : NodeRun), NodeRun.Inv ino fdo s →
      s.run ino es = some s1 → s.handles.length + countOpened es < 2 ^ 8 →
      NodeRun.Inv ino fdo s1 := by
  intro es
  induction es with
  | nil =>
    intro s s1 hinv hrun _
    simp only [NodeRun.run, Option.some.injEq] at hrun
    rw [← hrun]
    exact hinv
  | cons e es ih =>
    intro s s1 hinv hrun hb
    rw [countOpened_cons] at hb
    simp only [NodeRun.run] at hrun
    cases hstep : s.step ino e with
    | none => simp [hstep] at hrun
    | some s2 =>
      simp only [hstep] at hrun
      have h2 := NodeRun.step_inv ino fdo hminor s s2 e hinv hstep (by omega)
      exact ih s2 s1 h2.1 hrun (by have := h2.2; omega)

/-- While fewer than 256 opens occur, the property of C5 holds: in a run on a device node
that starts with open count 0 and no open handle, every release calls `StopDevice` exactly
when no connection remains open after it. -/
theorem StopDevice_iff_no_connection_below_256 (drv : DRIVER_OBJECT) (ino : inode)
    (es : List NodeEvent) (s : NodeRun) (fdo : Nat)
    (hminor : ino.minor ≠ PLX_MNGMT_INTERFACE)
    (hsel : walkDeviceList drv.DeviceObject.length (ino.minor % 2 ^ 8) (firstDevice drv)
      = some fdo)
    (h0 : openCount drv fdo = 0)
    (hrun : NodeRun.run ino ⟨drv, [], []⟩ es = some s)
    (hb : countOpened es < 2 ^ 8) :
    ∀ e ∈ s.log, (e.1 = true ↔ e.2 = 0) := by
  have hinv : NodeRun.Inv ino fdo ⟨drv, [], []⟩ :=
    ⟨hsel, fun f hf => (by cases hf), List.nodup_nil, h0, fun e he => (by cases he)⟩
  exact (NodeRun.run_inv ino fdo hminor es _ s hinv hrun (by simpa using hb)).log

set_option maxRecDepth 100000 in
/-- C5 fails when the U8 open count wraps.  Starting from open count 0, 257 successful
opens of the device node (files 0 to 256) followed by the release of file 0: the release
calls `StopDevice` although 256 connections remain open, and the open count is then 0. -/
theorem StopDevice_called_with_256_connections_open :
    (NodeRun.run ⟨0⟩ ⟨exampleDriver 0, [], []⟩
        ((List.range 257).map NodeEvent.opened ++ [.released 0])).map
      (fun s => (s.log, s.handles.length, openCount s.drv 0)) = some ([(true, 256)], 256, 0) := by
  decide

/-! ## The wait-object registry -/

/-- C11: `Dispatch` is precise.  The registry afterwards has the same objects in the same
order, each with its address, owner and masks as before.  An object whose line mask
intersects the fired line bits, or whose doorbell mask intersects the fired doorbell bits,
has exactly the intersecting bits ORed into its observed fields and is Triggered; every other
object is unchanged altogether. -/
theorem Dispatch_precise (line doorbell : Nat) (reg : List PLX_WAIT_OBJECT) :
    List.Forall₂
      (fun o o1 =>
        o1.addr = o.addr ∧ o1.pOwner = o.pOwner ∧ o1.Notify_Flags = o.Notify_Flags ∧
        o1.Notify_Doorbell = o.Notify_Doorbell ∧
        ((o.Notify_Flags &&& line ≠ 0 ∨ o.Notify_Doorbell &&& doorbell ≠ 0) →
          o1.Source_Ints = o.Source_Ints ||| (o.Notify_Flags &&& line) ∧
          o1.Source_Doorbell = o.Source_Doorbell ||| (o.Notify_Doorbell &&& doorbell) ∧
          o1.state = .PLX_STATE_TRIGGERED) ∧
        (¬ (o.Notify_Flags &&& line ≠ 0 ∨ o.Notify_Doorbell &&& doorbell ≠ 0) → o1 = o))
      reg (Dispatch line doorbell reg) := by
  unfold Dispatch
  rw [List.forall₂_map_right_iff, List.forall₂_same]
  intro o _
  by_cases h : o.Notify_Flags &&& line ≠ 0 ∨ o.Notify_Doorbell &&& doorbell ≠ 0
  · have hi : o.intersects line doorbell = true := by
      simpa [PLX_WAIT_OBJECT.intersects] using h
    have hs : signalObject line doorbell o =
        { o with
          Source_Ints := o.Source_Ints ||| (o.Notify_Flags &&& line)
          Source_Doorbell := o.Source_Doorbell ||| (o.Notify_Doorbell &&& doorbell)
          state := .PLX_STATE_TRIGGERED
          WaitQueue := o.WaitQueue.map (fun s => { s with woken := true }) } := by
      unfold signalObject
      rw [if_pos hi]
    rw [hs]
    exact ⟨rfl, rfl, rfl, rfl, fun _ => ⟨rfl, rfl, rfl⟩, fun hn => absurd h hn⟩
  · have hi : o.intersects line doorbell = false := by
      simpa [PLX_WAIT_OBJECT.intersects] using h
    have hs : signalObject line doorbell o = o := by
      unfold signalObject
      rw [if_neg (by simp [hi])]
    rw [hs]
    exact ⟨rfl, rfl, rfl, rfl, fun hp => absurd hp h, fun _ => rfl⟩

/-- Witness for C11: firing line bit 1 on the registry of the busy example device triggers
the objects with line masks 0x1 and 0x3 and leaves the object with line mask 0x2 as it is. -/
theorem Dispatch_precise_witness :
    (Dispatch 0x1 0 [exampleWaitObject 0x1000 10 0x1 0, exampleWaitObject 0x2000 20 0x3 0,
        exampleWaitObject 0x3000 10 0x2 0x4]).map
      (fun o => (o.addr, o.Source_Ints, o.Source_Doorbell, o.state))
      = [(0x1000, 1, 0, .PLX_STATE_TRIGGERED), (0x2000, 1, 0, .PLX_STATE_TRIGGERED),
         (0x3000, 0, 0, .PLX_STATE_WAITING)] ∧
    List.Forall₂
      (fun o o1 =>
        o1.addr = o.addr ∧ o1.pOwner = o.pOwner ∧ o1.Notify_Flags = o.Notify_Flags ∧
        o1.Notify_Doorbell = o.Notify_Doorbell ∧
        ((o.Notify_Flags &&& 0x1 ≠ 0 ∨ o.Notify_Doorbell &&& 0 ≠ 0) →
          o1.Source_Ints = o.Source_Ints ||| (o.Notify_Flags &&& 0x1) ∧
          o1.Source_Doorbell = o.Source_Doorbell ||| (o.Notify_Doorbell &&& 0) ∧
          o1.state = .PLX_STATE_TRIGGERED) ∧
        (¬ (o.Notify_Flags &&& 0x1 ≠ 0 ∨ o.Notify_Doorbell &&& 0 ≠ 0) → o1 = o))
      [exampleWaitObject 0x1000 10 0x1 0, exampleWaitObject 0x2000 20 0x3 0,
        exampleWaitObject 0x3000 10 0x2 0x4]
      (Dispatch 0x1 0 [exampleWaitObject 0x1000 10 0x1 0, exampleWaitObject 0x2000 20 0x3 0,
        exampleWaitObject 0x3000 10 0x2 0x4]) :=
  ⟨by decide, Dispatch_precise 0x1 0 _⟩

/-- C18: `Register` either appends one new wait object, with the given owner and masks,
observed line and doorbell bits zero, state Waiting and no sleeper, behind the existing
entries, which are unchanged, and returns its id; or, when the allocation fails, returns
ResourceExhausted and leaves the registry exactly as it was. -/
theorem Register_appends_or_fails (client lineMask doorbellMask : Nat)
    (reg : List PLX_WAIT_OBJECT) (alloc : Option Nat) :
    (∃ a o, alloc = some a ∧
        Register alloc client lineMask doorbellMask reg = (.ok a, reg ++ [o]) ∧
        o.addr = a ∧ o.pOwner = client ∧ o.Notify_Flags = lineMask ∧
        o.Notify_Doorbell = doorbellMask ∧ o.Source_Ints = 0 ∧ o.Source_Doorbell = 0 ∧
        o.state = .PLX_STATE_WAITING ∧ o.SleepCount = 0 ∧ o.WaitQueue = []) ∨
    (alloc = none ∧
        Register alloc client lineMask doorbellMask reg = (.error .ResourceExhausted, reg)) := by
  cases alloc with
  | none => exact Or.inr ⟨rfl, rfl⟩
  | some a => exact Or.inl ⟨a, _, rfl, rfl, rfl, rfl, rfl, rfl, rfl, rfl, rfl, rfl, rfl⟩

/-! ## The physical memory registry -/

/-- C12: `FreeAllByOwner(h)` leaves a registry whose size is the previous size minus the
number of blocks owned by `h`, which holds no block owned by `h`, and which holds every
block of every other owner as before: the same blocks, as often and in the same order. -/
theorem FreeAllByOwner_removes_exactly_owner (h : Nat) (reg : List PLX_PHYS_MEM_OBJECT) :
    (FreeAllByOwner h reg).length = reg.length - reg.countP (fun m => m.pOwner = h) ∧
    (∀ m ∈ FreeAllByOwner h reg, m.pOwner ≠ h) ∧
    (∀ m, m.pOwner ≠ h → (FreeAllByOwner h reg).count m = reg.count m) ∧
    (FreeAllByOwner h reg).Sublist reg ∧
    (FreeAllByOwner h reg).filter (fun m => m.pOwner ≠ h) = reg.filter (fun m => m.pOwner ≠ h) := by
  unfold FreeAllByOwner
  refine ⟨?_, ?_, ?_, List.filter_sublist reg, ?_⟩
  · have h1 := List.length_eq_countP_add_countP (fun m : PLX_PHYS_MEM_OBJECT => decide (m.pOwner = h)) reg
    have h2 : (reg.filter (fun m => decide (m.pOwner ≠ h))).length
        = reg.countP (fun m => ¬ (decide (m.pOwner = h)) = true) := by
      rw [List.countP_eq_length_filter]
      congr 2
      funext m
      simp
    omega
  · intro m hm
    simpa using (List.mem_filter.mp hm).2
  · intro m hm
    rw [List.count_filter]
    simpa using hm
  · rw [List.filter_filter]
    congr 1
    funext m
    simp

theorem registry_split (reg : List PLX_WAIT_OBJECT) (o : PLX_WAIT_OBJECT) (hmem : o ∈ reg)
    (hnodup : (reg.map (fun x => x.addr)).Nodup) :
    ∃ pre post, reg = pre ++ o :: post ∧ (∀ x ∈ pre, x.addr ≠ o.addr) ∧
      (∀ x ∈ post, x.addr ≠ o.addr) := by
  obtain ⟨pre, post, rfl⟩ := List.append_of_mem hmem
  refine ⟨pre, post, rfl, ?_, ?_⟩
  · intro x hx hxa
    rw [List.map_append, List.map_cons] at hnodup
    have := (List.nodup_append.mp hnodup).2.2
    exact this (List.mem_map_of_mem (fun x => x.addr) hx) (hxa ▸ List.mem_cons_self _ _)
  · intro x hx hxa
    rw [List.map_append, List.map_cons] at hnodup
    have h2 := (List.nodup_append.mp hnodup).2.1
    rw [List.nodup_cons] at h2
    apply h2.1
    rw [← hxa]
    exact List.mem_map_of_mem (fun x => x.addr) hx

theorem find?_addr_split (pre post : List PLX_WAIT_OBJECT) (o : PLX_WAIT_OBJECT)
    (hpre : ∀ x ∈ pre, x.addr ≠ o.addr) :
    (pre ++ o :: post).find? (fun x => x.addr = o.addr) = some o := by
  induction pre with
  | nil => simp
  | cons x xs ih =>
    have hx : x.addr ≠ o.addr := hpre x (List.mem_cons_self _ _)
    rw [List.cons_append, List.find?_cons_of_neg _ (by simpa using hx)]
    exact ih (fun y hy => hpre y (List.mem_cons_of_mem _ hy))

theorem updateObject_of_absent (id : Nat) (f : PLX_WAIT_OBJECT → PLX_WAIT_OBJECT)
    (l : List PLX_WAIT_OBJECT) (h : ∀ x ∈ l, x.addr ≠ id) : updateObject id f l = l := by
  unfold updateObject
  induction l with
  | nil => rfl
  | cons x xs ih =>
    rw [List.map_cons, if_neg (h x (List.mem_cons_self _ _)),
      ih (fun y hy => h y (List.mem_cons_of_mem _ hy))]

theorem updateObject_split (f : PLX_WAIT_OBJECT → PLX_WAIT_OBJECT)
    (pre post : List PLX_WAIT_OBJECT) (o : PLX_WAIT_OBJECT)
    (hpre : ∀ x ∈ pre, x.addr ≠ o.addr) (hpost : ∀ x ∈ post, x.addr ≠ o.addr) :
    updateObject o.addr f (pre ++ o :: post) = pre ++ f o :: post := by
  have h1 := updateObject_of_absent o.addr f pre hpre
  have h2 := updateObject_of_absent o.addr f post hpost
  unfold updateObject at *
  rw [List.map_append, List.map_cons, h1, h2, if_pos rfl]

theorem find?_hasWoken_split (thread : Nat) (pre post : List PLX_WAIT_OBJECT)
    (o : PLX_WAIT_OBJECT) (hpre : ∀ x ∈ pre, x.hasWoken thread = false)
    (ho : o.hasWoken thread = true) :
    (pre ++ o :: post).find? (fun x => x.hasWoken thread) = some o := by
  induction pre with
  | nil => simp [ho]
  | cons x xs ih =>
    have hx := hpre x (List.mem_cons_self _ _)
    rw [List.cons_append, List.find?_cons_of_neg _ (by simp [hx])]
    exact ih (fun y hy => hpre y (List.mem_cons_of_mem _ hy))

theorem hasWoken_of_not_sleeping (thread : Nat) (o : PLX_WAIT_OBJECT)
    (h : ∀ sl ∈ o.WaitQueue, sl.thread ≠ thread) : o.hasWoken thread = false := by
  unfold PLX_WAIT_OBJECT.hasWoken
  rw [List.any_eq_false]
  intro sl hsl
  simp [h sl hsl]

theorem filter_thread_ne_of_not_sleeping (thread : Nat) (q : List Sleeper)
    (h : ∀ sl ∈ q, sl.thread ≠ thread) :
    q.filter (fun s => s.thread ≠ thread) = q := by
  rw [List.filter_eq_self]
  intro sl hsl
  simpa using h sl hsl

/-- A thread that is not asleep anywhere enters `Wait` on a Triggered object and leaves at
once with the observed bits; the registry afterwards differs from the one before only in
that the observed bits of the object are cleared and it is Waiting again. -/
theorem Wait_on_triggered (reg : List PLX_WAIT_OBJECT) (o : PLX_WAIT_OBJECT)
    (thread timeout : Nat) (hmem : o ∈ reg) (hnodup : (reg.map (fun x => x.addr)).Nodup)
    (htrig : o.state = .PLX_STATE_TRIGGERED)
    (hfree : ∀ x ∈ reg, ∀ sl ∈ x.WaitQueue, sl.thread ≠ thread) :
    (WaitEnter thread o.addr timeout reg).2 = none ∧
    WaitLeave thread (WaitEnter thread o.addr timeout reg).1 =
      some (.matched o.Source_Ints o.Source_Doorbell,
        updateObject o.addr (fun x => { x with Source_Ints := 0, Source_Doorbell := 0,
                                               state := .PLX_STATE_WAITING }) reg) := by
  obtain ⟨pre, post, rfl, hpre, hpost⟩ := registry_split reg o hmem hnodup
  have hE : WaitEnter thread o.addr timeout (pre ++ o :: post) =
      (pre ++ { o with SleepCount := o.SleepCount + 1,
                       WaitQueue := o.WaitQueue ++ [⟨thread, timeout, true⟩] } :: post, none) := by
    unfold WaitEnter
    rw [find?_addr_split pre post o hpre]
    simp only [if_pos htrig]
    rw [updateObject_split _ pre post o hpre hpost]
  rw [hE]
  refine ⟨rfl, ?_⟩
  have hprew : ∀ x ∈ pre, x.hasWoken thread = false := fun x hx =>
    hasWoken_of_not_sleeping thread x (hfree x (List.mem_append_left _ hx))
  have hq : ∀ sl ∈ o.WaitQueue, sl.thread ≠ thread :=
    hfree o (List.mem_append_right _ (List.mem_cons_self _ _))
  unfold WaitLeave
  rw [find?_hasWoken_split thread pre post _ hprew
    (by simp [PLX_WAIT_OBJECT.hasWoken])]
  simp only
  rw [updateObject_split _ pre post
      { o with SleepCount := o.SleepCount + 1,
               WaitQueue := o.WaitQueue ++ [⟨thread, timeout, true⟩] } hpre hpost,
    updateObject_split _ pre post o hpre hpost]
  simp only [List.filter_append, filter_thread_ne_of_not_sleeping thread o.WaitQueue hq]
  simp

theorem signalObject_addr (line doorbell : Nat) (o : PLX_WAIT_OBJECT) :
    (signalObject line doorbell o).addr = o.addr := by
  unfold signalObject
  split <;> rfl

theorem signalObject_masks (line doorbell : Nat) (o : PLX_WAIT_OBJECT) :
    (signalObject line doorbell o).Notify_Flags = o.Notify_Flags ∧
    (signalObject line doorbell o).Notify_Doorbell = o.Notify_Doorbell := by
  unfold signalObject
  split <;> exact ⟨rfl, rfl⟩

theorem signalObject_sources (line doorbell : Nat) (o : PLX_WAIT_OBJECT) :
    (signalObject line doorbell o).Source_Ints = o.Source_Ints ||| (o.Notify_Flags &&& line) ∧
    (signalObject line doorbell o).Source_Doorbell
      = o.Source_Doorbell ||| (o.Notify_Doorbell &&& doorbell) := by
  unfold signalObject
  split
  · exact ⟨rfl, rfl⟩
  · rename_i h
    have h2 : o.Notify_Flags &&& line = 0 ∧ o.Notify_Doorbell &&& doorbell = 0 := by
      simpa [PLX_WAIT_OBJECT.intersects] using h
    rw [h2.1, h2.2]
    exact ⟨(Nat.or_zero _).symm, (Nat.or_zero _).symm⟩

theorem signalObject_of_not_intersects (line doorbell : Nat) (o : PLX_WAIT_OBJECT)
    (h : o.Notify_Flags &&& line = 0 ∧ o.Notify_Doorbell &&& doorbell = 0) :
    signalObject line doorbell o = o := by
  unfold signalObject
  rw [if_neg]
  simp [PLX_WAIT_OBJECT.intersects, h.1, h.2]

theorem signalObject_threads (line doorbell : Nat) (o : PLX_WAIT_OBJECT) :
    ∀ sl ∈ (signalObject line doorbell o).WaitQueue, ∃ sl0 ∈ o.WaitQueue,
      sl0.thread = sl.thread ∧ sl0.remaining = sl.remaining ∧ (sl0.woken = true → sl = sl0) := by
  unfold signalObject
  split
  · intro sl hsl
    obtain ⟨sl0, h0, rfl⟩ := List.mem_map.mp hsl
    refine ⟨sl0, h0, rfl, rfl, ?_⟩
    intro hw
    cases sl0
    simp_all
  · intro sl hsl
    exact ⟨sl, hsl, rfl, rfl, fun _ => rfl⟩

theorem Dispatch_addrs (line doorbell : Nat) (reg : List PLX_WAIT_OBJECT) :
    (Dispatch line doorbell reg).map (fun x => x.addr) = reg.map (fun x => x.addr) := by
  unfold Dispatch
  rw [List.map_map]
  congr 1
  funext o
  exact signalObject_addr line doorbell o

/-- The object that a list of fired bits, dispatched one after the other, makes of `o`. -/
theorem foldl_Dispatch (ds : List (Nat × Nat)) :
    ∀ reg : List PLX_WAIT_OBJECT,
      ds.foldl (fun r d => Dispatch d.1 d.2 r) reg
        = reg.map (fun o => ds.foldl (fun x d => signalObject d.1 d.2 x) o) := by
  induction ds with
  | nil => intro reg; simp
  | cons d ds ih =>
    intro reg
    rw [List.foldl_cons, ih]
    unfold Dispatch
    rw [List.map_map]
    rfl

theorem foldl_signalObject (ds : List (Nat × Nat)) :
    ∀ o : PLX_WAIT_OBJECT,
      (ds.foldl (fun x d => signalObject d.1 d.2 x) o).addr = o.addr ∧
      (ds.foldl (fun x d => signalObject d.1 d.2 x) o).Source_Ints
        = o.Source_Ints |||
          orLine (ds.map (fun d => (o.Notify_Flags &&& d.1, o.Notify_Doorbell &&& d.2))) ∧
      (ds.foldl (fun x d => signalObject d.1 d.2 x) o).Source_Doorbell
        = o.Source_Doorbell |||
          orDoorbell (ds.map (fun d => (o.Notify_Flags &&& d.1, o.Notify_Doorbell &&& d.2))) := by
  induction ds with
  | nil => intro o; simp [orLine, orDoorbell]
  | cons d ds ih =>
    intro o
    rw [List.foldl_cons]
    obtain ⟨h1, h2, h3⟩ := ih (signalObject d.1 d.2 o)
    rw [h1, h2, h3, signalObject_addr, (signalObject_sources d.1 d.2 o).1,
      (signalObject_sources d.1 d.2 o).2, (signalObject_masks d.1 d.2 o).1,
      (signalObject_masks d.1 d.2 o).2]
    refine ⟨rfl, ?_, ?_⟩
    · simp only [List.map_cons, orLine, List.foldr_cons]
      rw [Nat.lor_assoc]
    · simp only [List.map_cons, orDoorbell, List.foldr_cons]
      rw [Nat.lor_assoc]

/-- C16: `Status` is a non-clearing peek over accumulated bits.  For a registered object,
after any list of `Dispatch` calls, `Status` returns the bits the object had observed before
them ORed with the matching bits of every one of the calls, so the OR of the matching bits
alone when the observed bits had just been consumed; `Status` returns the registry as it got
it, so a second `Status` returns the same bits. -/
theorem Status_peeks_accumulated (reg : List PLX_WAIT_OBJECT) (o : PLX_WAIT_OBJECT)
    (ds : List (Nat × Nat)) (hmem : o ∈ reg) (hnodup : (reg.map (fun x => x.addr)).Nodup) :
    Status o.addr (ds.foldl (fun r d => Dispatch d.1 d.2 r) reg) =
      (.ok (o.Source_Ints |||
              orLine (ds.map (fun d => (o.Notify_Flags &&& d.1, o.Notify_Doorbell &&& d.2))),
            o.Source_Doorbell |||
              orDoorbell (ds.map (fun d => (o.Notify_Flags &&& d.1, o.Notify_Doorbell &&& d.2)))),
        ds.foldl (fun r d => Dispatch d.1 d.2 r) reg) ∧
    (o.Source_Ints = 0 ∧ o.Source_Doorbell = 0 →
      (Status o.addr (ds.foldl (fun r d => Dispatch d.1 d.2 r) reg)).1 =
        .ok (orLine (ds.map (fun d => (o.Notify_Flags &&& d.1, o.Notify_Doorbell &&& d.2))),
             orDoorbell (ds.map (fun d => (o.Notify_Flags &&& d.1, o.Notify_Doorbell &&& d.2))))) ∧
    Status o.addr (Status o.addr (ds.foldl (fun r d => Dispatch d.1 d.2 r) reg)).2 =
      Status o.addr (ds.foldl (fun r d => Dispatch d.1 d.2 r) reg) := by
  obtain ⟨pre, post, rfl, hpre, hpost⟩ := registry_split reg o hmem hnodup
  obtain ⟨h1, h2, h3⟩ := foldl_signalObject ds o
  have key : Status o.addr (ds.foldl (fun r d => Dispatch d.1 d.2 r) (pre ++ o :: post)) =
      (.ok (o.Source_Ints |||
              orLine (ds.map (fun d => (o.Notify_Flags &&& d.1, o.Notify_Doorbell &&& d.2))),
            o.Source_Doorbell |||
              orDoorbell (ds.map (fun d => (o.Notify_Flags &&& d.1, o.Notify_Doorbell &&& d.2)))),
        ds.foldl (fun r d => Dispatch d.1 d.2 r) (pre ++ o :: post)) := by
    rw [foldl_Dispatch, List.map_append, List.map_cons]
    unfold Status
    have hf := find?_addr_split
      (pre.map (fun o => ds.foldl (fun x d => signalObject d.1 d.2 x) o))
      (post.map (fun o => ds.foldl (fun x d => signalObject d.1 d.2 x) o))
      (ds.foldl (fun x d => signalObject d.1 d.2 x) o)
      (by
        intro x hx
        obtain ⟨y, hy, rfl⟩ := List.mem_map.mp hx
        rw [(foldl_signalObject ds y).1, h1]
        exact hpre y hy)
    rw [h1] at hf
    rw [hf]
    simp only [h2, h3]
  refine ⟨key, ?_, ?_⟩
  · intro hz
    rw [key, hz.1, hz.2, Nat.zero_or, Nat.zero_or]
  · rw [key]
    exact key

/-- Witness for C16 on the example registry: the object at 0x3000 has line mask 0x2 and
doorbell mask 0x4; after three dispatches `Status` returns line bit 2 and doorbell bit 4. -/
theorem Status_peeks_accumulated_witness :
    (Status 0x3000 ([(2, 0), (1, 4), (4, 0)].foldl (fun r d => Dispatch d.1 d.2 r)
        exampleWaitObjects)).1 = .ok (2, 4) :=
  congrArg Prod.fst (Status_peeks_accumulated exampleWaitObjects
    (exampleWaitObject 0x3000 10 0x2 0x4) [(2, 0), (1, 4), (4, 0)] (by decide) (by decide)).1

/-! ### Sleepers and ticks -/

theorem sleepersOf_append (t : Nat) (l1 l2 : List PLX_WAIT_OBJECT) :
    sleepersOf t (l1 ++ l2) = sleepersOf t l1 ++ sleepersOf t l2 := by
  simp [sleepersOf, List.flatMap_append]

theorem sleepersOf_cons (t : Nat) (o : PLX_WAIT_OBJECT) (l : List PLX_WAIT_OBJECT) :
    sleepersOf t (o :: l) = o.WaitQueue.filter (fun s => s.thread = t) ++ sleepersOf t l := by
  simp [sleepersOf, List.flatMap_cons]

theorem sleepersOf_eq_nil (t : Nat) (reg : List PLX_WAIT_OBJECT)
    (h : ∀ x ∈ reg, ∀ sl ∈ x.WaitQueue, sl.thread ≠ t) : sleepersOf t reg = [] := by
  induction reg with
  | nil => rfl
  | cons x xs ih =>
    rw [sleepersOf_cons, ih (fun y hy => h y (List.mem_cons_of_mem _ hy)), List.append_nil,
      List.filter_eq_nil_iff]
    intro sl hsl
    simpa using h x (List.mem_cons_self _ _) sl hsl

theorem resultsOf_append (t : Nat) (l1 l2 : List (Nat × WaitResult)) :
    resultsOf t (l1 ++ l2) = resultsOf t l1 ++ resultsOf t l2 := by
  simp [resultsOf]

theorem tickObject_sleepers (t : Nat) (o : PLX_WAIT_OBJECT) :
    (tickObject o).WaitQueue.filter (fun s => s.thread = t) =
      ((o.WaitQueue.filter (fun s => s.thread = t)).filter (fun s => !s.expires)).map
        (fun s => if s.woken then s else { s with remaining := s.remaining - 1 }) := by
  unfold tickObject
  simp only
  rw [List.filter_map, List.filter_filter, List.filter_filter]
  congr 1
  apply List.filter_congr
  intro s _
  by_cases hw : s.woken = true
  · simp [hw, Bool.and_comm]
  · simp [hw, Bool.and_comm]

theorem Tick_sleepers (t : Nat) (reg : List PLX_WAIT_OBJECT) :
    sleepersOf t (Tick reg).1 =
      ((sleepersOf t reg).filter (fun s => !s.expires)).map
        (fun s => if s.woken then s else { s with remaining := s.remaining - 1 }) := by
  unfold Tick
  induction reg with
  | nil => rfl
  | cons x xs ih =>
    simp only [List.map_cons] at ih ⊢
    rw [sleepersOf_cons, sleepersOf_cons, ih, tickObject_sleepers, List.filter_append,
      List.map_append]

theorem Tick_results (t : Nat) (reg : List PLX_WAIT_OBJECT) :
    resultsOf t (Tick reg).2 =
      ((sleepersOf t reg).filter Sleeper.expires).map (fun _ => WaitResult.TimedOut) := by
  unfold Tick
  induction reg with
  | nil => rfl
  | cons x xs ih =>
    simp only [List.flatMap_cons] at ih ⊢
    rw [resultsOf_append, ih, sleepersOf_cons, List.filter_append, List.map_append]
    congr 1
    unfold resultsOf
    rw [List.filter_map, List.map_map, List.filter_filter, List.filter_filter]
    have : (x.WaitQueue.filter
          (fun a => ((fun p : Nat × WaitResult => decide (p.1 = t)) ∘
            fun s : Sleeper => (s.thread, WaitResult.TimedOut)) a && a.expires))
        = x.WaitQueue.filter (fun a => a.expires && decide (a.thread = t)) := by
      apply List.filter_congr
      intro s _
      simp [Bool.and_comm]
    rw [this]
    rfl

theorem ticks_without_sleeper (t : Nat) :
    ∀ (k : Nat) (s : CoreState), sleepersOf t s.registry = [] →
      resultsOf t (s.run (List.replicate k .tick)).results = resultsOf t s.results := by
  intro k
  induction k with
  | zero => intro s _; rfl
  | succ k ih =>
    intro s h0
    show resultsOf t ((s.step .tick).run (List.replicate k .tick)).results = _
    rw [ih (s.step .tick) (by
      show sleepersOf t (Tick s.registry).1 = []
      rw [Tick_sleepers, h0]; rfl)]
    show resultsOf t (s.results ++ (Tick s.registry).2) = _
    rw [resultsOf_append, Tick_results, h0]
    simp

/-- A thread whose only wait-queue entry is unwoken with `r` ticks left, `r` at least one:
after `k` ticks in which nothing else happens it is still asleep when `k < r`, and its
`Wait` has returned TimedOut, once, when `r ≤ k`. -/
theorem ticks_time_out (t : Nat) :
    ∀ (k r : Nat) (s : CoreState), 1 ≤ r → sleepersOf t s.registry = [⟨t, r, false⟩] →
      resultsOf t (s.run (List.replicate k .tick)).results =
        resultsOf t s.results ++ (if k < r then [] else [.TimedOut]) := by
  intro k
  induction k with
  | zero =>
    intro r s hr _
    simp only [List.replicate_zero, CoreState.run, List.foldl_nil]
    rw [if_pos (by omega), List.append_nil]
  | succ k ih =>
    intro r s hr hs
    show resultsOf t ((s.step .tick).run (List.replicate k .tick)).results = _
    by_cases h1 : r = 1
    · subst h1
      have hS : sleepersOf t (s.step .tick).registry = [] := by
        show sleepersOf t (Tick s.registry).1 = []
        rw [Tick_sleepers, hs]
        rfl
      have hR : resultsOf t (s.step .tick).results = resultsOf t s.results ++ [.TimedOut] := by
        show resultsOf t (s.results ++ (Tick s.registry).2) = _
        rw [resultsOf_append, Tick_results, hs]
        rfl
      rw [ticks_without_sleeper t k _ hS, hR, if_neg (by omega)]
    · have hS : sleepersOf t (s.step .tick).registry = [⟨t, r - 1, false⟩] := by
        show sleepersOf t (Tick s.registry).1 = _
        rw [Tick_sleepers, hs]
        have : (Sleeper.mk t r false).expires = false := by
          simp [Sleeper.expires]; omega
        simp [this]
      have hR : resultsOf t (s.step .tick).results = resultsOf t s.results := by
        show resultsOf t (s.results ++ (Tick s.registry).2) = _
        rw [resultsOf_append, Tick_results, hs]
        have : (Sleeper.mk t r false).expires = false := by
          simp [Sleeper.expires]; omega
        simp [this]
      rw [ih (r - 1) _ (by omega) hS, hR]
      by_cases hk : k < r - 1
      · rw [if_pos hk, if_pos (by omega)]
      · rw [if_neg hk, if_neg (by omega)]

theorem Dispatch_not_sleeping (line doorbell t : Nat) (reg : List PLX_WAIT_OBJECT)
    (h : ∀ x ∈ reg, ∀ sl ∈ x.WaitQueue, sl.thread ≠ t) :
    ∀ x ∈ Dispatch line doorbell reg, ∀ sl ∈ x.WaitQueue, sl.thread ≠ t := by
  intro x hx sl hsl
  unfold Dispatch at hx
  obtain ⟨y, hy, rfl⟩ := List.mem_map.mp hx
  obtain ⟨sl0, h0, ht, _, _⟩ := signalObject_threads line doorbell y sl hsl
  rw [← ht]
  exact h y hy sl0 h0

theorem blocked_eq_false (s : CoreState) (t : Nat)
    (h : ∀ x ∈ s.registry, ∀ sl ∈ x.WaitQueue, sl.thread = t → sl.woken = true) :
    s.blocked t = false := by
  unfold CoreState.blocked
  rw [Bool.eq_false_iff]
  intro hb
  rw [List.any_eq_true] at hb
  obtain ⟨x, hx, hb⟩ := hb
  rw [List.any_eq_true] at hb
  obtain ⟨sl, hsl, hb⟩ := hb
  simp only [Bool.and_eq_true, decide_eq_true_eq, Bool.not_eq_true'] at hb
  have := h x hx sl hsl hb.1
  rw [this] at hb
  exact absurd hb.2 (by decide)

/-! ### Every sleeper is woken or times out -/

theorem updateObject_mem (id : Nat) (f : PLX_WAIT_OBJECT → PLX_WAIT_OBJECT)
    (reg : List PLX_WAIT_OBJECT) (x : PLX_WAIT_OBJECT) (hx : x ∈ updateObject id f reg) :
    x ∈ reg ∨ ∃ y ∈ reg, x = f y := by
  unfold updateObject at hx
  obtain ⟨y, hy, rfl⟩ := List.mem_map.mp hx
  by_cases h : y.addr = id
  · rw [if_pos h]
    exact Or.inr ⟨y, hy, rfl⟩
  · rw [if_neg h]
    exact Or.inl hy

theorem signalObject_unwoken (line doorbell : Nat) (o : PLX_WAIT_OBJECT) (sl : Sleeper)
    (hsl : sl ∈ (signalObject line doorbell o).WaitQueue) (hw : sl.woken = false) :
    sl ∈ o.WaitQueue := by
  unfold signalObject at hsl
  split at hsl
  · obtain ⟨sl0, _, rfl⟩ := List.mem_map.mp hsl
    simp at hw
  · exact hsl

theorem WaitEnter_sleepers (thread id timeout : Nat) (reg : List PLX_WAIT_OBJECT)
    (x : PLX_WAIT_OBJECT) (hx : x ∈ (WaitEnter thread id timeout reg).1) (sl : Sleeper)
    (hsl : sl ∈ x.WaitQueue) : sl.thread = thread ∨ ∃ y ∈ reg, sl ∈ y.WaitQueue := by
  unfold WaitEnter at hx
  split at hx
  · exact Or.inr ⟨x, hx, hsl⟩
  · split at hx
    · rcases updateObject_mem _ _ _ x hx with h | ⟨y, hy, rfl⟩
      · exact Or.inr ⟨x, h, hsl⟩
      · rcases List.mem_append.mp hsl with h | h
        · exact Or.inr ⟨y, hy, h⟩
        · rw [List.mem_singleton] at h
          exact Or.inl (by rw [h])
    · split at hx
      · exact Or.inr ⟨x, hx, hsl⟩
      · rcases updateObject_mem _ _ _ x hx with h | ⟨y, hy, rfl⟩
        · exact Or.inr ⟨x, h, hsl⟩
        · rcases List.mem_append.mp hsl with h | h
          · exact Or.inr ⟨y, hy, h⟩
          · rw [List.mem_singleton] at h
            exact Or.inl (by rw [h])

theorem WaitLeave_sleepers (thread : Nat) (reg reg1 : List PLX_WAIT_OBJECT) (r : WaitResult)
    (h : WaitLeave thread reg = some (r, reg1)) (x : PLX_WAIT_OBJECT) (hx : x ∈ reg1)
    (sl : Sleeper) (hsl : sl ∈ x.WaitQueue) : ∃ y ∈ reg, sl ∈ y.WaitQueue := by
  unfold WaitLeave at h
  split at h
  · cases h
  · simp only [Option.some.injEq, Prod.mk.injEq] at h
    obtain ⟨_, rfl⟩ := h
    rcases updateObject_mem _ _ _ x hx with h | ⟨y, hy, rfl⟩
    · exact ⟨x, h, hsl⟩
    · exact ⟨y, hy, List.mem_of_mem_filter hsl⟩

theorem tickObject_unwoken (o : PLX_WAIT_OBJECT) (sl : Sleeper)
    (hsl : sl ∈ (tickObject o).WaitQueue) (hw : sl.woken = false) :
    ∃ sl0 ∈ o.WaitQueue, sl0.thread = sl.thread ∧ sl0.woken = false ∧
      2 ≤ sl0.remaining ∧ sl.remaining = sl0.remaining - 1 := by
  unfold tickObject at hsl
  simp only at hsl
  obtain ⟨sl0, h0, rfl⟩ := List.mem_map.mp hsl
  have hmem := List.mem_of_mem_filter h0
  have hne : sl0.expires = false := by simpa using (List.mem_filter.mp h0).2
  by_cases hw0 : sl0.woken = true
  · rw [if_pos hw0] at hw
    rw [hw0] at hw
    cases hw
  · rw [if_neg hw0]
    have hw1 : sl0.woken = false := by simpa using hw0
    refine ⟨sl0, hmem, rfl, hw1, ?_, rfl⟩
    unfold Sleeper.expires at hne
    rw [hw1] at hne
    simp at hne
    omega

/-- The bound `k` on the sleep that is left to `t`: every unwoken wait-queue entry of `t`
has between 1 and `k` ticks left. -/
theorem step_keeps_bound (t k : Nat) (s : CoreState) (e : CoreEvent)
    (he : e.isWaitEnterOf t = false)
    (hq : ∀ x ∈ s.registry, ∀ sl ∈ x.WaitQueue, sl.thread = t → sl.woken = false →
      1 ≤ sl.remaining ∧ sl.remaining ≤ k) :
    ∀ x ∈ (s.step e).registry, ∀ sl ∈ x.WaitQueue, sl.thread = t → sl.woken = false →
      1 ≤ sl.remaining ∧ sl.remaining ≤ k - countTicks [e] := by
  intro x hx sl hsl ht hw
  cases e with
  | register alloc client lineMask doorbellMask =>
    have hx2 : x ∈ (Register alloc client lineMask doorbellMask s.registry).2 := hx
    unfold Register at hx2
    cases alloc with
    | none => exact hq x hx2 sl hsl ht hw
    | some a =>
      rcases List.mem_append.mp hx2 with h | h
      · exact hq x h sl hsl ht hw
      · rw [List.mem_singleton] at h
        subst h
        cases hsl
  | waitEnter thread id timeout =>
    have hx2 : x ∈ (WaitEnter thread id timeout s.registry).1 := by
      have : (s.step (.waitEnter thread id timeout)).registry
          = (WaitEnter thread id timeout s.registry).1 := by
        show (match WaitEnter thread id timeout s.registry with
          | (reg, none) => ({ s with registry := reg } : CoreState)
          | (reg, some r) => { registry := reg, results := s.results ++ [(thread, r)] }).registry
          = _
        cases WaitEnter thread id timeout s.registry with
        | mk a b => cases b <;> rfl
      rw [← this]; exact hx
    rcases WaitEnter_sleepers thread id timeout s.registry x hx2 sl hsl with h | ⟨y, hy, h⟩
    · have : thread ≠ t := by simpa [CoreEvent.isWaitEnterOf] using he
      exact absurd (h.symm.trans ht) this
    · exact hq y hy sl h ht hw
  | waitLeave thread =>
    cases hl : WaitLeave thread s.registry with
    | none =>
      have : s.step (.waitLeave thread) = s := by
        show (match WaitLeave thread s.registry with
          | none => s
          | some (r, reg) => { registry := reg, results := s.results ++ [(thread, r)] }) = s
        rw [hl]
      rw [this] at hx
      exact hq x hx sl hsl ht hw
    | some p =>
      obtain ⟨r, reg1⟩ := p
      have : (s.step (.waitLeave thread)).registry = reg1 := by
        show (match WaitLeave thread s.registry with
          | none => s
          | some (r, reg) => { registry := reg, results := s.results ++ [(thread, r)] }).registry
          = reg1
        rw [hl]
      rw [this] at hx
      obtain ⟨y, hy, h⟩ := WaitLeave_sleepers thread s.registry reg1 r hl x hx sl hsl
      exact hq y hy sl h ht hw
  | status id =>
    have hx2 : x ∈ (Status id s.registry).2 := hx
    unfold Status at hx2
    split at hx2 <;> exact hq x hx2 sl hsl ht hw
  | cancel target client =>
    have hx2 : x ∈ (Cancel target client s.registry).registry := hx
    exact hq x (List.mem_of_mem_filter hx2) sl hsl ht hw
  | dispatch line doorbell =>
    have hx2 : x ∈ Dispatch line doorbell s.registry := hx
    unfold Dispatch at hx2
    obtain ⟨y, hy, rfl⟩ := List.mem_map.mp hx2
    exact hq y hy sl (signalObject_unwoken line doorbell y sl hsl hw) ht hw
  | tick =>
    have hx2 : x ∈ (Tick s.registry).1 := hx
    unfold Tick at hx2
    obtain ⟨y, hy, rfl⟩ := List.mem_map.mp hx2
    obtain ⟨sl0, h0, ht0, hw0, h2, hr⟩ := tickObject_unwoken y sl hsl hw
    have := hq y hy sl0 h0 (ht0.trans ht) hw0
    simp only [countTicks]
    omega

theorem countTicks_cons (e : CoreEvent) (es : List CoreEvent) :
    countTicks (e :: es) = countTicks [e] + countTicks es := by
  cases e <;> simp [countTicks]
  omega

theorem run_keeps_bound (t : Nat) :
    ∀ (es : List CoreEvent) (k : Nat) (s : CoreState),
      (∀ e ∈ es, e.isWaitEnterOf t = false) →
      (∀ x ∈ s.registry, ∀ sl ∈ x.WaitQueue, sl.thread = t → sl.woken = false →
        1 ≤ sl.remaining ∧ sl.remaining ≤ k) →
      ∀ x ∈ (s.run es).registry, ∀ sl ∈ x.WaitQueue, sl.thread = t → sl.woken = false →
        1 ≤ sl.remaining ∧ sl.remaining ≤ k - countTicks es := by
  intro es
  induction es with
  | nil => intro k s _ hq; simpa [CoreState.run, countTicks] using hq
  | cons e es ih =>
    intro k s hes hq
    have h1 := step_keeps_bound t k s e (hes e (List.mem_cons_self _ _)) hq
    have h2 := ih (k - countTicks [e]) (s.step e)
      (fun e1 he1 => hes e1 (List.mem_cons_of_mem _ he1)) h1
    rw [countTicks_cons, ← Nat.sub_sub]
    exact h2

theorem WaitLeave_of_woken (t : Nat) (reg : List PLX_WAIT_OBJECT)
    (h : ∃ x ∈ reg, x.hasWoken t = true) :
    ∃ line doorbell reg1, WaitLeave t reg = some (.matched line doorbell, reg1) := by
  unfold WaitLeave
  cases hf : reg.find? (fun o => o.hasWoken t) with
  | none =>
    obtain ⟨x, hx, hw⟩ := h
    rw [List.find?_eq_none] at hf
    exact absurd hw (by simpa using hf x hx)
  | some o => exact ⟨_, _, _, rfl⟩

theorem WaitEnter_unknown (t id timeout : Nat) (reg : List PLX_WAIT_OBJECT)
    (h : ∀ x ∈ reg, x.addr ≠ id) : WaitEnter t id timeout reg = (reg, some .InvalidHandle) := by
  unfold WaitEnter
  have : reg.find? (fun o => o.addr = id) = none := by
    rw [List.find?_eq_none]
    intro x hx
    simpa using h x hx
  rw [this]

/-! ## Teardown of a client -/

theorem updateExtension_get (drv : DRIVER_OBJECT) (fdo : Nat)
    (f : DEVICE_EXTENSION → DEVICE_EXTENSION) (d : DEVICE_OBJECT)
    (h : drv.DeviceObject[fdo]? = some d) :
    (updateExtension drv fdo f).DeviceObject[fdo]? = some ⟨f d.DeviceExtension⟩ := by
  unfold updateExtension
  rw [h]
  have hlt : fdo < drv.DeviceObject.length := by
    by_contra hn
    rw [List.getElem?_eq_none (Nat.le_of_not_lt hn)] at h
    cases h
  simp [List.getElem?_set, hlt]

theorem updateExtension_get_ne (drv : DRIVER_OBJECT) (fdo other : Nat)
    (f : DEVICE_EXTENSION → DEVICE_EXTENSION) (h : other ≠ fdo) :
    (updateExtension drv fdo f).DeviceObject[other]? = drv.DeviceObject[other]? := by
  unfold updateExtension
  cases hd : drv.DeviceObject[fdo]? with
  | none => rfl
  | some d => simp only [List.getElem?_set_ne (Ne.symm h)]

theorem perform_cleanup (drv0 : DRIVER_OBJECT) (fdo owner : Nat) (d0 : DEVICE_OBJECT)
    (tail : List DriverCall) (h : drv0.DeviceObject[fdo]? = some d0)
    (htail : tail = [] ∨ tail = [.StopDevice fdo]) :
    ∃ drv1, ([DriverCall.api (.PlxNotificationCancel (some fdo) 0 owner),
          DriverCall.PlxPciPhysicalMemoryFreeAll_ByOwner (some fdo) owner] ++ tail).foldl
        DriverCall.perform ⟨drv0, [], []⟩
      = ⟨drv1, (Cancel none owner d0.DeviceExtension.List_WaitObjects).retired,
          (Cancel none owner d0.DeviceExtension.List_WaitObjects).woken⟩ ∧
      drv1.DeviceObject[fdo]? = some ⟨{ d0.DeviceExtension with
        List_WaitObjects := (Cancel none owner d0.DeviceExtension.List_WaitObjects).registry
        List_PhysicalMem := FreeAllByOwner owner d0.DeviceExtension.List_PhysicalMem }⟩ ∧
      ∀ other, other ≠ fdo → drv1.DeviceObject[other]? = drv0.DeviceObject[other]? := by
  have h1 : DriverCall.perform ⟨drv0, [], []⟩ (.api (.PlxNotificationCancel (some fdo) 0 owner))
      = ⟨updateExtension drv0 fdo (fun pdx => { pdx with
            List_WaitObjects :=
              (Cancel none owner d0.DeviceExtension.List_WaitObjects).registry }),
          (Cancel none owner d0.DeviceExtension.List_WaitObjects).retired,
          (Cancel none owner d0.DeviceExtension.List_WaitObjects).woken⟩ := by
    simp only [DriverCall.perform, h, if_true, List.nil_append]
  refine ⟨updateExtension (updateExtension drv0 fdo (fun pdx => { pdx with
      List_WaitObjects := (Cancel none owner d0.DeviceExtension.List_WaitObjects).registry }))
      fdo (fun pdx => { pdx with
        List_PhysicalMem := FreeAllByOwner owner pdx.List_PhysicalMem }), ?_, ?_, ?_⟩
  · rw [List.foldl_append, List.foldl_cons, List.foldl_cons, List.foldl_nil, h1]
    rcases htail with rfl | rfl
    · rfl
    · rfl
  · rw [updateExtension_get _ fdo _ _ (updateExtension_get drv0 fdo _ d0 h)]
  · intro other hne
    rw [updateExtension_get_ne _ fdo other _ hne, updateExtension_get_ne _ fdo other _ hne]

/-- C13: after the teardown of a client, `Dispatch_release` on its file handle of a device
node with the calls it makes carried out, neither registry of the device holds an entry owned
by the client; every wait object it owned has been retired in state Cancelled and every
thread asleep on one of them woken with result Cancelled; the entries of every other client
are the ones from before, unchanged and in the same order; and the registries of the other
devices are unchanged.  This holds whether or not the open mutex is acquired. -/
theorem teardown_clears_client (down : Int) (drv : DRIVER_OBJECT) (ino : inode) (filp : file)
    (fdo : Nat) (d : DEVICE_OBJECT) (hminor : ino.minor ≠ PLX_MNGMT_INTERFACE)
    (hpriv : filp.private_data = .device fdo) (hdev : drv.DeviceObject[fdo]? = some d) :
    ∃ t d1, teardown down drv ino filp = some t ∧ t.drv.DeviceObject[fdo]? = some d1 ∧
      (∀ o ∈ d1.DeviceExtension.List_WaitObjects, o.pOwner ≠ filp.addr) ∧
      (∀ m ∈ d1.DeviceExtension.List_PhysicalMem, m.pOwner ≠ filp.addr) ∧
      t.retired = (d.DeviceExtension.List_WaitObjects.filter
          (fun o => o.pOwner = filp.addr)).map
        (fun o => { o with state := .PLX_STATE_CANCELLED, SleepCount := 0, WaitQueue := [] }) ∧
      (∀ o ∈ d.DeviceExtension.List_WaitObjects, o.pOwner = filp.addr →
        ∀ sl ∈ o.WaitQueue, (sl.thread, WaitResult.Cancelled) ∈ t.woken) ∧
      d1.DeviceExtension.List_WaitObjects =
        d.DeviceExtension.List_WaitObjects.filter (fun o => o.pOwner ≠ filp.addr) ∧
      d1.DeviceExtension.List_PhysicalMem =
        d.DeviceExtension.List_PhysicalMem.filter (fun m => m.pOwner ≠ filp.addr) ∧
      (∀ other d2, other ≠ fdo → drv.DeviceObject[other]? = some d2 →
        ∃ d3, t.drv.DeviceObject[other]? = some d3 ∧
          d3.DeviceExtension.List_WaitObjects = d2.DeviceExtension.List_WaitObjects ∧
          d3.DeviceExtension.List_PhysicalMem = d2.DeviceExtension.List_PhysicalMem) := by
  have hC : ∀ reg : List PLX_WAIT_OBJECT,
      (Cancel none filp.addr reg).registry = reg.filter (fun o => o.pOwner ≠ filp.addr) ∧
      (Cancel none filp.addr reg).retired = (reg.filter (fun o => o.pOwner = filp.addr)).map
        (fun o => { o with state := .PLX_STATE_CANCELLED, SleepCount := 0, WaitQueue := [] }) := by
    intro reg
    constructor
    · show reg.filter _ = reg.filter _
      apply List.filter_congr
      intro o _
      simp [cancelTarget]
    · rfl
  have hW : ∀ reg : List PLX_WAIT_OBJECT, ∀ o ∈ reg, o.pOwner = filp.addr →
      ∀ sl ∈ o.WaitQueue, (sl.thread, WaitResult.Cancelled) ∈ (Cancel none filp.addr reg).woken := by
    intro reg o ho hown sl hsl
    show _ ∈ List.flatMap _ _
    rw [List.mem_flatMap]
    exact ⟨o, List.mem_filter.mpr ⟨ho, by simpa [cancelTarget] using hown⟩,
      List.mem_map.mpr ⟨sl, hsl, rfl⟩⟩
  have hrel := Dispatch_release_device down drv ino filp fdo d hminor hpriv hdev
  unfold teardown
  rw [hrel]
  by_cases hdown : down < 0
  · rw [if_pos hdown]
    obtain ⟨drv1, hfold, hget, hother⟩ := perform_cleanup drv fdo filp.addr d [] hdev (Or.inl rfl)
    rw [List.append_nil] at hfold
    refine ⟨_, _, by simp only [Option.map_some']; rw [hfold], hget, ?_, ?_, (hC _).2,
      hW _, (hC _).1, rfl, ?_⟩
    · intro o ho
      have ho2 : o ∈ (Cancel none filp.addr d.DeviceExtension.List_WaitObjects).registry := ho
      rw [(hC _).1] at ho2
      simpa using (List.mem_filter.mp ho2).2
    · intro m hm
      have hm2 : m ∈ FreeAllByOwner filp.addr d.DeviceExtension.List_PhysicalMem := hm
      simpa using (List.mem_filter.mp hm2).2
    · intro other d2 hne h2
      exact ⟨d2, (hother other hne).trans h2, rfl, rfl⟩
  · rw [if_neg hdown]
    have hget0 := updateExtension_get drv fdo (fun pdx =>
      { pdx with OpenCount := (d.DeviceExtension.OpenCount + 2 ^ 8 - 1) % 2 ^ 8 }) d hdev
    obtain ⟨drv1, hfold, hget, hother⟩ := perform_cleanup _ fdo filp.addr _
      (if (d.DeviceExtension.OpenCount + 2 ^ 8 - 1) % 2 ^ 8 = 0 then [.StopDevice fdo] else [])
      hget0 (by split <;> simp)
    refine ⟨_, _, by simp only [Option.map_some']; rw [hfold], hget, ?_, ?_, (hC _).2,
      hW _, (hC _).1, rfl, ?_⟩
    · intro o ho
      have ho2 : o ∈ (Cancel none filp.addr d.DeviceExtension.List_WaitObjects).registry := ho
      rw [(hC _).1] at ho2
      simpa using (List.mem_filter.mp ho2).2
    · intro m hm
      have hm2 : m ∈ FreeAllByOwner filp.addr d.DeviceExtension.List_PhysicalMem := hm
      simpa using (List.mem_filter.mp hm2).2
    · intro other d2 hne h2
      refine ⟨d2, ?_, rfl, rfl⟩
      rw [hother other hne, updateExtension_get_ne _ fdo other _ hne]
      exact h2

/-- Witness for C13: client 10 disconnects from the busy example device holding two wait
objects, one with thread 7 blocked in `Wait`, and three memory blocks. -/
theorem teardown_clears_client_witness :
    (teardown 0 exampleBusyDriver ⟨0⟩ ⟨10, .device 0⟩).map
        (fun t => (t.retired.map (fun o => (o.addr, o.state)), t.woken,
          (t.drv.DeviceObject.head?).map (fun d =>
            (d.DeviceExtension.List_WaitObjects.map (fun o => (o.addr, o.pOwner)),
             d.DeviceExtension.List_PhysicalMem.map (fun m => (m.BusPhysical, m.pOwner))))))
      = some ([(0x1000, .PLX_STATE_CANCELLED), (0x3000, .PLX_STATE_CANCELLED)],
          [(7, .Cancelled)], some ([(0x2000, 20)], [(0x10002000, 20)])) ∧
    ∃ t d1, teardown 0 exampleBusyDriver ⟨0⟩ ⟨10, .device 0⟩ = some t ∧
      t.drv.DeviceObject[0]? = some d1 ∧
      (∀ o ∈ d1.DeviceExtension.List_WaitObjects, o.pOwner ≠ 10) ∧
      (∀ m ∈ d1.DeviceExtension.List_PhysicalMem, m.pOwner ≠ 10) :=
  ⟨by rfl,
    (teardown_clears_client 0 exampleBusyDriver ⟨0⟩ ⟨10, .device 0⟩ 0
      ⟨{ exampleExtension 2 with
          List_WaitObjects := exampleWaitObjects, List_PhysicalMem := exampleBlocks }⟩
      (by decide) rfl rfl).elim
      fun t ht => ht.elim fun d1 h => ⟨t, d1, h.1, h.2.1, h.2.2.1, h.2.2.2.1⟩⟩

/-! ## Interrupt handler and bottom half -/

/-- C21: when copying the request from the caller fails, `Dispatch_IoControl` returns
`-EFAULT`, calls no API function and does not reach `copy_to_user`; this holds for every
command code, on the management node and on every device node whose handle refers to a
device. -/
theorem Dispatch_IoControl_copy_in_fails (sys : PlxSys) (api : CoreCall → CoreRet)
    (drv : DRIVER_OBJECT) (ino : inode) (filp : file) (cmd toUser : Nat) (pdx : Option Nat)
    (hpdx : getDeviceExtension drv ino filp = some pdx) :
    Dispatch_IoControl sys api drv ino filp cmd none toUser = some ⟨-EFAULT, [], none⟩ := by
  unfold Dispatch_IoControl
  rw [hpdx]

/-- Witness for C21: a request on the first example device whose copy from user space fails,
with the code of `PLX_IOCTL_NOTIFICATION_WAIT`. -/
theorem Dispatch_IoControl_copy_in_fails_witness :
    Dispatch_IoControl exampleSys exampleApi (exampleDriver 1) ⟨0⟩ ⟨10, .device 0⟩ 0x125 none 0
      = some ⟨-14, [], none⟩ :=
  Dispatch_IoControl_copy_in_fails exampleSys exampleApi (exampleDriver 1) ⟨0⟩ ⟨10, .device 0⟩
    0x125 0 (some 0) rfl

/-- C22: for a request that is copied in, `Dispatch_IoControl` returns exactly what
`copy_to_user` returns, the number of bytes it could not copy, so 0 when the copy back
succeeds, whatever the command code, the request, the API functions and the `ReturnCode` of
the response are; and the response handed to `copy_to_user` is the buffer the switch leaves. -/
theorem Dispatch_IoControl_returns_copy_out (sys : PlxSys) (api : CoreCall → CoreRet)
    (drv : DRIVER_OBJECT) (ino : inode) (filp : file) (cmd : Nat) (b : PLX_PARAMS)
    (toUser : Nat) (pdx : Option Nat)
    (hpdx : getDeviceExtension drv ino filp = some pdx) :
    ∃ r, Dispatch_IoControl sys api drv ino filp cmd (some b) toUser = some r ∧
      r.status = (toUser : Int) ∧
      (toUser = 0 → r.status = 0) ∧
      r.copied = some (ioctlSwitch sys api drv pdx filp.addr b cmd).2 ∧
      (∀ (api2 : CoreCall → CoreRet) (cmd2 : Nat) (b2 : PLX_PARAMS),
        ∃ r2, Dispatch_IoControl sys api2 drv ino filp cmd2 (some b2) toUser = some r2 ∧
          r2.status = r.status) := by
  refine ⟨_, Dispatch_IoControl_eq sys api drv ino filp cmd b toUser pdx hpdx, rfl, ?_, rfl, ?_⟩
  · intro h
    show (toUser : Int) = 0
    rw [h]
    rfl
  · intro api2 cmd2 b2
    exact ⟨_, Dispatch_IoControl_eq sys api2 drv ino filp cmd2 b2 toUser pdx hpdx, rfl⟩

/-- Witness for C22: command code 0, which the switch does not know, on the first example
device: the response carries `ApiUnsupportedFunction` and the function returns 0. -/
theorem Dispatch_IoControl_returns_copy_out_witness :
    ∃ r, Dispatch_IoControl exampleSys exampleApi (exampleDriver 1) ⟨0⟩ ⟨10, .device 0⟩ 0
        (some exampleParams) 0 = some r ∧
      r.status = ((0 : Nat) : Int) ∧
      ((0 : Nat) = 0 → r.status = 0) ∧
      r.copied = some (ioctlSwitch exampleSys exampleApi (exampleDriver 1) (some 0)
        (file.mk 10 (.device 0)).addr exampleParams 0).2 ∧
      (∀ (api2 : CoreCall → CoreRet) (cmd2 : Nat) (b2 : PLX_PARAMS),
        ∃ r2, Dispatch_IoControl exampleSys api2 (exampleDriver 1) ⟨0⟩ ⟨10, .device 0⟩ cmd2
            (some b2) 0 = some r2 ∧ r2.status = r.status) :=
  Dispatch_IoControl_returns_copy_out exampleSys exampleApi (exampleDriver 1) ⟨0⟩
    ⟨10, .device 0⟩ 0 exampleParams 0 (some 0) rfl

/-! ## Interrupted release and the management node -/

/-- C23: when the acquisition of the open mutex is interrupted, `Dispatch_release` on a
device node returns `-ERESTARTSYS`; the driver object, so the open count of every device, is
unchanged, the handle is unchanged and `StopDevice` is not called; the calls made are
`PlxNotificationCancel` with a null wait object and `PlxPciPhysicalMemoryFreeAll_ByOwner`,
both for the closing handle, which were made before the mutex was tried. -/
theorem Dispatch_release_interrupted (down : Int) (drv : DRIVER_OBJECT) (ino : inode)
    (filp : file) (fdo : Nat) (d : DEVICE_OBJECT)
    (hminor : ino.minor ≠ PLX_MNGMT_INTERFACE)
    (hpriv : filp.private_data = .device fdo)
    (hdev : drv.DeviceObject[fdo]? = some d)
    (hdown : down < 0) :
    Dispatch_release down drv ino filp =
      some ⟨-ERESTARTSYS, drv, filp,
        [.api (.PlxNotificationCancel (some fdo) 0 filp.addr),
         .PlxPciPhysicalMemoryFreeAll_ByOwner (some fdo) filp.addr]⟩ ∧
    (∀ r, Dispatch_release down drv ino filp = some r →
      r.rc = -ERESTARTSYS ∧ (∀ k, openCount r.drv k = openCount drv k) ∧
      r.calls.any DriverCall.isStopDevice = false ∧
      DriverCall.api (.PlxNotificationCancel (some fdo) 0 filp.addr) ∈ r.calls ∧
      DriverCall.PlxPciPhysicalMemoryFreeAll_ByOwner (some fdo) filp.addr ∈ r.calls) := by
  have h : Dispatch_release down drv ino filp =
      some ⟨-ERESTARTSYS, drv, filp,
        [.api (.PlxNotificationCancel (some fdo) 0 filp.addr),
         .PlxPciPhysicalMemoryFreeAll_ByOwner (some fdo) filp.addr]⟩ := by
    unfold Dispatch_release
    rw [if_neg hminor]
    simp only [hpriv, hdev, if_pos hdown]
  refine ⟨h, ?_⟩
  intro r hr
  rw [h] at hr
  cases hr
  exact ⟨rfl, fun _ => rfl, rfl, by simp, by simp⟩

/-- Witness for C23: closing file 10 on the first example device, open count 1, with the
mutex acquisition interrupted: the open count stays 1. -/
theorem Dispatch_release_interrupted_witness :
    Dispatch_release (-4) (exampleDriver 1) ⟨0⟩ ⟨10, .device 0⟩ =
      some ⟨-512, exampleDriver 1, ⟨10, .device 0⟩,
        [.api (.PlxNotificationCancel (some 0) 0 10),
         .PlxPciPhysicalMemoryFreeAll_ByOwner (some 0) 10]⟩ :=
  (Dispatch_release_interrupted (-4) (exampleDriver 1) ⟨0⟩ ⟨10, .device 0⟩ 0
    ⟨exampleExtension 1⟩ (by decide) rfl rfl (by decide)).1

/-- C27: opening or releasing the management node touches no device.  `Dispatch_open`
returns 0 and stores the driver object as the private data of the handle, `Dispatch_release`
returns 0 and sets the private data to null; neither makes a call (so no `StartDevice`,
`StopDevice`, `PlxNotificationCancel` or `PlxPciPhysicalMemoryFreeAll_ByOwner`), and the
driver object, so every open count and every registry, is unchanged; this holds whatever
the mutex and `StartDevice` would return and whatever the handle held before. -/
theorem management_node_touches_no_device (down start : Int) (drv : DRIVER_OBJECT) (ino : inode)
    (filp : file) (hminor : ino.minor = PLX_MNGMT_INTERFACE) :
    Dispatch_open down start drv ino filp = ⟨0, drv, { filp with private_data := .driver }, []⟩ ∧
    Dispatch_release down drv ino filp =
      some ⟨0, drv, { filp with private_data := .null }, []⟩ ∧
    (∀ k, openCount (Dispatch_open down start drv ino filp).drv k = openCount drv k) ∧
    (∀ r, Dispatch_release down drv ino filp = some r →
      r.calls = [] ∧ ∀ k, openCount r.drv k = openCount drv k) := by
  have ho : Dispatch_open down start drv ino filp =
      ⟨0, drv, { filp with private_data := .driver }, []⟩ := by
    unfold Dispatch_open
    rw [if_pos hminor]
  have hr : Dispatch_release down drv ino filp =
      some ⟨0, drv, { filp with private_data := .null }, []⟩ := by
    unfold Dispatch_release
    rw [if_pos hminor]
  refine ⟨ho, hr, ?_, ?_⟩
  · intro k
    rw [ho]
  · intro r h
    rw [hr] at h
    cases h
    exact ⟨rfl, fun _ => rfl⟩

/-- Witness for C27: opening and releasing minor 0xFF on the example driver. -/
theorem management_node_touches_no_device_witness :
    Dispatch_open 0 0 (exampleDriver 1) ⟨0xff⟩ ⟨10, .null⟩ =
      ⟨0, exampleDriver 1, ⟨10, .driver⟩, []⟩ ∧
    Dispatch_release 0 (exampleDriver 1) ⟨0xff⟩ ⟨10, .driver⟩ =
      some ⟨0, exampleDriver 1, ⟨10, .null⟩, []⟩ :=
  ⟨(management_node_touches_no_device 0 0 (exampleDriver 1) ⟨0xff⟩ ⟨10, .null⟩ rfl).1,
    (management_node_touches_no_device 0 0 (exampleDriver 1) ⟨0xff⟩ ⟨10, .driver⟩ rfl).2.1⟩

/-! ## Selecting the device in Dispatch_open -/

theorem walkDeviceList_none (len : Nat) : ∀ i, walkDeviceList len i none = none := by
  intro i
  cases i <;> rfl

theorem walkDeviceList_some (len : Nat) :
    ∀ (i k : Nat), walkDeviceList len i (some k) = if k + i < len ∨ i = 0 then some (k + i) else none := by
  intro i
  induction i with
  | zero =>
    intro k
    simp [walkDeviceList]
  | succ n ih =>
    intro k
    simp only [walkDeviceList, NextDevice]
    by_cases h : k + 1 < len
    · rw [if_pos h, ih (k + 1)]
      by_cases h2 : k + 1 + n < len
      · rw [if_pos (Or.inl h2), if_pos (Or.inl (by omega))]
        congr 1
        omega
      · by_cases hn : n = 0
        · subst hn
          exact absurd h h2
        · rw [if_neg (by omega), if_neg (by omega)]
    · rw [if_neg h, walkDeviceList_none, if_neg (by omega)]

theorem walkDeviceList_first (drv : DRIVER_OBJECT) (i : Nat) :
    walkDeviceList drv.DeviceObject.length i (firstDevice drv) =
      if i < drv.DeviceObject.length then some i else none := by
  unfold firstDevice
  by_cases h0 : 0 < drv.DeviceObject.length
  · rw [if_pos h0, walkDeviceList_some]
    by_cases hi : i < drv.DeviceObject.length
    · rw [if_pos (Or.inl (by omega)), if_pos hi, Nat.zero_add]
    · rw [if_neg (by omega), if_neg hi]
  · rw [if_neg h0, walkDeviceList_none, if_neg (by omega)]

/-- C24: on a node with a minor number `m` other than 0xFF, `Dispatch_open` selects the
device at zero-based position `m mod 256` of the device list.  The walk over the list is a
recursion on the 8-bit counter, so it returns for every list and every minor number; it ends
at that position when the list has an element there and at the null pointer otherwise.
`Dispatch_open` returns `-ENODEV` without a call exactly when the list has no element at
that position, and then changes nothing; when it has one, every call made is `StartDevice`
on that device, and an open that returns 0 has stored that device in the handle. -/
theorem Dispatch_open_selects_by_minor (down start : Int) (drv : DRIVER_OBJECT) (ino : inode)
    (filp : file) (hminor : ino.minor ≠ PLX_MNGMT_INTERFACE) :
    walkDeviceList drv.DeviceObject.length (ino.minor % 2 ^ 8) (firstDevice drv) =
      (if ino.minor % 256 < drv.DeviceObject.length then some (ino.minor % 256) else none) ∧
    (((Dispatch_open down start drv ino filp).rc = -ENODEV ∧
        (Dispatch_open down start drv ino filp).calls = []) ↔
      drv.DeviceObject[ino.minor % 256]? = none) ∧
    (drv.DeviceObject[ino.minor % 256]? = none →
      Dispatch_open down start drv ino filp = ⟨-ENODEV, drv, filp, []⟩) ∧
    (∀ d, drv.DeviceObject[ino.minor % 256]? = some d →
      (∀ c ∈ (Dispatch_open down start drv ino filp).calls, c = .StartDevice (ino.minor % 256)) ∧
      (¬ down < 0 →
        (Dispatch_open down start drv ino filp).calls = [.StartDevice (ino.minor % 256)]) ∧
      ((Dispatch_open down start drv ino filp).rc = 0 →
        (Dispatch_open down start drv ino filp).filp.private_data = .device (ino.minor % 256) ∧
        (Dispatch_open down start drv ino filp).calls = [.StartDevice (ino.minor % 256)] ∧
        openCount (Dispatch_open down start drv ino filp).drv (ino.minor % 256)
          = (d.DeviceExtension.OpenCount + 1) % 2 ^ 8)) := by
  have hwalk := walkDeviceList_first drv (ino.minor % 2 ^ 8)
  have h256 : ino.minor % 2 ^ 8 = ino.minor % 256 := rfl
  rw [h256] at hwalk
  have hnone : drv.DeviceObject[ino.minor % 256]? = none →
      Dispatch_open down start drv ino filp = ⟨-ENODEV, drv, filp, []⟩ := by
    intro h
    have hlen : ¬ ino.minor % 256 < drv.DeviceObject.length := by
      rw [List.getElem?_eq_none_iff] at h
      omega
    apply Dispatch_open_nodev down start drv ino filp hminor
    rw [h256, hwalk, if_neg hlen]
  have hsome : ∀ d, drv.DeviceObject[ino.minor % 256]? = some d →
      walkDeviceList drv.DeviceObject.length (ino.minor % 2 ^ 8) (firstDevice drv)
        = some (ino.minor % 256) ∧ ino.minor % 256 < drv.DeviceObject.length := by
    intro d h
    have hlen : ino.minor % 256 < drv.DeviceObject.length := by
      by_contra hc
      rw [List.getElem?_eq_none (by omega)] at h
      cases h
    rw [h256, hwalk, if_pos hlen]
    exact ⟨rfl, hlen⟩
  refine ⟨by rw [h256]; exact hwalk, ?_, hnone, ?_⟩
  · constructor
    · intro ⟨hrc, hcalls⟩
      cases hd : drv.DeviceObject[ino.minor % 256]? with
      | none => rfl
      | some d =>
        exfalso
        obtain ⟨hw, _⟩ := hsome d hd
        by_cases hdown : down < 0
        · rw [Dispatch_open_interrupted down start drv ino filp _ hminor hw hdown] at hrc
          have hne : (-ERESTARTSYS : Int) ≠ -ENODEV := by decide
          exact absurd hrc hne
        · by_cases hstart : start ≠ 0
          · rw [Dispatch_open_start_failed down start drv ino filp _ hminor hw hdown hstart]
              at hcalls
            cases hcalls
          · rw [Dispatch_open_started down start drv ino filp _ hminor hw hdown
              (not_not.mp hstart)] at hcalls
            cases hcalls
    · intro h
      rw [hnone h]
      exact ⟨rfl, rfl⟩
  · intro d hd
    obtain ⟨hw, hlen⟩ := hsome d hd
    by_cases hdown : down < 0
    · rw [Dispatch_open_interrupted down start drv ino filp _ hminor hw hdown]
      refine ⟨fun c hc => (by cases hc), fun h => absurd hdown h, fun h => ?_⟩
      have hne : (-ERESTARTSYS : Int) ≠ 0 := by decide
      exact absurd h hne
    · by_cases hstart : start ≠ 0
      · rw [Dispatch_open_start_failed down start drv ino filp _ hminor hw hdown hstart]
        refine ⟨fun c hc => (by simpa using hc), fun _ => rfl, fun h => absurd h hstart⟩
      · rw [Dispatch_open_started down start drv ino filp _ hminor hw hdown (not_not.mp hstart)]
        refine ⟨fun c hc => (by simpa using hc), fun _ => rfl, fun _ => ⟨rfl, rfl, ?_⟩⟩
        show openCount (updateExtension drv (ino.minor % 256) _) (ino.minor % 256) = _
        rw [openCount_updateExtension drv _ _ hlen]
        have hget : drv.DeviceObject.get ⟨ino.minor % 256, hlen⟩ = d := by
          have := List.getElem?_eq_getElem hlen
          rw [hd] at this
          exact (Option.some.inj this).symm
        rw [hget]

/-- Witness for C24: on the example driver, which has two devices, minor 257 opens the
device at position 1 and minor 2 finds no device. -/
theorem Dispatch_open_selects_by_minor_witness :
    (Dispatch_open 0 0 (exampleDriver 1) ⟨257⟩ ⟨10, .null⟩).filp.private_data = .device 1 ∧
    Dispatch_open 0 0 (exampleDriver 1) ⟨2⟩ ⟨10, .null⟩ =
      ⟨-19, exampleDriver 1, ⟨10, .null⟩, []⟩ :=
  ⟨(((Dispatch_open_selects_by_minor 0 0 (exampleDriver 1) ⟨257⟩ ⟨10, .null⟩
      (by decide)).2.2.2 ⟨exampleExtension 0⟩ rfl).2.2 (by decide)).1,
    (Dispatch_open_selects_by_minor 0 0 (exampleDriver 1) ⟨2⟩ ⟨10, .null⟩ (by decide)).2.2.1 rfl⟩

/-! ## Mapping a BAR or a page offset in Dispatch_mmap -/

theorem shiftLeft_mod_shiftRight (p s w : Nat) :
    ((p <<< s) % 2 ^ w) >>> s = p % 2 ^ (w - s) := by
  rw [Nat.shiftLeft_eq, Nat.shiftRight_eq_div_pow]
  by_cases h : s ≤ w
  · have hw : 2 ^ w = 2 ^ (w - s) * 2 ^ s := by
      rw [← Nat.pow_add, Nat.sub_add_cancel h]
    rw [hw, Nat.mul_mod_mul_right, Nat.mul_div_cancel _ (Nat.two_pow_pos s)]
  · have hlt : 2 ^ w < 2 ^ s := Nat.pow_lt_pow_right (by decide) (by omega)
    have h0 : w - s = 0 := by omega
    rw [h0, Nat.pow_zero, Nat.mod_one]
    exact Nat.div_eq_of_lt (lt_trans (Nat.mod_lt _ (Nat.two_pow_pos w)) hlt)

theorem wrapping_sub_eq (s e P : Nat) (hse : s ≤ e) (he : e < P) :
    (e + P - s % P) % P = e - s := by
  have hs : s % P = s := Nat.mod_eq_of_lt (by omega)
  rw [hs]
  have : e + P - s = (e - s) + P := by omega
  rw [this, Nat.add_mod_right, Nat.mod_eq_of_lt (by omega)]

/-- C25 fails in the code where a pointer is narrower than the BAR address: the cast to
`PLX_UINT_PTR` cuts the address before it is verified and used, against the comment "Use the
BAR physical address for the mapping".  In the 32-bit example build, BAR 0 of the device is a
memory space at physical address 4 GiB, which is not 0, and `Dispatch_mmap` with page offset
0 returns `-ENODEV` without a remap call; BAR 1 is a memory space at 4 GiB + 8 KiB, and page
offset 1 maps page frame 2, not that address shifted right by `PAGE_SHIFT`, which is
0x100002. -/
theorem Dispatch_mmap_bar_above_pointer_width :
    (exampleHighBarDriver.DeviceObject[0]?.map
        (fun d => d.DeviceExtension.PciBar.map (fun bar => bar.Properties)))
      = some [⟨0x100000000, false⟩, ⟨0x100002000, false⟩, ⟨0, false⟩, ⟨0, false⟩, ⟨0, false⟩,
          ⟨0, false⟩] ∧
    Dispatch_mmap exampleSys32 (fun _ => 0) exampleHighBarDriver ⟨10, .device 0⟩
        (exampleVma32 0) = some ⟨-ENODEV, exampleVma32 0, []⟩ ∧
    (Dispatch_mmap exampleSys32 (fun _ => 0) exampleHighBarDriver ⟨10, .device 0⟩
        (exampleVma32 1)).map (fun r => r.calls) =
      some [.Plx_io_remap_pfn_range
        { exampleVma32 1 with vm_flags := 0x84000, vm_page_prot := 0x10 } 0x40000000 2 0x1000
        0x10] ∧
    0x100002000 >>> exampleSys32.PAGE_SHIFT = 0x100002 := by
  refine ⟨by decide, by decide, by decide, by decide⟩

/-- What `Dispatch_mmap` does for a page offset in 0..5, on every build: it uses the offset
as an index into the BAR table, which is within its six entries.  If that BAR is an I/O space, or its physical
address taken in pointer width is 0, it returns `-ENODEV` without a remap call and without
modifying the memory area.  Otherwise it marks the area reserved, I/O and non-cached, makes
one call of `Plx_io_remap_pfn_range` for the page frame of that address (the address in
pointer width shifted right by `PAGE_SHIFT`) and for the length `vm_end - vm_start` in
pointer width, and returns what the call returns.  For a BAR address that fits a pointer the
address in pointer width is the BAR address, and for `vm_start ≤ vm_end` within pointer width
the length is the difference. -/
theorem Dispatch_mmap_bar (sys : PlxSys) (remap : RemapCall → Int) (drv : DRIVER_OBJECT)
    (filp : file) (vma : vm_area_struct) (fdo : Nat) (d : DEVICE_OBJECT)
    (hpriv : filp.private_data = .device fdo) (hdev : drv.DeviceObject[fdo]? = some d)
    (hbars : d.DeviceExtension.PciBar.length = PCI_NUM_BARS_TYPE_00)
    (hoff : vma.vm_pgoff % 2 ^ sys.ptrBits ≤ 5) :
    ∃ bar, d.DeviceExtension.PciBar[vma.vm_pgoff % 2 ^ sys.ptrBits]? = some bar ∧
      vma.vm_pgoff % 2 ^ sys.ptrBits < PCI_NUM_BARS_TYPE_00 ∧
      ((bar.Properties.bIoSpace = true ∨ bar.Properties.Physical % 2 ^ sys.ptrBits = 0) →
        Dispatch_mmap sys remap drv filp vma = some ⟨-ENODEV, vma, []⟩) ∧
      ((bar.Properties.bIoSpace = false ∧ bar.Properties.Physical % 2 ^ sys.ptrBits ≠ 0) →
        Dispatch_mmap sys remap drv filp vma =
          some ⟨remap (.Plx_io_remap_pfn_range
                  { vma with vm_flags := vma.vm_flags ||| sys.VM_RESERVED ||| sys.VM_IO_FLAG,
                             vm_page_prot := sys.pgprot_noncached vma.vm_page_prot }
                  vma.vm_start ((bar.Properties.Physical % 2 ^ sys.ptrBits) >>> sys.PAGE_SHIFT)
                  ((vma.vm_end + 2 ^ sys.ptrBits - vma.vm_start % 2 ^ sys.ptrBits)
                    % 2 ^ sys.ptrBits)
                  (sys.pgprot_noncached vma.vm_page_prot)),
                { vma with vm_flags := vma.vm_flags ||| sys.VM_RESERVED ||| sys.VM_IO_FLAG,
                           vm_page_prot := sys.pgprot_noncached vma.vm_page_prot },
                [.Plx_io_remap_pfn_range
                  { vma with vm_flags := vma.vm_flags ||| sys.VM_RESERVED ||| sys.VM_IO_FLAG,
                             vm_page_prot := sys.pgprot_noncached vma.vm_page_prot }
                  vma.vm_start ((bar.Properties.Physical % 2 ^ sys.ptrBits) >>> sys.PAGE_SHIFT)
                  ((vma.vm_end + 2 ^ sys.ptrBits - vma.vm_start % 2 ^ sys.ptrBits)
                    % 2 ^ sys.ptrBits)
                  (sys.pgprot_noncached vma.vm_page_prot)]⟩) ∧
      (bar.Properties.Physical < 2 ^ sys.ptrBits →
        bar.Properties.Physical % 2 ^ sys.ptrBits = bar.Properties.Physical) ∧
      (vma.vm_start ≤ vma.vm_end → vma.vm_end < 2 ^ sys.ptrBits →
        (vma.vm_end + 2 ^ sys.ptrBits - vma.vm_start % 2 ^ sys.ptrBits) % 2 ^ sys.ptrBits
          = vma.vm_end - vma.vm_start) := by
  have hlt : vma.vm_pgoff % 2 ^ sys.ptrBits < d.DeviceExtension.PciBar.length := by
    rw [hbars]
    exact Nat.lt_succ_of_le hoff
  obtain ⟨bar, hbar⟩ : ∃ bar, d.DeviceExtension.PciBar[vma.vm_pgoff % 2 ^ sys.ptrBits]?
      = some bar := ⟨_, List.getElem?_eq_getElem hlt⟩
  refine ⟨bar, hbar, Nat.lt_succ_of_le hoff, ?_, ?_, fun h => Nat.mod_eq_of_lt h,
    fun h1 h2 => wrapping_sub_eq _ _ _ h1 h2⟩
  · intro h
    unfold Dispatch_mmap
    simp only [hpriv, hdev, if_pos hoff, hbar]
    by_cases hio : bar.Properties.bIoSpace = true
    · rw [if_pos hio]
    · rw [if_neg hio]
      have h0 : bar.Properties.Physical % 2 ^ sys.ptrBits = 0 := by
        rcases h with h | h
        · exact absurd h hio
        · exact h
      unfold mmapRegion
      rw [if_pos h0]
  · intro ⟨hio, h0⟩
    unfold Dispatch_mmap
    simp only [hpriv, hdev, if_pos hoff, hbar]
    rw [if_neg (by rw [hio]; decide)]
    unfold mmapRegion
    rw [if_neg h0]
    rfl

/-- Page offset 2 on the first example device, whose BAR 2 is a memory space at 0xf0000000,
maps page frame 0xf0000 for 0x1000 bytes. -/
theorem Dispatch_mmap_bar_example :
    Dispatch_mmap exampleSys (fun _ => 0) (exampleDriver 1) ⟨10, .device 0⟩ (exampleVma 2) =
      some ⟨0, { exampleVma 2 with vm_flags := 0x84000, vm_page_prot := 0x10 },
        [.Plx_io_remap_pfn_range { exampleVma 2 with vm_flags := 0x84000, vm_page_prot := 0x10 }
          0x7f0000000000 0xf0000 0x1000 0x10]⟩ := by
  obtain ⟨bar, hbar, _, _, h, _, _⟩ := Dispatch_mmap_bar exampleSys (fun _ => 0)
    (exampleDriver 1) ⟨10, .device 0⟩ (exampleVma 2) 0 ⟨exampleExtension 1⟩ rfl rfl rfl
    (by decide)
  have hb : bar = ⟨0, ⟨0xf0000000, false⟩, true⟩ := by
    have h2 : (exampleExtension 1).PciBar[(exampleVma 2).vm_pgoff % 2 ^ exampleSys.ptrBits]?
        = some ⟨0, ⟨0xf0000000, false⟩, true⟩ := by decide
    exact Option.some.inj (hbar.symm.trans h2)
  subst hb
  rw [h ⟨rfl, by decide⟩]
  decide

/-- C26: for a page offset `p` outside 0..5 and pointer width `w`, `Dispatch_mmap` computes
the address `(p << PAGE_SHIFT) mod 2 ^ w`.  If that address is 0 it returns `-ENODEV` without
a remap call and without modifying the memory area, and only then is no call made.
Otherwise it sets the reserved flag, leaves the page protection as it is and ORs nothing
else into the flags, makes one call of `Plx_remap_pfn_range`, the mapping of system memory,
for page frame `p mod 2 ^ (w - PAGE_SHIFT)`, and returns what the call returns.  That page
frame is `p` whenever `p < 2 ^ (w - PAGE_SHIFT)`. -/
theorem Dispatch_mmap_page_offset (sys : PlxSys) (remap : RemapCall → Int)
    (drv : DRIVER_OBJECT) (filp : file) (vma : vm_area_struct) (fdo : Nat) (d : DEVICE_OBJECT)
    (hpriv : filp.private_data = .device fdo) (hdev : drv.DeviceObject[fdo]? = some d)
    (hoff : 5 < vma.vm_pgoff % 2 ^ sys.ptrBits) :
    (((vma.vm_pgoff % 2 ^ sys.ptrBits) <<< sys.PAGE_SHIFT) % 2 ^ sys.ptrBits = 0 →
      Dispatch_mmap sys remap drv filp vma = some ⟨-ENODEV, vma, []⟩) ∧
    (((vma.vm_pgoff % 2 ^ sys.ptrBits) <<< sys.PAGE_SHIFT) % 2 ^ sys.ptrBits ≠ 0 →
      Dispatch_mmap sys remap drv filp vma =
        some ⟨remap (.Plx_remap_pfn_range
                { vma with vm_flags := vma.vm_flags ||| sys.VM_RESERVED } vma.vm_start
                ((vma.vm_pgoff % 2 ^ sys.ptrBits) % 2 ^ (sys.ptrBits - sys.PAGE_SHIFT))
                ((vma.vm_end + 2 ^ sys.ptrBits - vma.vm_start % 2 ^ sys.ptrBits)
                  % 2 ^ sys.ptrBits)
                vma.vm_page_prot),
              { vma with vm_flags := vma.vm_flags ||| sys.VM_RESERVED },
              [.Plx_remap_pfn_range
                { vma with vm_flags := vma.vm_flags ||| sys.VM_RESERVED } vma.vm_start
                ((vma.vm_pgoff % 2 ^ sys.ptrBits) % 2 ^ (sys.ptrBits - sys.PAGE_SHIFT))
                ((vma.vm_end + 2 ^ sys.ptrBits - vma.vm_start % 2 ^ sys.ptrBits)
                  % 2 ^ sys.ptrBits)
                vma.vm_page_prot]⟩) ∧
    (∃ r, Dispatch_mmap sys remap drv filp vma = some r ∧
      (r.calls = [] ↔
        ((vma.vm_pgoff % 2 ^ sys.ptrBits) <<< sys.PAGE_SHIFT) % 2 ^ sys.ptrBits = 0) ∧
      r.vma.vm_page_prot = vma.vm_page_prot ∧
      (r.vma.vm_flags = vma.vm_flags ∨ r.vma.vm_flags = vma.vm_flags ||| sys.VM_RESERVED)) ∧
    (vma.vm_pgoff % 2 ^ sys.ptrBits < 2 ^ (sys.ptrBits - sys.PAGE_SHIFT) →
      (vma.vm_pgoff % 2 ^ sys.ptrBits) % 2 ^ (sys.ptrBits - sys.PAGE_SHIFT)
        = vma.vm_pgoff % 2 ^ sys.ptrBits) := by
  have hm : Dispatch_mmap sys remap drv filp vma = some (mmapRegion sys remap vma
      (((vma.vm_pgoff % 2 ^ sys.ptrBits) <<< sys.PAGE_SHIFT) % 2 ^ sys.ptrBits) false) := by
    unfold Dispatch_mmap
    simp only [hpriv, hdev]
    rw [if_neg (Nat.not_le_of_lt hoff)]
  have h0 : ((vma.vm_pgoff % 2 ^ sys.ptrBits) <<< sys.PAGE_SHIFT) % 2 ^ sys.ptrBits = 0 →
      mmapRegion sys remap vma
        (((vma.vm_pgoff % 2 ^ sys.ptrBits) <<< sys.PAGE_SHIFT) % 2 ^ sys.ptrBits) false
        = ⟨-ENODEV, vma, []⟩ := by
    intro h
    unfold mmapRegion
    rw [if_pos h]
  have h1 : ((vma.vm_pgoff % 2 ^ sys.ptrBits) <<< sys.PAGE_SHIFT) % 2 ^ sys.ptrBits ≠ 0 →
      mmapRegion sys remap vma
        (((vma.vm_pgoff % 2 ^ sys.ptrBits) <<< sys.PAGE_SHIFT) % 2 ^ sys.ptrBits) false
        = ⟨remap (.Plx_remap_pfn_range
                { vma with vm_flags := vma.vm_flags ||| sys.VM_RESERVED } vma.vm_start
                ((vma.vm_pgoff % 2 ^ sys.ptrBits) % 2 ^ (sys.ptrBits - sys.PAGE_SHIFT))
                ((vma.vm_end + 2 ^ sys.ptrBits - vma.vm_start % 2 ^ sys.ptrBits)
                  % 2 ^ sys.ptrBits)
                vma.vm_page_prot),
              { vma with vm_flags := vma.vm_flags ||| sys.VM_RESERVED },
              [.Plx_remap_pfn_range
                { vma with vm_flags := vma.vm_flags ||| sys.VM_RESERVED } vma.vm_start
                ((vma.vm_pgoff % 2 ^ sys.ptrBits) % 2 ^ (sys.ptrBits - sys.PAGE_SHIFT))
                ((vma.vm_end + 2 ^ sys.ptrBits - vma.vm_start % 2 ^ sys.ptrBits)
                  % 2 ^ sys.ptrBits)
                vma.vm_page_prot]⟩ := by
    intro h
    unfold mmapRegion
    rw [if_neg h]
    simp only [Bool.false_eq_true, if_false, shiftLeft_mod_shiftRight]
  refine ⟨fun h => by rw [hm, h0 h], fun h => by rw [hm, h1 h], ?_,
    fun h => Nat.mod_eq_of_lt h⟩
  by_cases hz : ((vma.vm_pgoff % 2 ^ sys.ptrBits) <<< sys.PAGE_SHIFT) % 2 ^ sys.ptrBits = 0
  · refine ⟨_, hm, ?_⟩
    rw [h0 hz]
    exact ⟨⟨fun _ => hz, fun _ => rfl⟩, rfl, Or.inl rfl⟩
  · refine ⟨_, hm, ?_⟩
    rw [h1 hz]
    refine ⟨⟨fun h => ?_, fun h => absurd h hz⟩, rfl, Or.inr rfl⟩
    cases h

/-- Witness for C26: on the 32-bit example build, page offset 0x100010 is outside 0..5, its
address is 0x10000 in pointer width, and page frame 0x10 is mapped as system memory. -/
theorem Dispatch_mmap_page_offset_witness :
    Dispatch_mmap exampleSys32 (fun _ => 0) (exampleDriver 1) ⟨10, .device 0⟩
        (exampleVma32 0x100010) =
      some ⟨0, { exampleVma32 0x100010 with vm_flags := 0x80000 },
        [.Plx_remap_pfn_range { exampleVma32 0x100010 with vm_flags := 0x80000 } 0x40000000
          0x10 0x1000 0]⟩ :=
  ((Dispatch_mmap_page_offset exampleSys32 (fun _ => 0) (exampleDriver 1) ⟨10, .device 0⟩
    (exampleVma32 0x100010) 0 ⟨exampleExtension 1⟩ rfl rfl (by decide)).2.1 (by decide)).trans
    (by decide)

/-! ## Requests the dispatcher answers itself, and the wait-object handle -/

theorem version_word_low_bits (M m : Nat) :
    intToU64 ((M <<< 16) ||| (m <<< 8) ||| (0 <<< 0)) % 2 ^ 8 = 0 := by
  have h0 : ((M <<< 16) ||| (m <<< 8) ||| (0 <<< 0)) % 2 ^ 8 = 0 := by
    simp only [Nat.zero_shiftLeft, Nat.or_zero]
    apply Nat.eq_of_testBit_eq
    intro i
    simp only [Nat.testBit_mod_two_pow, Nat.testBit_or, Nat.testBit_shiftLeft, Nat.zero_testBit]
    by_cases h : i < 8
    · have h1 : ¬ (i ≥ 16) := by omega
      have h2 : ¬ (i ≥ 8) := by omega
      simp [h1, h2]
    · simp [h]
  have h1 : (((M <<< 16) ||| (m <<< 8) ||| (0 <<< 0)) % 2 ^ 32) % 2 ^ 8 = 0 := by
    rw [Nat.mod_mod_of_dvd _ (by norm_num : (2 : Nat) ^ 8 ∣ 2 ^ 32)]
    exact h0
  unfold intToU64
  split
  · exact h1
  · omega

theorem version_word_recover (M m : Nat) (hM : M < 2 ^ 15) (hm : m < 2 ^ 8) :
    intToU64 ((M <<< 16) ||| (m <<< 8) ||| (0 <<< 0)) = (M <<< 16) ||| (m <<< 8) ∧
    ((M <<< 16) ||| (m <<< 8)) >>> 16 = M ∧
    (((M <<< 16) ||| (m <<< 8)) >>> 8) &&& 0xFF = m := by
  have h1 : (M <<< 16) ||| (m <<< 8) = M * 65536 + m * 256 := by
    have : m <<< 8 < 2 ^ 16 := by
      rw [Nat.shiftLeft_eq]; omega
    have h := Nat.mul_add_lt_is_or this M
    rw [Nat.shiftLeft_eq M 16, Nat.mul_comm M (2 ^ 16), ← h, Nat.shiftLeft_eq]
  refine ⟨?_, ?_, ?_⟩
  · simp only [Nat.zero_shiftLeft, Nat.or_zero]
    rw [h1]
    unfold intToU64
    have : (M * 65536 + m * 256) % 2 ^ 32 = M * 65536 + m * 256 := by omega
    rw [this, if_pos (by omega)]
  · rw [h1, Nat.shiftRight_eq_div_pow]
    omega
  · rw [h1, Nat.shiftRight_eq_div_pow]
    have : (M * 65536 + m * 256) / 2 ^ 8 = M * 256 + m := by omega
    rw [this]
    have h2 : (0xFF : Nat) = 2 ^ 8 - 1 := by decide
    rw [h2, Nat.and_pow_two_sub_one_eq_mod]
    omega

theorem storeLow_mod (w old new : Nat) (hw : w ≤ 64) :
    (storeLow w old new % 2 ^ 64) % 2 ^ w = new % 2 ^ w := by
  unfold storeLow
  have h64 : (2 : Nat) ^ 64 = 2 ^ w * 2 ^ (64 - w) := by
    rw [← Nat.pow_add]; congr 1; omega
  rw [h64, Nat.mod_mul_right_mod, Nat.add_comm, Nat.add_mul_mod_self_right, Nat.mod_mod]

/-- C28 as stated fails when the major version does not fit the 15 bits that an `int`
leaves above bit 16: in the example build with major version 32768 and minor version 0,
which is below 256, the `int` expression is negative, the response to
`PLX_IOCTL_DRIVER_VERSION` has `value[0] = 0xffffffff80000000`, and `value[0] >> 16` is
0xffffffff8000, not the major version. -/
theorem driver_version_major_not_recoverable :
    decodeCmd exampleHighVersionSys 0x101 = some .PLX_IOCTL_DRIVER_VERSION ∧
    exampleHighVersionSys.PLX_SDK_VERSION_MAJOR = 32768 ∧
    exampleHighVersionSys.PLX_SDK_VERSION_MINOR < 256 ∧
    (Dispatch_IoControl exampleHighVersionSys exampleApi (exampleDriver 1) ⟨0⟩ ⟨10, .device 0⟩
        0x101 (some exampleParams) 0).map (fun r => r.copied.map (fun out => out.value0))
      = some (some 0xffffffff80000000) ∧
    0xffffffff80000000 ≠ (exampleHighVersionSys.PLX_SDK_VERSION_MAJOR <<< 16) |||
      (exampleHighVersionSys.PLX_SDK_VERSION_MINOR <<< 8) ∧
    0xffffffff80000000 >>> 16 ≠ exampleHighVersionSys.PLX_SDK_VERSION_MAJOR := by
  refine ⟨by decide, by decide, by decide, by decide, by decide, by decide⟩

/-- C28, amended: for `PLX_IOCTL_DRIVER_VERSION` the dispatcher calls no API function and
hands back the request buffer with `value[0]` set to the `int` value of
`(major << 16) | (minor << 8)` converted to 64 bits, whose low 8 bits are zero, and with no
other field changed.  Whenever `major < 32768` and `minor < 256`, the `int` does not
overflow, `value[0]` is `(major << 16) | (minor << 8)`, and the version is recoverable as
`major = value[0] >> 16` and `minor = (value[0] >> 8) AND 0xFF`. -/
theorem driver_version_value (sys : PlxSys) (api : CoreCall → CoreRet) (drv : DRIVER_OBJECT)
    (ino : inode) (filp : file) (cmd : Nat) (b : PLX_PARAMS) (toUser : Nat) (pdx : Option Nat)
    (hpdx : getDeviceExtension drv ino filp = some pdx)
    (hcmd : decodeCmd sys cmd = some .PLX_IOCTL_DRIVER_VERSION) :
    ∃ r out, Dispatch_IoControl sys api drv ino filp cmd (some b) toUser = some r ∧
      r.calls = [] ∧ r.copied = some out ∧
      out = { b with value0 := intToU64 ((sys.PLX_SDK_VERSION_MAJOR <<< 16) |||
                                         (sys.PLX_SDK_VERSION_MINOR <<< 8)) } ∧
      out.value0 % 2 ^ 8 = 0 ∧
      (sys.PLX_SDK_VERSION_MAJOR < 32768 → sys.PLX_SDK_VERSION_MINOR < 256 →
        out.value0 = (sys.PLX_SDK_VERSION_MAJOR <<< 16) ||| (sys.PLX_SDK_VERSION_MINOR <<< 8) ∧
        out.value0 >>> 16 = sys.PLX_SDK_VERSION_MAJOR ∧
        (out.value0 >>> 8) &&& 0xFF = sys.PLX_SDK_VERSION_MINOR) := by
  have hsw : ioctlSwitch sys api drv pdx filp.addr b cmd =
      ([], { b with value0 := intToU64 ((sys.PLX_SDK_VERSION_MAJOR <<< 16) |||
                               (sys.PLX_SDK_VERSION_MINOR <<< 8) ||| (0 <<< 0)) }) := by
    rw [ioctlSwitch_case sys api drv pdx filp.addr b cmd _ hcmd]
    rfl
  refine ⟨_, _, Dispatch_IoControl_eq sys api drv ino filp cmd b toUser pdx hpdx, ?_, rfl, ?_,
    ?_, ?_⟩
  · show (ioctlSwitch sys api drv pdx filp.addr b cmd).1 = []
    rw [hsw]
  · rw [hsw]
    simp only [Nat.zero_shiftLeft, Nat.or_zero]
  · rw [hsw]
    exact version_word_low_bits _ _
  · intro hM hm
    rw [hsw]
    obtain ⟨h1, h2, h3⟩ := version_word_recover _ _ hM hm
    show intToU64 ((sys.PLX_SDK_VERSION_MAJOR <<< 16) ||| (sys.PLX_SDK_VERSION_MINOR <<< 8) |||
      (0 <<< 0)) = _ ∧ _
    rw [h1]
    exact ⟨rfl, h2, h3⟩

/-- Witness for C28, amended: the example build is SDK 6.40; the response carries 0x62800. -/
theorem driver_version_value_witness :
    ∃ r out, Dispatch_IoControl exampleSys exampleApi (exampleDriver 1) ⟨0⟩ ⟨10, .device 0⟩
        0x101 (some exampleParams) 0 = some r ∧ r.calls = [] ∧ r.copied = some out ∧
      out = { exampleParams with value0 := 0x62800 } ∧ out.value0 >>> 16 = 6 ∧
      (out.value0 >>> 8) &&& 0xFF = 40 := by
  obtain ⟨r, out, h1, h2, h3, h4, _, h6⟩ := driver_version_value exampleSys exampleApi
    (exampleDriver 1) ⟨0⟩ ⟨10, .device 0⟩ 0x101 exampleParams 0 (some 0) rfl (by decide)
  obtain ⟨_, h7, h8⟩ := h6 (by decide) (by decide)
  exact ⟨r, out, h1, h2, h3, h4.trans (by decide), h7, h8⟩

/-- C29: for `PLX_IOCTL_COMMON_BUFFER_PROPERTIES` the dispatcher calls no API function and
answers `ApiSuccess` with `PhysicalAddr`, `CpuPhysical` and `Size` set to the bus address,
the CPU address and the size of the common buffer of the driver object, every other field
of the buffer being the request's.  Any other such request on the same driver object, from
any node (the management node included), file handle, request content and set of API
functions, gets the same status and the same three values. -/
theorem common_buffer_properties_answer (sys : PlxSys) (api : CoreCall → CoreRet)
    (drv : DRIVER_OBJECT) (ino : inode) (filp : file) (cmd : Nat) (b : PLX_PARAMS)
    (toUser : Nat) (pdx : Option Nat)
    (hpdx : getDeviceExtension drv ino filp = some pdx)
    (hcmd : decodeCmd sys cmd = some .PLX_IOCTL_COMMON_BUFFER_PROPERTIES) :
    ∃ r out, Dispatch_IoControl sys api drv ino filp cmd (some b) toUser = some r ∧
      r.calls = [] ∧ r.copied = some out ∧
      out = { b with ReturnCode := .ApiSuccess,
                     u := { b.u with PciMemory :=
                       { b.u.PciMemory with PhysicalAddr := drv.CommonBuffer.BusPhysical,
                                            CpuPhysical := drv.CommonBuffer.CpuPhysical,
                                            Size := drv.CommonBuffer.Size } } } ∧
      out.ReturnCode = .ApiSuccess ∧
      out.u.PciMemory.PhysicalAddr = drv.CommonBuffer.BusPhysical ∧
      out.u.PciMemory.CpuPhysical = drv.CommonBuffer.CpuPhysical ∧
      out.u.PciMemory.Size = drv.CommonBuffer.Size ∧
      (∀ (api2 : CoreCall → CoreRet) (ino2 : inode) (filp2 : file) (b2 : PLX_PARAMS)
          (toUser2 : Nat) (pdx2 : Option Nat),
        getDeviceExtension drv ino2 filp2 = some pdx2 →
        ∃ r2 out2, Dispatch_IoControl sys api2 drv ino2 filp2 cmd (some b2) toUser2 = some r2 ∧
          r2.calls = [] ∧ r2.copied = some out2 ∧
          out2.ReturnCode = out.ReturnCode ∧
          out2.u.PciMemory.PhysicalAddr = out.u.PciMemory.PhysicalAddr ∧
          out2.u.PciMemory.CpuPhysical = out.u.PciMemory.CpuPhysical ∧
          out2.u.PciMemory.Size = out.u.PciMemory.Size) := by
  have hsw : ∀ (api2 : CoreCall → CoreRet) (pdx2 : Option Nat) (owner : Nat) (b2 : PLX_PARAMS),
      ioctlSwitch sys api2 drv pdx2 owner b2 cmd =
        ([], { b2 with ReturnCode := .ApiSuccess,
                       u := { b2.u with PciMemory :=
                         { b2.u.PciMemory with PhysicalAddr := drv.CommonBuffer.BusPhysical,
                                               CpuPhysical := drv.CommonBuffer.CpuPhysical,
                                               Size := drv.CommonBuffer.Size } } }) := by
    intro api2 pdx2 owner b2
    rw [ioctlSwitch_case sys api2 drv pdx2 owner b2 cmd _ hcmd]
    rfl
  refine ⟨_, _, Dispatch_IoControl_eq sys api drv ino filp cmd b toUser pdx hpdx, ?_, rfl, ?_,
    ?_, ?_, ?_, ?_, ?_⟩
  · show (ioctlSwitch sys api drv pdx filp.addr b cmd).1 = []
    rw [hsw]
  all_goals try (rw [hsw])
  intro api2 ino2 filp2 b2 toUser2 pdx2 hpdx2
  refine ⟨_, _, Dispatch_IoControl_eq sys api2 drv ino2 filp2 cmd b2 toUser2 pdx2 hpdx2, ?_, rfl,
    ?_, ?_, ?_, ?_⟩
  · show (ioctlSwitch sys api2 drv pdx2 filp2.addr b2 cmd).1 = []
    rw [hsw]
  all_goals rw [hsw]

/-- Witness for C29: the request on file 10 of the first example device and the request on
file 11 of the management node get the properties of the example common buffer. -/
theorem common_buffer_properties_answer_witness :
    (Dispatch_IoControl exampleSys exampleApi (exampleDriver 1) ⟨0⟩ ⟨10, .device 0⟩ 0x121
        (some exampleParams) 0).map
      (fun r => (r.calls, r.copied.map (fun out => (out.ReturnCode, out.u.PciMemory))))
      = some ([], some (.ApiSuccess, ⟨0x10000000, 0x10000000, 0x2000, 0⟩)) ∧
    ∃ r2 out2, Dispatch_IoControl exampleSys exampleApi (exampleDriver 1) ⟨0xff⟩ ⟨11, .driver⟩
        0x121 (some { exampleParams with value0 := 0 }) 0 = some r2 ∧
      r2.copied = some out2 ∧ out2.u.PciMemory.Size = 0x2000 := by
  obtain ⟨r, out, h1, h2, h3, h4, _, _, _, h8, h9⟩ := common_buffer_properties_answer exampleSys
    exampleApi (exampleDriver 1) ⟨0⟩ ⟨10, .device 0⟩ 0x121 exampleParams 0 (some 0) rfl
    (by decide)
  obtain ⟨r2, out2, g1, _, g3, _, _, _, g7⟩ := h9 exampleApi ⟨0xff⟩ ⟨11, .driver⟩
    { exampleParams with value0 := 0 } 0 none rfl
  refine ⟨?_, r2, out2, g1, g3, g7.trans h8⟩
  rw [h1]
  show some (r.calls, r.copied.map _) = _
  rw [h2, h3, h4]
  rfl

/-- C30: the wait-object handle makes the round trip.  For `PLX_IOCTL_NOTIFICATION_REGISTER_FOR`
the dispatcher makes the one call of `PlxNotificationRegisterFor`, which stores the
identifier, a pointer, through `&value[0]`; with a pointer of at most 64 bits the `value[0]`
of the response, taken in pointer width, is the identifier stored (and is the identifier
itself with 64-bit pointers).  Any later `PLX_IOCTL_NOTIFICATION_WAIT`,
`PLX_IOCTL_NOTIFICATION_STATUS` or `PLX_IOCTL_NOTIFICATION_CANCEL` request carrying that
`value[0]`, on any node, file handle and driver state, passes exactly the identifier stored
to `PlxNotificationWait`, `PlxNotificationStatus` or `PlxNotificationCancel`. -/
theorem wait_object_handle_round_trip (sys : PlxSys) (api : CoreCall → CoreRet)
    (drv : DRIVER_OBJECT) (ino : inode) (filp : file) (cmd : Nat) (b : PLX_PARAMS)
    (toUser : Nat) (pdx : Option Nat)
    (hpdx : getDeviceExtension drv ino filp = some pdx)
    (hcmd : decodeCmd sys cmd = some .PLX_IOCTL_NOTIFICATION_REGISTER_FOR)
    (hw : sys.ptrBits ≤ 64) :
    ∃ r out, Dispatch_IoControl sys api drv ino filp cmd (some b) toUser = some r ∧
      r.calls = [.PlxNotificationRegisterFor pdx b.u.PlxIntr (b.value0 % 2 ^ sys.ptrBits)
        filp.addr] ∧
      r.copied = some out ∧
      out.value0 % 2 ^ sys.ptrBits =
        (api (.PlxNotificationRegisterFor pdx b.u.PlxIntr (b.value0 % 2 ^ sys.ptrBits)
          filp.addr)).out0 % 2 ^ sys.ptrBits ∧
      (sys.ptrBits = 64 → out.value0 =
        (api (.PlxNotificationRegisterFor pdx b.u.PlxIntr (b.value0 % 2 ^ sys.ptrBits)
          filp.addr)).out0 % 2 ^ sys.ptrBits) ∧
      (∀ (api2 : CoreCall → CoreRet) (drv2 : DRIVER_OBJECT) (ino2 : inode) (filp2 : file)
          (cmd2 : Nat) (b2 : PLX_PARAMS) (toUser2 : Nat) (pdx2 : Option Nat),
        getDeviceExtension drv2 ino2 filp2 = some pdx2 → b2.value0 = out.value0 →
        ∃ r2, Dispatch_IoControl sys api2 drv2 ino2 filp2 cmd2 (some b2) toUser2 = some r2 ∧
          (decodeCmd sys cmd2 = some .PLX_IOCTL_NOTIFICATION_WAIT →
            r2.calls = [.PlxNotificationWait pdx2
              ((api (.PlxNotificationRegisterFor pdx b.u.PlxIntr (b.value0 % 2 ^ sys.ptrBits)
                filp.addr)).out0 % 2 ^ sys.ptrBits)
              (b2.value1 % 2 ^ sys.ptrBits)]) ∧
          (decodeCmd sys cmd2 = some .PLX_IOCTL_NOTIFICATION_STATUS →
            r2.calls = [.PlxNotificationStatus pdx2
              ((api (.PlxNotificationRegisterFor pdx b.u.PlxIntr (b.value0 % 2 ^ sys.ptrBits)
                filp.addr)).out0 % 2 ^ sys.ptrBits)
              b2.u.PlxIntr]) ∧
          (decodeCmd sys cmd2 = some .PLX_IOCTL_NOTIFICATION_CANCEL →
            r2.calls = [.PlxNotificationCancel pdx2
              ((api (.PlxNotificationRegisterFor pdx b.u.PlxIntr (b.value0 % 2 ^ sys.ptrBits)
                filp.addr)).out0 % 2 ^ sys.ptrBits)
              filp2.addr])) := by
  have hsw : ioctlSwitch sys api drv pdx filp.addr b cmd =
      ([.PlxNotificationRegisterFor pdx b.u.PlxIntr (b.value0 % 2 ^ sys.ptrBits) filp.addr],
        { b with
          ReturnCode := (api (.PlxNotificationRegisterFor pdx b.u.PlxIntr
            (b.value0 % 2 ^ sys.ptrBits) filp.addr)).status
          value0 := storeLow sys.ptrBits b.value0
            (api (.PlxNotificationRegisterFor pdx b.u.PlxIntr
              (b.value0 % 2 ^ sys.ptrBits) filp.addr)).out0 % 2 ^ 64
          u := { b.u with PlxIntr := (api (.PlxNotificationRegisterFor pdx b.u.PlxIntr
            (b.value0 % 2 ^ sys.ptrBits) filp.addr)).PlxIntr } }) := by
    rw [ioctlSwitch_case sys api drv pdx filp.addr b cmd _ hcmd]
    rfl
  have hround : (ioctlSwitch sys api drv pdx filp.addr b cmd).2.value0 % 2 ^ sys.ptrBits =
      (api (.PlxNotificationRegisterFor pdx b.u.PlxIntr (b.value0 % 2 ^ sys.ptrBits)
        filp.addr)).out0 % 2 ^ sys.ptrBits := by
    rw [hsw]
    exact storeLow_mod _ _ _ hw
  refine ⟨_, _, Dispatch_IoControl_eq sys api drv ino filp cmd b toUser pdx hpdx, ?_, rfl,
    hround, ?_, ?_⟩
  · show (ioctlSwitch sys api drv pdx filp.addr b cmd).1 = _
    rw [hsw]
  · intro h64
    rw [← hround, hsw]
    show _ % 2 ^ 64 = (_ % 2 ^ 64) % 2 ^ sys.ptrBits
    rw [h64, Nat.mod_mod]
  · intro api2 drv2 ino2 filp2 cmd2 b2 toUser2 pdx2 hpdx2 hval
    refine ⟨_, Dispatch_IoControl_eq sys api2 drv2 ino2 filp2 cmd2 b2 toUser2 pdx2 hpdx2,
      ?_, ?_, ?_⟩
    all_goals
      intro hc
      show (ioctlSwitch sys api2 drv2 pdx2 filp2.addr b2 cmd2).1 = _
      rw [ioctlSwitch_case sys api2 drv2 pdx2 filp2.addr b2 cmd2 _ hc, ← hround, ← hval]
      rfl

/-- Witness for C30: on the 32-bit example build a request with `value[0] = 0x500001234`
registers on file 10; the function stores the identifier 0x77; the response carries
`value[0] = 0x500000077`, and a wait request with that `value[0]` passes 0x77. -/
theorem wait_object_handle_round_trip_witness :
    (Dispatch_IoControl exampleSys32 exampleApi (exampleDriver 1) ⟨0⟩ ⟨10, .device 0⟩ 0x124
        (some { exampleParams with value0 := 0x500001234 }) 0).map
      (fun r => r.copied.map (fun out => out.value0)) = some (some 0x500000077) ∧
    ∃ r2, Dispatch_IoControl exampleSys32 exampleApi (exampleDriver 1) ⟨0⟩ ⟨10, .device 0⟩ 0x125
        (some { exampleParams with value0 := 0x500000077 }) 0 = some r2 ∧
      r2.calls = [.PlxNotificationWait (some 0) 0x77 100] := by
  obtain ⟨r, out, h1, _, h3, _, _, h6⟩ := wait_object_handle_round_trip exampleSys32 exampleApi
    (exampleDriver 1) ⟨0⟩ ⟨10, .device 0⟩ 0x124 { exampleParams with value0 := 0x500001234 } 0
    (some 0) rfl (by decide) (by decide)
  have hout : out.value0 = 0x500000077 := by
    have h : some r = some ⟨((0 : Nat) : Int),
        [.PlxNotificationRegisterFor (some 0) ⟨5⟩ 0x1234 10],
        some { exampleParams with ReturnCode := .ApiSuccess, value0 := 0x500000077 }⟩ :=
      h1.symm.trans (by decide)
    cases h
    cases h3
    rfl
  obtain ⟨r2, g1, g2, _, _⟩ := h6 exampleApi (exampleDriver 1) ⟨0⟩ ⟨10, .device 0⟩ 0x125
    { exampleParams with value0 := 0x500000077 } 0 (some 0) rfl hout.symm
  refine ⟨?_, r2, g1, (g2 (by decide)).trans (by decide)⟩
  rw [h1]
  show some (r.copied.map _) = _
  rw [h3]
  show some (some out.value0) = _
  rw [hout]

/-! ### One outstanding `Wait` of a thread -/

theorem sleepersOf_eq_nil_iff (t : Nat) (reg : List PLX_WAIT_OBJECT) :
    sleepersOf t reg = [] ↔ ∀ x ∈ reg, ∀ sl ∈ x.WaitQueue, sl.thread ≠ t := by
  constructor
  · intro h x hx sl hsl ht
    have : sl ∈ sleepersOf t reg := by
      unfold sleepersOf
      rw [List.mem_flatMap]
      exact ⟨x, hx, List.mem_filter.mpr ⟨hsl, by simpa using ht⟩⟩
    rw [h] at this
    cases this
  · exact sleepersOf_eq_nil t reg

theorem sleepersOf_map_congr (t : Nat) (g : PLX_WAIT_OBJECT → PLX_WAIT_OBJECT) :
    ∀ reg : List PLX_WAIT_OBJECT,
      (∀ y ∈ reg, (g y).WaitQueue.filter (fun s => s.thread = t)
        = y.WaitQueue.filter (fun s => s.thread = t)) →
      sleepersOf t (reg.map g) = sleepersOf t reg := by
  intro reg
  induction reg with
  | nil => intro _; rfl
  | cons o l ih =>
    intro h
    rw [List.map_cons, sleepersOf_cons, sleepersOf_cons, h o (List.mem_cons_self _ _),
      ih (fun y hy => h y (List.mem_cons_of_mem _ hy))]

theorem sleepersOf_mem_thread (t : Nat) (reg : List PLX_WAIT_OBJECT) (sl : Sleeper)
    (h : sl ∈ sleepersOf t reg) : sl.thread = t := by
  unfold sleepersOf at h
  rw [List.mem_flatMap] at h
  obtain ⟨x, _, hx⟩ := h
  simpa using (List.mem_filter.mp hx).2

theorem sleepersOf_singleton_split (t : Nat) (sl : Sleeper) :
    ∀ reg : List PLX_WAIT_OBJECT, sleepersOf t reg = [sl] →
      ∃ pre x post, reg = pre ++ x :: post ∧
        x.WaitQueue.filter (fun s => s.thread = t) = [sl] ∧
        (∀ y ∈ pre, ∀ s ∈ y.WaitQueue, s.thread ≠ t) ∧
        (∀ y ∈ post, ∀ s ∈ y.WaitQueue, s.thread ≠ t) := by
  intro reg
  induction reg with
  | nil => intro h; cases h
  | cons o l ih =>
    intro h
    rw [sleepersOf_cons] at h
    cases hq : o.WaitQueue.filter (fun s => s.thread = t) with
    | nil =>
      rw [hq, List.nil_append] at h
      obtain ⟨pre, x, post, hl, hx, hpre, hpost⟩ := ih h
      refine ⟨o :: pre, x, post, by rw [hl]; rfl, hx, ?_, hpost⟩
      intro y hy s hs ht
      rcases List.mem_cons.mp hy with rfl | hy
      · have : s ∈ y.WaitQueue.filter (fun s => s.thread = t) :=
          List.mem_filter.mpr ⟨hs, by simpa using ht⟩
        rw [hq] at this
        cases this
      · exact hpre y hy s hs ht
    | cons a rest =>
      rw [hq] at h
      have hlen := congrArg List.length h
      simp only [List.length_cons, List.length_append, List.length_nil] at hlen
      have hrest : rest = [] := List.length_eq_zero.mp (by omega)
      have hl : sleepersOf t l = [] := List.length_eq_zero.mp (by omega)
      subst hrest
      rw [hl] at h
      refine ⟨[], o, l, rfl, ?_, fun y hy => (by cases hy), (sleepersOf_eq_nil_iff t l).mp hl⟩
      rw [hq]
      exact h

theorem sleepersOf_split (t : Nat) (pre post : List PLX_WAIT_OBJECT) (x : PLX_WAIT_OBJECT)
    (hpre : ∀ y ∈ pre, ∀ s ∈ y.WaitQueue, s.thread ≠ t)
    (hpost : ∀ y ∈ post, ∀ s ∈ y.WaitQueue, s.thread ≠ t) :
    sleepersOf t (pre ++ x :: post) = x.WaitQueue.filter (fun s => s.thread = t) := by
  rw [sleepersOf_append, sleepersOf_cons, sleepersOf_eq_nil t pre hpre,
    sleepersOf_eq_nil t post hpost, List.nil_append, List.append_nil]

theorem resultsOf_other (t t1 : Nat) (r : WaitResult) (h : t1 ≠ t) :
    resultsOf t [(t1, r)] = [] := by
  simp [resultsOf, h]

theorem resultsOf_self (t : Nat) (r : WaitResult) : resultsOf t [(t, r)] = [r] := by
  simp [resultsOf]

theorem Register_sleepers (t : Nat) (alloc : Option Nat) (client lineMask doorbellMask : Nat)
    (reg : List PLX_WAIT_OBJECT) :
    sleepersOf t (Register alloc client lineMask doorbellMask reg).2 = sleepersOf t reg := by
  cases alloc with
  | none => rfl
  | some a =>
    show sleepersOf t (reg ++ [_]) = _
    rw [sleepersOf_append, sleepersOf_cons]
    simp [sleepersOf]

theorem updateObject_sleepers (t id : Nat) (f : PLX_WAIT_OBJECT → PLX_WAIT_OBJECT)
    (reg : List PLX_WAIT_OBJECT)
    (h : ∀ y ∈ reg, (f y).WaitQueue.filter (fun s => s.thread = t)
      = y.WaitQueue.filter (fun s => s.thread = t)) :
    sleepersOf t (updateObject id f reg) = sleepersOf t reg := by
  unfold updateObject
  apply sleepersOf_map_congr
  intro y hy
  by_cases hid : y.addr = id
  · rw [if_pos hid]
    exact h y hy
  · rw [if_neg hid]

theorem WaitEnter_other_sleepers (t t1 id timeout : Nat) (reg : List PLX_WAIT_OBJECT)
    (h : t1 ≠ t) : sleepersOf t (WaitEnter t1 id timeout reg).1 = sleepersOf t reg := by
  unfold WaitEnter
  cases reg.find? (fun o => o.addr = id) with
  | none => rfl
  | some o =>
    simp only
    split
    · apply updateObject_sleepers
      intro y _
      simp [List.filter_append, h]
    · split
      · rfl
      · apply updateObject_sleepers
        intro y _
        simp [List.filter_append, h]

theorem WaitLeave_other_sleepers (t t1 : Nat) (reg reg1 : List PLX_WAIT_OBJECT)
    (r : WaitResult) (h : t1 ≠ t) (hl : WaitLeave t1 reg = some (r, reg1)) :
    sleepersOf t reg1 = sleepersOf t reg := by
  unfold WaitLeave at hl
  cases hf : reg.find? (fun o => o.hasWoken t1) with
  | none => simp [hf] at hl
  | some o =>
    simp only [hf, Option.some.injEq, Prod.mk.injEq] at hl
    rw [← hl.2]
    apply updateObject_sleepers
    intro y _
    show (y.WaitQueue.filter _).filter _ = _
    rw [List.filter_filter]
    apply List.filter_congr
    intro s _
    by_cases hs : s.thread = t
    · simp [hs, Ne.symm h]
    · simp [hs]

theorem WaitLeave_none_of_not_woken (t : Nat) (reg : List PLX_WAIT_OBJECT)
    (h : ∀ sl ∈ sleepersOf t reg, sl.woken = false) : WaitLeave t reg = none := by
  unfold WaitLeave
  have : reg.find? (fun o => o.hasWoken t) = none := by
    rw [List.find?_eq_none]
    intro x hx hw
    unfold PLX_WAIT_OBJECT.hasWoken at hw
    rw [List.any_eq_true] at hw
    obtain ⟨sl, hsl, hb⟩ := hw
    simp only [Bool.and_eq_true, decide_eq_true_eq] at hb
    have hmem : sl ∈ sleepersOf t reg := by
      unfold sleepersOf
      rw [List.mem_flatMap]
      exact ⟨x, hx, List.mem_filter.mpr ⟨hsl, by simpa using hb.1⟩⟩
    rw [h sl hmem] at hb
    exact absurd hb.2 (by decide)
  rw [this]

theorem Status_registry (id : Nat) (reg : List PLX_WAIT_OBJECT) : (Status id reg).2 = reg := by
  unfold Status
  cases reg.find? (fun o => o.addr = id) <;> rfl

theorem filter_not_sleeping (t : Nat) (p : PLX_WAIT_OBJECT → Bool) (l : List PLX_WAIT_OBJECT)
    (h : ∀ y ∈ l, ∀ s ∈ y.WaitQueue, s.thread ≠ t) :
    ∀ y ∈ l.filter p, ∀ s ∈ y.WaitQueue, s.thread ≠ t :=
  fun y hy => h y (List.mem_filter.mp hy).1

theorem sleepersOf_filter_split (t : Nat) (p : PLX_WAIT_OBJECT → Bool)
    (pre post : List PLX_WAIT_OBJECT) (x : PLX_WAIT_OBJECT)
    (hpre : ∀ y ∈ pre, ∀ s ∈ y.WaitQueue, s.thread ≠ t)
    (hpost : ∀ y ∈ post, ∀ s ∈ y.WaitQueue, s.thread ≠ t) :
    sleepersOf t ((pre ++ x :: post).filter p) =
      if p x = true then x.WaitQueue.filter (fun s => s.thread = t) else [] := by
  rw [List.filter_append, List.filter_cons]
  by_cases hp : p x = true
  · rw [if_pos hp, if_pos hp]
    exact sleepersOf_split t _ _ x (filter_not_sleeping t p pre hpre)
      (filter_not_sleeping t p post hpost)
  · rw [if_neg hp, if_neg hp, sleepersOf_append,
      sleepersOf_eq_nil t _ (filter_not_sleeping t p pre hpre),
      sleepersOf_eq_nil t _ (filter_not_sleeping t p post hpost)]
    rfl

theorem Cancel_results (t : Nat) (target : Option Nat) (client : Nat)
    (reg : List PLX_WAIT_OBJECT) :
    resultsOf t (Cancel target client reg).woken =
      (sleepersOf t (reg.filter (cancelTarget target client))).map
        (fun _ => WaitResult.Cancelled) := by
  show resultsOf t (List.flatMap _ _) = _
  generalize reg.filter (cancelTarget target client) = l
  induction l with
  | nil => rfl
  | cons o l ih =>
    rw [List.flatMap_cons, resultsOf_append, ih, sleepersOf_cons, List.map_append]
    congr 1
    unfold resultsOf
    rw [List.filter_map, List.map_map]
    rfl

theorem Cancel_outstanding (t : Nat) (target : Option Nat) (client : Nat)
    (reg : List PLX_WAIT_OBJECT) (sl : Sleeper) (h : sleepersOf t reg = [sl]) :
    (sleepersOf t (Cancel target client reg).registry = [sl] ∧
      resultsOf t (Cancel target client reg).woken = []) ∨
    (sleepersOf t (Cancel target client reg).registry = [] ∧
      resultsOf t (Cancel target client reg).woken = [.Cancelled]) := by
  obtain ⟨pre, x, post, rfl, hx, hpre, hpost⟩ := sleepersOf_singleton_split t sl reg h
  rw [Cancel_results]
  show (sleepersOf t ((pre ++ x :: post).filter (fun o => !cancelTarget target client o)) = _ ∧ _)
    ∨ (sleepersOf t ((pre ++ x :: post).filter (fun o => !cancelTarget target client o)) = _ ∧ _)
  rw [sleepersOf_filter_split t _ pre post x hpre hpost,
    sleepersOf_filter_split t _ pre post x hpre hpost, hx]
  by_cases hc : cancelTarget target client x = true
  · right
    simp [hc]
  · left
    simp [hc]

theorem Cancel_no_sleeper (t : Nat) (target : Option Nat) (client : Nat)
    (reg : List PLX_WAIT_OBJECT) (h : sleepersOf t reg = []) :
    sleepersOf t (Cancel target client reg).registry = [] ∧
    resultsOf t (Cancel target client reg).woken = [] := by
  have hreg := (sleepersOf_eq_nil_iff t reg).mp h
  rw [Cancel_results]
  constructor
  · exact sleepersOf_eq_nil t _ (filter_not_sleeping t _ reg hreg)
  · rw [sleepersOf_eq_nil t _ (filter_not_sleeping t _ reg hreg)]
    rfl

theorem signalObject_sleepers (t line doorbell : Nat) (o : PLX_WAIT_OBJECT) :
    (signalObject line doorbell o).WaitQueue.filter (fun s => s.thread = t) =
      if o.intersects line doorbell = true then
        (o.WaitQueue.filter (fun s => s.thread = t)).map (fun s => { s with woken := true })
      else o.WaitQueue.filter (fun s => s.thread = t) := by
  unfold signalObject
  by_cases hi : o.intersects line doorbell = true
  · rw [if_pos hi, if_pos hi]
    show (o.WaitQueue.map _).filter _ = _
    rw [List.filter_map]
    rfl
  · rw [if_neg hi, if_neg hi]

theorem Dispatch_split (line doorbell : Nat) (pre post : List PLX_WAIT_OBJECT)
    (x : PLX_WAIT_OBJECT) :
    Dispatch line doorbell (pre ++ x :: post) =
      Dispatch line doorbell pre ++ signalObject line doorbell x :: Dispatch line doorbell post := by
  unfold Dispatch
  rw [List.map_append, List.map_cons]

theorem Dispatch_holder (t line doorbell : Nat) (pre post : List PLX_WAIT_OBJECT)
    (x : PLX_WAIT_OBJECT)
    (hpre : ∀ y ∈ pre, ∀ s ∈ y.WaitQueue, s.thread ≠ t)
    (hpost : ∀ y ∈ post, ∀ s ∈ y.WaitQueue, s.thread ≠ t) :
    sleepersOf t (Dispatch line doorbell (pre ++ x :: post)) =
      if x.intersects line doorbell = true then
        (x.WaitQueue.filter (fun s => s.thread = t)).map (fun s => { s with woken := true })
      else x.WaitQueue.filter (fun s => s.thread = t) := by
  rw [Dispatch_split, sleepersOf_split t _ _ _ (Dispatch_not_sleeping line doorbell t pre hpre)
    (Dispatch_not_sleeping line doorbell t post hpost), signalObject_sleepers]

theorem Dispatch_outstanding (t line doorbell : Nat) (reg : List PLX_WAIT_OBJECT) (sl : Sleeper)
    (h : sleepersOf t reg = [sl]) :
    sleepersOf t (Dispatch line doorbell reg) = [sl] ∨
    sleepersOf t (Dispatch line doorbell reg) = [{ sl with woken := true }] := by
  obtain ⟨pre, x, post, rfl, hx, hpre, hpost⟩ := sleepersOf_singleton_split t sl reg h
  rw [Dispatch_holder t line doorbell pre post x hpre hpost, hx]
  by_cases hi : x.intersects line doorbell = true
  · right
    rw [if_pos hi]
    rfl
  · left
    rw [if_neg hi]

theorem Dispatch_no_sleeper (t line doorbell : Nat) (reg : List PLX_WAIT_OBJECT)
    (h : sleepersOf t reg = []) : sleepersOf t (Dispatch line doorbell reg) = [] :=
  sleepersOf_eq_nil t _
    (Dispatch_not_sleeping line doorbell t reg ((sleepersOf_eq_nil_iff t reg).mp h))

theorem Tick_outstanding (t : Nat) (reg : List PLX_WAIT_OBJECT) (sl : Sleeper)
    (h : sleepersOf t reg = [sl]) :
    (sl.expires = true → sleepersOf t (Tick reg).1 = [] ∧
      resultsOf t (Tick reg).2 = [.TimedOut]) ∧
    (sl.expires = false →
      sleepersOf t (Tick reg).1 =
        [if sl.woken then sl else { sl with remaining := sl.remaining - 1 }] ∧
      resultsOf t (Tick reg).2 = []) := by
  rw [Tick_sleepers, Tick_results, h]
  constructor
  · intro he
    simp [he]
  · intro he
    simp [he]

theorem Tick_no_sleeper (t : Nat) (reg : List PLX_WAIT_OBJECT) (h : sleepersOf t reg = []) :
    sleepersOf t (Tick reg).1 = [] ∧ resultsOf t (Tick reg).2 = [] := by
  rw [Tick_sleepers, Tick_results, h]
  exact ⟨rfl, rfl⟩

theorem WaitLeave_outstanding (t : Nat) (reg : List PLX_WAIT_OBJECT) (sl : Sleeper)
    (h : sleepersOf t reg = [sl]) (hw : sl.woken = true) :
    ∃ line doorbell reg1, WaitLeave t reg = some (.matched line doorbell, reg1) ∧
      sleepersOf t reg1 = [] := by
  obtain ⟨pre, x, post, rfl, hx, hpre, hpost⟩ := sleepersOf_singleton_split t sl reg h
  have hslx : sl ∈ x.WaitQueue.filter (fun s => s.thread = t) := by
    rw [hx]
    exact List.mem_singleton_self sl
  have hmem := List.mem_filter.mp hslx
  have hxw : x.hasWoken t = true := by
    unfold PLX_WAIT_OBJECT.hasWoken
    rw [List.any_eq_true]
    exact ⟨sl, hmem.1, by simpa [hw] using hmem.2⟩
  have hfind := find?_hasWoken_split t pre post x
    (fun y hy => hasWoken_of_not_sleeping t y (hpre y hy)) hxw
  unfold WaitLeave
  rw [hfind]
  refine ⟨_, _, _, rfl, ?_⟩
  apply sleepersOf_eq_nil
  intro z hz s hs
  unfold updateObject at hz
  obtain ⟨y, hy, rfl⟩ := List.mem_map.mp hz
  by_cases hid : y.addr = x.addr
  · rw [if_pos hid] at hs
    have := (List.mem_filter.mp hs).2
    simpa using this
  · rw [if_neg hid] at hs
    rcases List.mem_append.mp hy with hy | hy
    · exact hpre y hy s hs
    · rcases List.mem_cons.mp hy with rfl | hy
      · exact absurd rfl hid
      · exact hpost y hy s hs

theorem step_no_sleeper (t : Nat) (s : CoreState) (e : CoreEvent)
    (he : e.isWaitEnterOf t = false) (h : sleepersOf t s.registry = []) :
    sleepersOf t (s.step e).registry = [] ∧
    resultsOf t (s.step e).results = resultsOf t s.results := by
  cases e with
  | register alloc client lineMask doorbellMask =>
    exact ⟨(Register_sleepers t alloc client lineMask doorbellMask s.registry).trans h, rfl⟩
  | waitEnter t1 id timeout =>
    have hne : t1 ≠ t := by simpa [CoreEvent.isWaitEnterOf] using he
    have hsl := WaitEnter_other_sleepers t t1 id timeout s.registry hne
    show sleepersOf t (match WaitEnter t1 id timeout s.registry with
        | (reg, none) => { s with registry := reg }
        | (reg, some r) => { registry := reg, results := s.results ++ [(t1, r)] }).registry = []
      ∧ resultsOf t (match WaitEnter t1 id timeout s.registry with
        | (reg, none) => { s with registry := reg }
        | (reg, some r) => { registry := reg, results := s.results ++ [(t1, r)] }).results = _
    rcases hW : WaitEnter t1 id timeout s.registry with ⟨reg, r⟩
    rw [hW] at hsl
    cases r with
    | none => exact ⟨hsl.trans h, rfl⟩
    | some r =>
      refine ⟨hsl.trans h, ?_⟩
      show resultsOf t (s.results ++ [(t1, r)]) = _
      rw [resultsOf_append, resultsOf_other t t1 r hne, List.append_nil]
  | waitLeave t1 =>
    show sleepersOf t (match WaitLeave t1 s.registry with
        | none => s
        | some (r, reg) => { registry := reg, results := s.results ++ [(t1, r)] }).registry = []
      ∧ resultsOf t (match WaitLeave t1 s.registry with
        | none => s
        | some (r, reg) => { registry := reg, results := s.results ++ [(t1, r)] }).results = _
    cases hW : WaitLeave t1 s.registry with
    | none => exact ⟨h, rfl⟩
    | some p =>
      obtain ⟨r, reg⟩ := p
      by_cases hne : t1 = t
      · subst hne
        rw [WaitLeave_none_of_not_woken t1 s.registry (by rw [h]; intro sl hsl; cases hsl)] at hW
        cases hW
      · refine ⟨(WaitLeave_other_sleepers t t1 s.registry reg r hne hW).trans h, ?_⟩
        show resultsOf t (s.results ++ [(t1, r)]) = _
        rw [resultsOf_append, resultsOf_other t t1 r hne, List.append_nil]
  | status id =>
    refine ⟨?_, rfl⟩
    show sleepersOf t (Status id s.registry).2 = []
    rw [Status_registry]
    exact h
  | cancel target client =>
    obtain ⟨h1, h2⟩ := Cancel_no_sleeper t target client s.registry h
    refine ⟨h1, ?_⟩
    show resultsOf t (s.results ++ (Cancel target client s.registry).woken) = _
    rw [resultsOf_append, h2, List.append_nil]
  | dispatch line doorbell =>
    exact ⟨Dispatch_no_sleeper t line doorbell s.registry h, rfl⟩
  | tick =>
    obtain ⟨h1, h2⟩ := Tick_no_sleeper t s.registry h
    refine ⟨h1, ?_⟩
    show resultsOf t (s.results ++ (Tick s.registry).2) = _
    rw [resultsOf_append, h2, List.append_nil]

theorem step_outstanding (t k : Nat) (R0 : List WaitResult) (s : CoreState) (e : CoreEvent)
    (he : e.isWaitEnterOf t = false) (sl : Sleeper)
    (h : sleepersOf t s.registry = [sl])
    (hb : sl.woken = false → 1 ≤ sl.remaining ∧ sl.remaining ≤ k)
    (hr : resultsOf t s.results = R0) :
    (∃ sl1, sleepersOf t (s.step e).registry = [sl1] ∧
      (sl1.woken = false → 1 ≤ sl1.remaining ∧ sl1.remaining ≤ k - countTicks [e]) ∧
      resultsOf t (s.step e).results = R0) ∨
    (sleepersOf t (s.step e).registry = [] ∧
      ∃ r, resultsOf t (s.step e).results = R0 ++ [r]) := by
  cases e with
  | register alloc client lineMask doorbellMask =>
    exact Or.inl ⟨sl,
      (Register_sleepers t alloc client lineMask doorbellMask s.registry).trans h, hb, hr⟩
  | waitEnter t1 id timeout =>
    have hne : t1 ≠ t := by simpa [CoreEvent.isWaitEnterOf] using he
    have hsl := WaitEnter_other_sleepers t t1 id timeout s.registry hne
    left
    refine ⟨sl, ?_⟩
    show sleepersOf t (match WaitEnter t1 id timeout s.registry with
        | (reg, none) => { s with registry := reg }
        | (reg, some r) => { registry := reg, results := s.results ++ [(t1, r)] }).registry = _
      ∧ _ ∧ resultsOf t (match WaitEnter t1 id timeout s.registry with
        | (reg, none) => { s with registry := reg }
        | (reg, some r) => { registry := reg, results := s.results ++ [(t1, r)] }).results = _
    rcases hW : WaitEnter t1 id timeout s.registry with ⟨reg, r⟩
    rw [hW] at hsl
    cases r with
    | none => exact ⟨hsl.trans h, hb, hr⟩
    | some r =>
      refine ⟨hsl.trans h, hb, ?_⟩
      show resultsOf t (s.results ++ [(t1, r)]) = _
      rw [resultsOf_append, resultsOf_other t t1 r hne, List.append_nil, hr]
  | waitLeave t1 =>
    show (∃ sl1, sleepersOf t (match WaitLeave t1 s.registry with
        | none => s
        | some (r, reg) => { registry := reg, results := s.results ++ [(t1, r)] }).registry = _
      ∧ _ ∧ resultsOf t (match WaitLeave t1 s.registry with
        | none => s
        | some (r, reg) => { registry := reg, results := s.results ++ [(t1, r)] }).results = _)
      ∨ (sleepersOf t (match WaitLeave t1 s.registry with
        | none => s
        | some (r, reg) => { registry := reg, results := s.results ++ [(t1, r)] }).registry = _
      ∧ ∃ r0, resultsOf t (match WaitLeave t1 s.registry with
        | none => s
        | some (r, reg) => { registry := reg, results := s.results ++ [(t1, r)] }).results = _)
    by_cases hne : t1 = t
    · subst hne
      by_cases hw : sl.woken = true
      · obtain ⟨line, doorbell, reg1, hW, hnil⟩ := WaitLeave_outstanding t1 s.registry sl h hw
        right
        rw [hW]
        refine ⟨hnil, .matched line doorbell, ?_⟩
        show resultsOf t1 (s.results ++ [(t1, .matched line doorbell)]) = _
        rw [resultsOf_append, resultsOf_self, hr]
      · have hW := WaitLeave_none_of_not_woken t1 s.registry (by
          rw [h]
          intro x hx
          rw [List.mem_singleton.mp hx]
          simpa using hw)
        left
        rw [hW]
        exact ⟨sl, h, hb, hr⟩
    · cases hW : WaitLeave t1 s.registry with
      | none => exact Or.inl ⟨sl, h, hb, hr⟩
      | some p =>
        obtain ⟨r, reg⟩ := p
        left
        refine ⟨sl, (WaitLeave_other_sleepers t t1 s.registry reg r hne hW).trans h, hb, ?_⟩
        show resultsOf t (s.results ++ [(t1, r)]) = _
        rw [resultsOf_append, resultsOf_other t t1 r hne, List.append_nil, hr]
  | status id =>
    left
    refine ⟨sl, ?_, hb, hr⟩
    show sleepersOf t (Status id s.registry).2 = _
    rw [Status_registry]
    exact h
  | cancel target client =>
    rcases Cancel_outstanding t target client s.registry sl h with ⟨h1, h2⟩ | ⟨h1, h2⟩
    · left
      refine ⟨sl, h1, hb, ?_⟩
      show resultsOf t (s.results ++ (Cancel target client s.registry).woken) = _
      rw [resultsOf_append, h2, List.append_nil, hr]
    · right
      refine ⟨h1, .Cancelled, ?_⟩
      show resultsOf t (s.results ++ (Cancel target client s.registry).woken) = _
      rw [resultsOf_append, h2, hr]
  | dispatch line doorbell =>
    left
    rcases Dispatch_outstanding t line doorbell s.registry sl h with h1 | h1
    · exact ⟨sl, h1, hb, hr⟩
    · exact ⟨_, h1, fun hw => (by cases hw), hr⟩
  | tick =>
    obtain ⟨h1, h2⟩ := Tick_outstanding t s.registry sl h
    by_cases hx : sl.expires = true
    · right
      obtain ⟨g1, g2⟩ := h1 hx
      refine ⟨g1, .TimedOut, ?_⟩
      show resultsOf t (s.results ++ (Tick s.registry).2) = _
      rw [resultsOf_append, g2, hr]
    · have hx2 : sl.expires = false := by simpa using hx
      obtain ⟨g1, g2⟩ := h2 hx2
      left
      refine ⟨_, g1, ?_, ?_⟩
      · intro hw
        by_cases hwk : sl.woken = true
        · rw [if_pos hwk] at hw
          rw [hwk] at hw
          cases hw
        · have hwf : sl.woken = false := by simpa using hwk
          rw [if_neg hwk]
          obtain ⟨b1, b2⟩ := hb hwf
          have hrem : ¬ sl.remaining ≤ 1 := by
            intro hle
            simp [Sleeper.expires, hwf, hle] at hx2
          show 1 ≤ sl.remaining - 1 ∧ sl.remaining - 1 ≤ k - countTicks [CoreEvent.tick]
          simp only [countTicks]
          omega
      · show resultsOf t (s.results ++ (Tick s.registry).2) = _
        rw [resultsOf_append, g2, List.append_nil, hr]

theorem run_outstanding (t : Nat) (R0 : List WaitResult) :
    ∀ (es : List CoreEvent) (k : Nat) (s : CoreState),
      (∀ e ∈ es, e.isWaitEnterOf t = false) →
      ((∃ sl, sleepersOf t s.registry = [sl] ∧
          (sl.woken = false → 1 ≤ sl.remaining ∧ sl.remaining ≤ k) ∧
          resultsOf t s.results = R0) ∨
        (sleepersOf t s.registry = [] ∧ ∃ r, resultsOf t s.results = R0 ++ [r])) →
      ((∃ sl, sleepersOf t (s.run es).registry = [sl] ∧
          (sl.woken = false → 1 ≤ sl.remaining ∧ sl.remaining ≤ k - countTicks es) ∧
          resultsOf t (s.run es).results = R0) ∨
        (sleepersOf t (s.run es).registry = [] ∧
          ∃ r, resultsOf t (s.run es).results = R0 ++ [r])) := by
  intro es
  induction es with
  | nil =>
    intro k s _ h
    exact h
  | cons e es ih =>
    intro k s hes h
    have he := hes e (List.mem_cons_self _ _)
    have hes2 : ∀ e1 ∈ es, e1.isWaitEnterOf t = false :=
      fun e1 h1 => hes e1 (List.mem_cons_of_mem _ h1)
    show (∃ sl, sleepersOf t ((s.step e).run es).registry = [sl] ∧ _ ∧ _) ∨ _
    rw [countTicks_cons, ← Nat.sub_sub]
    apply ih (k - countTicks [e]) (s.step e) hes2
    rcases h with ⟨sl, h1, h2, h3⟩ | ⟨h1, r, h2⟩
    · exact step_outstanding t k R0 s e he sl h1 h2 h3
    · right
      obtain ⟨g1, g2⟩ := step_no_sleeper t s e he h1
      exact ⟨g1, r, g2.trans h2⟩

theorem WaitEnter_split (t timeout : Nat) (pre post : List PLX_WAIT_OBJECT)
    (o : PLX_WAIT_OBJECT) (hpre : ∀ x ∈ pre, x.addr ≠ o.addr)
    (hpost : ∀ x ∈ post, x.addr ≠ o.addr) :
    WaitEnter t o.addr timeout (pre ++ o :: post) =
      if o.state = .PLX_STATE_TRIGGERED then
        (pre ++ { o with SleepCount := o.SleepCount + 1,
                         WaitQueue := o.WaitQueue ++ [⟨t, timeout, true⟩] } :: post, none)
      else if timeout = 0 then (pre ++ o :: post, some .TimedOut)
      else
        (pre ++ { o with SleepCount := o.SleepCount + 1,
                         WaitQueue := o.WaitQueue ++ [⟨t, timeout, false⟩] } :: post, none) := by
  unfold WaitEnter
  rw [find?_addr_split pre post o hpre]
  simp only [updateObject_split _ pre post o hpre hpost]

theorem enter_outstanding (t id timeout : Nat) (s : CoreState)
    (hnodup : (s.registry.map (fun x => x.addr)).Nodup)
    (hfree : ∀ x ∈ s.registry, ∀ sl ∈ x.WaitQueue, sl.thread ≠ t) :
    (∃ sl, sleepersOf t (s.step (.waitEnter t id timeout)).registry = [sl] ∧
        (sl.woken = false → 1 ≤ sl.remaining ∧ sl.remaining ≤ timeout) ∧
        resultsOf t (s.step (.waitEnter t id timeout)).results = resultsOf t s.results) ∨
      (sleepersOf t (s.step (.waitEnter t id timeout)).registry = [] ∧
        ∃ r, resultsOf t (s.step (.waitEnter t id timeout)).results
          = resultsOf t s.results ++ [r]) := by
  have hnil := sleepersOf_eq_nil t s.registry hfree
  show (∃ sl, sleepersOf t (match WaitEnter t id timeout s.registry with
        | (reg, none) => { s with registry := reg }
        | (reg, some r) => { registry := reg, results := s.results ++ [(t, r)] }).registry = _
      ∧ _ ∧ resultsOf t (match WaitEnter t id timeout s.registry with
        | (reg, none) => { s with registry := reg }
        | (reg, some r) => { registry := reg, results := s.results ++ [(t, r)] }).results = _)
      ∨ (sleepersOf t (match WaitEnter t id timeout s.registry with
        | (reg, none) => { s with registry := reg }
        | (reg, some r) => { registry := reg, results := s.results ++ [(t, r)] }).registry = _
      ∧ ∃ r0, resultsOf t (match WaitEnter t id timeout s.registry with
        | (reg, none) => { s with registry := reg }
        | (reg, some r) => { registry := reg, results := s.results ++ [(t, r)] }).results = _)
  cases hf : s.registry.find? (fun o => o.addr = id) with
  | none =>
    have hW : WaitEnter t id timeout s.registry = (s.registry, some .InvalidHandle) := by
      unfold WaitEnter
      rw [hf]
    rw [hW]
    right
    refine ⟨hnil, .InvalidHandle, ?_⟩
    show resultsOf t (s.results ++ [(t, .InvalidHandle)]) = _
    rw [resultsOf_append, resultsOf_self]
  | some o =>
    have hmem : o ∈ s.registry := List.mem_of_find?_eq_some hf
    have hid : o.addr = id := by simpa using List.find?_some hf
    subst hid
    obtain ⟨pre, post, hreg, hpre, hpost⟩ := registry_split s.registry o hmem hnodup
    have hfpre : ∀ y ∈ pre, ∀ sl ∈ y.WaitQueue, sl.thread ≠ t :=
      fun y hy => hfree y (by rw [hreg]; exact List.mem_append_left _ hy)
    have hfpost : ∀ y ∈ post, ∀ sl ∈ y.WaitQueue, sl.thread ≠ t :=
      fun y hy => hfree y (by
        rw [hreg]; exact List.mem_append_right _ (List.mem_cons_of_mem _ hy))
    have hfo : o.WaitQueue.filter (fun s => s.thread = t) = [] := by
      rw [List.filter_eq_nil_iff]
      intro sl hsl
      simpa using hfree o hmem sl hsl
    rw [hreg, WaitEnter_split t timeout pre post o hpre hpost]
    by_cases htrig : o.state = .PLX_STATE_TRIGGERED
    · rw [if_pos htrig]
      left
      refine ⟨⟨t, timeout, true⟩, ?_, fun hw => (by cases hw), rfl⟩
      show sleepersOf t (pre ++ _ :: post) = _
      rw [sleepersOf_split t pre post _ hfpre hfpost]
      show (o.WaitQueue ++ [_]).filter _ = _
      rw [List.filter_append, hfo]
      simp
    · rw [if_neg htrig]
      by_cases h0 : timeout = 0
      · rw [if_pos h0]
        right
        refine ⟨by rw [← hreg]; exact hnil, .TimedOut, ?_⟩
        show resultsOf t (s.results ++ [(t, .TimedOut)]) = _
        rw [resultsOf_append, resultsOf_self]
      · rw [if_neg h0]
        left
        refine ⟨⟨t, timeout, false⟩, ?_, fun _ => ⟨Nat.pos_of_ne_zero h0, Nat.le_refl _⟩, rfl⟩
        show sleepersOf t (pre ++ _ :: post) = _
        rw [sleepersOf_split t pre post _ hfpre hfpost]
        show (o.WaitQueue ++ [_]).filter _ = _
        rw [List.filter_append, hfo]
        simp

theorem Wait_returns_once (t id timeout : Nat) (s : CoreState) (es : List CoreEvent)
    (hnodup : (s.registry.map (fun x => x.addr)).Nodup)
    (hfree : ∀ x ∈ s.registry, ∀ sl ∈ x.WaitQueue, sl.thread ≠ t)
    (hes : ∀ e ∈ es, e.isWaitEnterOf t = false)
    (hticks : timeout ≤ countTicks es) :
    ∃ r, resultsOf t (((s.step (.waitEnter t id timeout)).run es).step (.waitLeave t)).results
        = resultsOf t s.results ++ [r] ∧
      sleepersOf t (((s.step (.waitEnter t id timeout)).run es).step (.waitLeave t)).registry
        = [] := by
  have h1 := run_outstanding t (resultsOf t s.results) es timeout _ hes
    (enter_outstanding t id timeout s hnodup hfree)
  have hk : timeout - countTicks es = 0 := by omega
  rw [hk] at h1
  generalize (s.step (.waitEnter t id timeout)).run es = s1 at h1
  rcases h1 with ⟨sl, g1, g2, g3⟩ | ⟨g1, r, g2⟩
  · have hw : sl.woken = true := by
      by_contra hc
      have := g2 (by simpa using hc)
      omega
    obtain ⟨line, doorbell, reg1, hW, hnil⟩ := WaitLeave_outstanding t _ sl g1 hw
    have hstep : s1.step (.waitLeave t) =
        { registry := reg1, results := s1.results ++ [(t, .matched line doorbell)] } := by
      show (match WaitLeave t s1.registry with
        | none => s1
        | some (r, reg) => { registry := reg, results := s1.results ++ [(t, r)] }) = _
      rw [hW]
    rw [hstep]
    refine ⟨.matched line doorbell, ?_, hnil⟩
    show resultsOf t (s1.results ++ [(t, .matched line doorbell)]) = _
    rw [resultsOf_append, resultsOf_self, g3]
  · obtain ⟨f1, f2⟩ := step_no_sleeper t s1 (.waitLeave t) rfl g1
    exact ⟨r, f2.trans g2, f1⟩

/-! ### Time and non-matching triggers while a thread sleeps -/

theorem run_no_sleeper (t : Nat) :
    ∀ (es : List CoreEvent) (s : CoreState), (∀ e ∈ es, e.isWaitEnterOf t = false) →
      sleepersOf t s.registry = [] →
      sleepersOf t (s.run es).registry = [] ∧
      resultsOf t (s.run es).results = resultsOf t s.results := by
  intro es
  induction es with
  | nil => intro s _ h; exact ⟨h, rfl⟩
  | cons e es ih =>
    intro s hes h
    obtain ⟨h1, h2⟩ := step_no_sleeper t s e (hes e (List.mem_cons_self _ _)) h
    obtain ⟨g1, g2⟩ := ih (s.step e) (fun e1 h1 => hes e1 (List.mem_cons_of_mem _ h1)) h1
    exact ⟨g1, g2.trans h2⟩

theorem blocked_of_sleeper (s : CoreState) (t : Nat) (sl : Sleeper)
    (h : sl ∈ sleepersOf t s.registry) (hw : sl.woken = false) : s.blocked t = true := by
  unfold sleepersOf at h
  rw [List.mem_flatMap] at h
  obtain ⟨x, hx, hsl⟩ := h
  have hm := List.mem_filter.mp hsl
  unfold CoreState.blocked
  rw [List.any_eq_true]
  refine ⟨x, hx, ?_⟩
  rw [List.any_eq_true]
  exact ⟨sl, hm.1, by simpa [hw] using hm.2⟩

theorem tickObject_threads (o : PLX_WAIT_OBJECT) (sl : Sleeper)
    (hsl : sl ∈ (tickObject o).WaitQueue) : ∃ sl0 ∈ o.WaitQueue, sl0.thread = sl.thread := by
  unfold tickObject at hsl
  obtain ⟨s0, hs0, rfl⟩ := List.mem_map.mp hsl
  refine ⟨s0, (List.mem_filter.mp hs0).1, ?_⟩
  by_cases hw : s0.woken = true
  · rw [if_pos hw]
  · rw [if_neg hw]

theorem quiet_step (t nf nd r : Nat) (s : CoreState) (e : CoreEvent)
    (he : e = .tick ∨ ∃ fl fd, e = .dispatch fl fd ∧ nf &&& fl = 0 ∧ nd &&& fd = 0)
    (hr : 1 ≤ r) (h : sleepersOf t s.registry = [⟨t, r, false⟩])
    (hm : ∀ x ∈ s.registry, (∃ sl ∈ x.WaitQueue, sl.thread = t) →
      x.Notify_Flags = nf ∧ x.Notify_Doorbell = nd) :
    (∀ x ∈ (s.step e).registry, (∃ sl ∈ x.WaitQueue, sl.thread = t) →
      x.Notify_Flags = nf ∧ x.Notify_Doorbell = nd) ∧
    (countTicks [e] < r →
      sleepersOf t (s.step e).registry = [⟨t, r - countTicks [e], false⟩] ∧
      resultsOf t (s.step e).results = resultsOf t s.results) ∧
    (¬ countTicks [e] < r →
      sleepersOf t (s.step e).registry = [] ∧
      resultsOf t (s.step e).results = resultsOf t s.results ++ [.TimedOut]) := by
  rcases he with rfl | ⟨fl, fd, rfl, hfl, hfd⟩
  · obtain ⟨h1, h2⟩ := Tick_outstanding t s.registry _ h
    refine ⟨?_, ?_, ?_⟩
    · intro x hx hsl
      obtain ⟨y, hy, rfl⟩ := List.mem_map.mp (show x ∈ s.registry.map tickObject from hx)
      obtain ⟨sl, hsl, ht⟩ := hsl
      obtain ⟨sl0, hsl0, ht0⟩ := tickObject_threads y sl hsl
      exact hm y hy ⟨sl0, hsl0, ht0.trans ht⟩
    · intro hlt
      have hlt2 : 1 < r := hlt
      have hx : (Sleeper.mk t r false).expires = false := by
        simp [Sleeper.expires]
        omega
      obtain ⟨g1, g2⟩ := h2 hx
      refine ⟨g1, ?_⟩
      show resultsOf t (s.results ++ (Tick s.registry).2) = _
      rw [resultsOf_append, g2, List.append_nil]
    · intro hlt
      have hlt2 : ¬ 1 < r := hlt
      have hx : (Sleeper.mk t r false).expires = true := by
        simp [Sleeper.expires]
        omega
      obtain ⟨g1, g2⟩ := h1 hx
      refine ⟨g1, ?_⟩
      show resultsOf t (s.results ++ (Tick s.registry).2) = _
      rw [resultsOf_append, g2]
  · have hsame : ∀ y ∈ s.registry, (∃ sl ∈ y.WaitQueue, sl.thread = t) →
        signalObject fl fd y = y := by
      intro y hy hsl
      obtain ⟨m1, m2⟩ := hm y hy hsl
      exact signalObject_of_not_intersects fl fd y ⟨by rw [m1]; exact hfl, by rw [m2]; exact hfd⟩
    refine ⟨?_, ?_, ?_⟩
    · intro x hx hsl
      obtain ⟨y, hy, rfl⟩ := List.mem_map.mp (show x ∈ s.registry.map (signalObject fl fd) from hx)
      obtain ⟨sl, hsl, ht⟩ := hsl
      obtain ⟨sl0, hsl0, ht0, _⟩ := signalObject_threads fl fd y sl hsl
      have := hm y hy ⟨sl0, hsl0, ht0.trans ht⟩
      rw [(signalObject_masks fl fd y).1, (signalObject_masks fl fd y).2]
      exact this
    · intro _
      refine ⟨?_, rfl⟩
      show sleepersOf t (s.registry.map (signalObject fl fd)) = _
      rw [sleepersOf_map_congr t _ s.registry, h]
      · rfl
      · intro y hy
        by_cases hq : ∃ sl ∈ y.WaitQueue, sl.thread = t
        · rw [hsame y hy hq]
        · have hnone : y.WaitQueue.filter (fun s => s.thread = t) = [] := by
            rw [List.filter_eq_nil_iff]
            intro sl hsl hst
            exact hq ⟨sl, hsl, by simpa using hst⟩
          rw [signalObject_sleepers, hnone]
          split <;> rfl
    · intro hlt
      exact absurd hr hlt

theorem quiet_run (t nf nd : Nat) :
    ∀ (es : List CoreEvent) (r : Nat) (s : CoreState),
      (∀ e ∈ es, e = .tick ∨ ∃ fl fd, e = .dispatch fl fd ∧ nf &&& fl = 0 ∧ nd &&& fd = 0) →
      1 ≤ r → sleepersOf t s.registry = [⟨t, r, false⟩] →
      (∀ x ∈ s.registry, (∃ sl ∈ x.WaitQueue, sl.thread = t) →
        x.Notify_Flags = nf ∧ x.Notify_Doorbell = nd) →
      resultsOf t (s.run es).results =
        resultsOf t s.results ++ (if countTicks es < r then [] else [.TimedOut]) ∧
      (countTicks es < r → (s.run es).blocked t = true) := by
  intro es
  induction es with
  | nil =>
    intro r s _ hr h _
    refine ⟨?_, fun _ => blocked_of_sleeper s t _ (by rw [h]; exact List.mem_singleton_self _) rfl⟩
    show _ = _ ++ (if 0 < r then [] else [.TimedOut])
    have hr0 : 0 < r := hr
    rw [if_pos hr0, List.append_nil]
    rfl
  | cons e es ih =>
    intro r s hes hr h hm
    have he := hes e (List.mem_cons_self _ _)
    have hes2 := fun e1 h1 => hes e1 (List.mem_cons_of_mem _ h1)
    obtain ⟨q1, q2, q3⟩ := quiet_step t nf nd r s e he hr h hm
    show resultsOf t ((s.step e).run es).results = _ ∧ (_ → ((s.step e).run es).blocked t = true)
    rw [countTicks_cons]
    by_cases hlt : countTicks [e] < r
    · obtain ⟨g1, g2⟩ := q2 hlt
      obtain ⟨i1, i2⟩ := ih (r - countTicks [e]) (s.step e) hes2 (by omega) g1 q1
      rw [i1, g2]
      refine ⟨?_, fun hh => i2 (by omega)⟩
      by_cases hc : countTicks es < r - countTicks [e]
      · rw [if_pos hc, if_pos (by omega)]
      · rw [if_neg hc, if_neg (by omega)]
    · obtain ⟨g1, g2⟩ := q3 hlt
      have hquiet : ∀ e1 ∈ es, e1.isWaitEnterOf t = false := by
        intro e1 h1
        rcases hes2 e1 h1 with rfl | ⟨fl, fd, rfl, _⟩ <;> rfl
      obtain ⟨i1, i2⟩ := run_no_sleeper t es (s.step e) hquiet g1
      rw [i2, g2, if_neg (by omega)]
      exact ⟨rfl, fun hh => absurd hh (by omega)⟩

theorem enter_then_quiet (reg : List PLX_WAIT_OBJECT) (o : PLX_WAIT_OBJECT) (t T : Nat)
    (R : List (Nat × WaitResult)) (post : List CoreEvent) (hmem : o ∈ reg)
    (hnodup : (reg.map (fun x => x.addr)).Nodup)
    (hstate : o.state ≠ .PLX_STATE_TRIGGERED)
    (hfree : ∀ x ∈ reg, ∀ sl ∈ x.WaitQueue, sl.thread ≠ t)
    (hpost : ∀ e ∈ post, e = .tick ∨ ∃ fl fd, e = .dispatch fl fd ∧
      o.Notify_Flags &&& fl = 0 ∧ o.Notify_Doorbell &&& fd = 0) :
    resultsOf t ((CoreState.mk reg R).run (.waitEnter t o.addr T :: post)).results =
      resultsOf t R ++ (if countTicks post < T then [] else [.TimedOut]) ∧
    (countTicks post < T →
      ((CoreState.mk reg R).run (.waitEnter t o.addr T :: post)).blocked t = true) := by
  obtain ⟨pre, pst, hreg, hpre, hpst⟩ := registry_split reg o hmem hnodup
  have hfpre : ∀ y ∈ pre, ∀ sl ∈ y.WaitQueue, sl.thread ≠ t :=
    fun y hy => hfree y (by rw [hreg]; exact List.mem_append_left _ hy)
  have hfpst : ∀ y ∈ pst, ∀ sl ∈ y.WaitQueue, sl.thread ≠ t :=
    fun y hy => hfree y (by
      rw [hreg]; exact List.mem_append_right _ (List.mem_cons_of_mem _ hy))
  have hfo : o.WaitQueue.filter (fun s => s.thread = t) = [] := by
    rw [List.filter_eq_nil_iff]
    intro sl hsl
    simpa using hfree o hmem sl hsl
  have hquiet : ∀ e1 ∈ post, e1.isWaitEnterOf t = false := by
    intro e1 h1
    rcases hpost e1 h1 with rfl | ⟨fl, fd, rfl, _⟩ <;> rfl
  have hW := WaitEnter_split t T pre pst o hpre hpst
  rw [if_neg hstate] at hW
  show resultsOf t (((CoreState.mk reg R).step (.waitEnter t o.addr T)).run post).results = _ ∧
    (_ → (((CoreState.mk reg R).step (.waitEnter t o.addr T)).run post).blocked t = true)
  by_cases h0 : T = 0
  · rw [if_pos h0] at hW
    have hstep : (CoreState.mk reg R).step (.waitEnter t o.addr T) =
        ⟨reg, R ++ [(t, .TimedOut)]⟩ := by
      show (match WaitEnter t o.addr T reg with
        | (reg1, none) => { CoreState.mk reg R with registry := reg1 }
        | (reg1, some r) => { registry := reg1, results := R ++ [(t, r)] }) = _
      rw [hreg, hW]
    rw [hstep]
    obtain ⟨i1, i2⟩ := run_no_sleeper t post ⟨reg, R ++ [(t, .TimedOut)]⟩ hquiet
      (sleepersOf_eq_nil t reg hfree)
    rw [i2, if_neg (by omega)]
    refine ⟨?_, fun hh => absurd hh (by omega)⟩
    show resultsOf t (R ++ [(t, .TimedOut)]) = _
    rw [resultsOf_append, resultsOf_self]
  · rw [if_neg h0] at hW
    have hstep : (CoreState.mk reg R).step (.waitEnter t o.addr T) =
        ⟨pre ++ { o with SleepCount := o.SleepCount + 1,
                         WaitQueue := o.WaitQueue ++ [⟨t, T, false⟩] } :: pst, R⟩ := by
      show (match WaitEnter t o.addr T reg with
        | (reg1, none) => { CoreState.mk reg R with registry := reg1 }
        | (reg1, some r) => { registry := reg1, results := R ++ [(t, r)] }) = _
      rw [hreg, hW]
    rw [hstep]
    apply quiet_run t o.Notify_Flags o.Notify_Doorbell post T _ hpost (Nat.pos_of_ne_zero h0)
    · show sleepersOf t (pre ++ _ :: pst) = _
      rw [sleepersOf_split t pre pst _ hfpre hfpst]
      show (o.WaitQueue ++ [_]).filter _ = _
      rw [List.filter_append, hfo]
      simp
    · intro x hx hsl
      rcases List.mem_append.mp hx with hx | hx
      · obtain ⟨sl, h1, h2⟩ := hsl
        exact absurd h2 (hfpre x hx sl h1)
      · rcases List.mem_cons.mp hx with rfl | hx
        · exact ⟨rfl, rfl⟩
        · obtain ⟨sl, h1, h2⟩ := hsl
          exact absurd h2 (hfpst x hx sl h1)

/-! ### A `Wait` that sleeps and is woken -/

theorem WaitLeave_split (t : Nat) (pre post : List PLX_WAIT_OBJECT) (x : PLX_WAIT_OBJECT)
    (hpre : ∀ y ∈ pre, y.addr ≠ x.addr) (hpost : ∀ y ∈ post, y.addr ≠ x.addr)
    (hwpre : ∀ y ∈ pre, y.hasWoken t = false) (hx : x.hasWoken t = true) :
    WaitLeave t (pre ++ x :: post) =
      some (.matched x.Source_Ints x.Source_Doorbell,
        pre ++ { x with Source_Ints := 0, Source_Doorbell := 0, state := .PLX_STATE_WAITING,
                        SleepCount := x.SleepCount - 1,
                        WaitQueue := x.WaitQueue.filter (fun s => s.thread ≠ t) } :: post) := by
  unfold WaitLeave
  rw [find?_hasWoken_split t pre post x hwpre hx]
  simp only [updateObject_split _ pre post x hpre hpost]

theorem foldl_signalObject_frame (ds : List (Nat × Nat)) :
    ∀ o : PLX_WAIT_OBJECT,
      (ds.foldl (fun x d => signalObject d.1 d.2 x) o).SleepCount = o.SleepCount ∧
      (ds.foldl (fun x d => signalObject d.1 d.2 x) o).pOwner = o.pOwner ∧
      (ds.foldl (fun x d => signalObject d.1 d.2 x) o).Notify_Flags = o.Notify_Flags ∧
      (ds.foldl (fun x d => signalObject d.1 d.2 x) o).Notify_Doorbell = o.Notify_Doorbell ∧
      ((ds.foldl (fun x d => signalObject d.1 d.2 x) o).WaitQueue = o.WaitQueue ∨
        (ds.foldl (fun x d => signalObject d.1 d.2 x) o).WaitQueue
          = o.WaitQueue.map (fun s => { s with woken := true })) ∧
      ((∃ d ∈ ds, o.intersects d.1 d.2 = true) →
        (ds.foldl (fun x d => signalObject d.1 d.2 x) o).WaitQueue
          = o.WaitQueue.map (fun s => { s with woken := true })) := by
  induction ds with
  | nil =>
    intro o
    refine ⟨rfl, rfl, rfl, rfl, Or.inl rfl, ?_⟩
    intro ⟨d, hd, _⟩
    cases hd
  | cons d ds ih =>
    intro o
    obtain ⟨i1, i2, i3, i4, i5, i6⟩ := ih (signalObject d.1 d.2 o)
    rw [List.foldl_cons]
    have hmap : ∀ q : List Sleeper,
        (q.map (fun s => { s with woken := true })).map (fun s => { s with woken := true })
          = q.map (fun s : Sleeper => { s with woken := true }) := by
      intro q
      rw [List.map_map]
      rfl
    by_cases hi : o.intersects d.1 d.2 = true
    · have hs : signalObject d.1 d.2 o =
          { o with
            Source_Ints := o.Source_Ints ||| (o.Notify_Flags &&& d.1)
            Source_Doorbell := o.Source_Doorbell ||| (o.Notify_Doorbell &&& d.2)
            state := .PLX_STATE_TRIGGERED
            WaitQueue := o.WaitQueue.map (fun s => { s with woken := true }) } := by
        unfold signalObject
        rw [if_pos hi]
      rw [hs] at i1 i2 i3 i4 i5 i6 ⊢
      have hq : (ds.foldl (fun x d => signalObject d.1 d.2 x)
          { o with
            Source_Ints := o.Source_Ints ||| (o.Notify_Flags &&& d.1)
            Source_Doorbell := o.Source_Doorbell ||| (o.Notify_Doorbell &&& d.2)
            state := .PLX_STATE_TRIGGERED
            WaitQueue := o.WaitQueue.map (fun s => { s with woken := true }) }).WaitQueue
          = o.WaitQueue.map (fun s => { s with woken := true }) := by
        rcases i5 with h | h
        · exact h
        · rw [h]
          exact hmap _
      exact ⟨i1, i2, i3, i4, Or.inr hq, fun _ => hq⟩
    · have hs : signalObject d.1 d.2 o = o := by
        unfold signalObject
        rw [if_neg hi]
      rw [hs] at i1 i2 i3 i4 i5 i6 ⊢
      refine ⟨i1, i2, i3, i4, i5, ?_⟩
      intro ⟨d1, hd1, hint⟩
      rcases List.mem_cons.mp hd1 with rfl | hd1
      · exact absurd hint hi
      · exact i6 ⟨d1, hd1, hint⟩

theorem foldl_Dispatch_not_sleeping (t : Nat) (ds : List (Nat × Nat)) :
    ∀ reg : List PLX_WAIT_OBJECT, (∀ x ∈ reg, ∀ sl ∈ x.WaitQueue, sl.thread ≠ t) →
      ∀ x ∈ ds.foldl (fun r d => Dispatch d.1 d.2 r) reg, ∀ sl ∈ x.WaitQueue, sl.thread ≠ t := by
  induction ds with
  | nil => intro reg h; exact h
  | cons d ds ih =>
    intro reg h
    rw [List.foldl_cons]
    exact ih _ (Dispatch_not_sleeping d.1 d.2 t reg h)

theorem WaitLeave_read_clear (thread : Nat) (reg1 : List PLX_WAIT_OBJECT) (x : PLX_WAIT_OBJECT)
    (hmem : x ∈ reg1) (hnodup : (reg1.map (fun y => y.addr)).Nodup)
    (hx : x.hasWoken thread = true)
    (hothers : ∀ y ∈ reg1, y.addr ≠ x.addr → y.hasWoken thread = false) :
    ∃ reg2 x2,
      WaitLeave thread reg1 = some (.matched x.Source_Ints x.Source_Doorbell, reg2) ∧
      reg2.find? (fun y => y.addr = x.addr) = some x2 ∧
      x2.Source_Ints = 0 ∧ x2.Source_Doorbell = 0 ∧
      x2.SleepCount = x.SleepCount - 1 ∧
      x2.WaitQueue = x.WaitQueue.filter (fun s => s.thread ≠ thread) ∧
      (∀ y ∈ reg1, y.addr ≠ x.addr → y ∈ reg2) ∧ reg2.length = reg1.length := by
  obtain ⟨pre, post, rfl, hpre, hpost⟩ := registry_split reg1 x hmem hnodup
  have hwpre : ∀ y ∈ pre, y.hasWoken thread = false :=
    fun y hy => hothers y (List.mem_append_left _ hy) (hpre y hy)
  refine ⟨_, _, WaitLeave_split thread pre post x hpre hpost hwpre hx,
    find?_addr_split pre post
      { x with Source_Ints := 0, Source_Doorbell := 0, state := .PLX_STATE_WAITING,
               SleepCount := x.SleepCount - 1,
               WaitQueue := x.WaitQueue.filter (fun s => s.thread ≠ thread) } hpre,
    rfl, rfl, rfl, rfl, ?_, ?_⟩
  · intro y hy hya
    rcases List.mem_append.mp hy with h | h
    · exact List.mem_append_left _ h
    · rcases List.mem_cons.mp h with h | h
      · exact absurd (h ▸ rfl) hya
      · exact List.mem_append_right _ (List.mem_cons_of_mem _ h)
  · simp

theorem Wait_read_clear_woken (reg : List PLX_WAIT_OBJECT) (o : PLX_WAIT_OBJECT)
    (thread timeout : Nat) (ds : List (Nat × Nat)) (hmem : o ∈ reg)
    (hnodup : (reg.map (fun x => x.addr)).Nodup)
    (hfree : ∀ x ∈ reg, ∀ sl ∈ x.WaitQueue, sl.thread ≠ thread)
    (hstate : o.state ≠ .PLX_STATE_TRIGGERED) (hT : 0 < timeout)
    (hds : ∃ d ∈ ds, o.intersects d.1 d.2 = true) :
    ∃ reg1 o2 reg3 o3,
      WaitEnter thread o.addr timeout reg = (reg1, none) ∧
      (CoreState.mk reg1 []).blocked thread = true ∧
      (ds.foldl (fun r d => Dispatch d.1 d.2 r) reg1).find? (fun x => x.addr = o.addr)
        = some o2 ∧
      o2.Source_Ints = o.Source_Ints |||
        orLine (ds.map (fun d => (o.Notify_Flags &&& d.1, o.Notify_Doorbell &&& d.2))) ∧
      o2.Source_Doorbell = o.Source_Doorbell |||
        orDoorbell (ds.map (fun d => (o.Notify_Flags &&& d.1, o.Notify_Doorbell &&& d.2))) ∧
      o2.SleepCount = o.SleepCount + 1 ∧
      WaitLeave thread (ds.foldl (fun r d => Dispatch d.1 d.2 r) reg1)
        = some (.matched o2.Source_Ints o2.Source_Doorbell, reg3) ∧
      reg3.find? (fun x => x.addr = o.addr) = some o3 ∧
      o3.Source_Ints = 0 ∧ o3.Source_Doorbell = 0 ∧
      o3.SleepCount = o.SleepCount ∧
      o3.WaitQueue = o.WaitQueue.map (fun s => { s with woken := true }) ∧
      (∀ x ∈ ds.foldl (fun r d => Dispatch d.1 d.2 r) reg1, x.addr ≠ o.addr → x ∈ reg3) ∧
      reg3.length = reg.length := by
  obtain ⟨pre, post, rfl, hpre, hpost⟩ := registry_split reg o hmem hnodup
  have hfpre : ∀ y ∈ pre, ∀ sl ∈ y.WaitQueue, sl.thread ≠ thread :=
    fun y hy => hfree y (List.mem_append_left _ hy)
  have hfpost : ∀ y ∈ post, ∀ sl ∈ y.WaitQueue, sl.thread ≠ thread :=
    fun y hy => hfree y (List.mem_append_right _ (List.mem_cons_of_mem _ hy))
  have hfo : ∀ sl ∈ o.WaitQueue, sl.thread ≠ thread := hfree o hmem
  have hW := WaitEnter_split thread timeout pre post o hpre hpost
  rw [if_neg hstate, if_neg (Nat.pos_iff_ne_zero.mp hT)] at hW
  -- the object after the enter, and after the dispatches
  obtain ⟨oe, hoe⟩ : ∃ oe : PLX_WAIT_OBJECT, oe =
      { o with
        SleepCount := o.SleepCount + 1
        WaitQueue := o.WaitQueue ++ [⟨thread, timeout, false⟩] } := ⟨_, rfl⟩
  rw [← hoe] at hW
  have hoe1 : oe.addr = o.addr ∧ oe.Source_Ints = o.Source_Ints ∧
      oe.Source_Doorbell = o.Source_Doorbell ∧ oe.Notify_Flags = o.Notify_Flags ∧
      oe.Notify_Doorbell = o.Notify_Doorbell ∧ oe.SleepCount = o.SleepCount + 1 ∧
      oe.WaitQueue = o.WaitQueue ++ [⟨thread, timeout, false⟩] := by
    rw [hoe]
    exact ⟨rfl, rfl, rfl, rfl, rfl, rfl, rfl⟩
  obtain ⟨e1, e2, e3, e4, e5, e6, e7⟩ := hoe1
  have hint : ∃ d ∈ ds, oe.intersects d.1 d.2 = true := by
    obtain ⟨d, hd, hi⟩ := hds
    refine ⟨d, hd, ?_⟩
    unfold PLX_WAIT_OBJECT.intersects at hi ⊢
    rw [e4, e5]
    exact hi
  obtain ⟨a1, a2, a3⟩ := foldl_signalObject ds oe
  obtain ⟨b1, _, _, _, _, b6⟩ := foldl_signalObject_frame ds oe
  have hq := b6 hint
  obtain ⟨F, hof⟩ : ∃ F, ds.foldl (fun x d => signalObject d.1 d.2 x) oe = F := ⟨_, rfl⟩
  rw [hof] at a1 a2 a3 b1 hq
  have hfold : ds.foldl (fun r d => Dispatch d.1 d.2 r) (pre ++ oe :: post) =
      ds.foldl (fun r d => Dispatch d.1 d.2 r) pre ++ F ::
        ds.foldl (fun r d => Dispatch d.1 d.2 r) post := by
    rw [foldl_Dispatch, foldl_Dispatch ds pre, foldl_Dispatch ds post, List.map_append,
      List.map_cons, hof]
  have haddr : ∀ l : List PLX_WAIT_OBJECT, (∀ y ∈ l, y.addr ≠ o.addr) →
      ∀ y ∈ ds.foldl (fun r d => Dispatch d.1 d.2 r) l, y.addr ≠ F.addr := by
    intro l hl y hy
    rw [foldl_Dispatch] at hy
    obtain ⟨z, hz, rfl⟩ := List.mem_map.mp hy
    rw [(foldl_signalObject ds z).1, a1, e1]
    exact hl z hz
  have hFa : F.addr = o.addr := a1.trans e1
  have hFw : F.hasWoken thread = true := by
    unfold PLX_WAIT_OBJECT.hasWoken
    rw [hq, e7, List.any_eq_true]
    exact ⟨⟨thread, timeout, true⟩, by simp, by simp⟩
  have hwpre : ∀ y ∈ ds.foldl (fun r d => Dispatch d.1 d.2 r) pre, y.hasWoken thread = false :=
    fun y hy => hasWoken_of_not_sleeping thread y
      (foldl_Dispatch_not_sleeping thread ds pre hfpre y hy)
  have hL := WaitLeave_split thread _ _ F (haddr pre hpre) (haddr post hpost) hwpre hFw
  refine ⟨pre ++ oe :: post, F,
    ds.foldl (fun r d => Dispatch d.1 d.2 r) pre ++
      { F with Source_Ints := 0, Source_Doorbell := 0, state := .PLX_STATE_WAITING,
               SleepCount := F.SleepCount - 1,
               WaitQueue := F.WaitQueue.filter (fun s => s.thread ≠ thread) } ::
      ds.foldl (fun r d => Dispatch d.1 d.2 r) post,
    { F with Source_Ints := 0, Source_Doorbell := 0, state := .PLX_STATE_WAITING,
             SleepCount := F.SleepCount - 1,
             WaitQueue := F.WaitQueue.filter (fun s => s.thread ≠ thread) },
    hW, ?_, ?_, ?_, ?_, ?_, ?_, ?_, rfl, rfl, ?_, ?_, ?_, ?_⟩
  · apply blocked_of_sleeper _ thread ⟨thread, timeout, false⟩ _ rfl
    show _ ∈ sleepersOf thread (pre ++ oe :: post)
    rw [sleepersOf_split thread pre post oe hfpre hfpost, e7, List.filter_append]
    simp
  · rw [hfold, ← hFa]
    exact find?_addr_split _ _ F (haddr pre hpre)
  · rw [a2, e2, e4, e5]
  · rw [a3, e3, e4, e5]
  · rw [b1, e6]
  · rw [hfold]
    exact hL
  · rw [← hFa]
    exact find?_addr_split _ _
      { F with Source_Ints := 0, Source_Doorbell := 0, state := .PLX_STATE_WAITING,
               SleepCount := F.SleepCount - 1,
               WaitQueue := F.WaitQueue.filter (fun s => s.thread ≠ thread) } (haddr pre hpre)
  · show F.SleepCount - 1 = o.SleepCount
    rw [b1, e6]
    rfl
  · show F.WaitQueue.filter (fun s => s.thread ≠ thread) = _
    rw [hq, e7, List.map_append, List.filter_append]
    have h1 : (o.WaitQueue.map (fun s : Sleeper => { s with woken := true })).filter
        (fun s => s.thread ≠ thread) = o.WaitQueue.map (fun s => { s with woken := true }) := by
      apply filter_thread_ne_of_not_sleeping
      intro sl hsl
      obtain ⟨s0, hs0, rfl⟩ := List.mem_map.mp hsl
      exact hfo s0 hs0
    rw [h1]
    simp
  · intro y hy hya
    rw [hfold] at hy
    rcases List.mem_append.mp hy with h | h
    · exact List.mem_append_left _ h
    · rcases List.mem_cons.mp h with h | h
      · exact absurd (h ▸ hFa) hya
      · exact List.mem_append_right _ (List.mem_cons_of_mem _ h)
  · rw [foldl_Dispatch ds pre, foldl_Dispatch ds post]
    simp

/-- A `Wait` on an object that is Triggered at entry does not sleep: it reads the observed
bits and clears them, and leaves sleeper count and wait queue as they were. -/
theorem Wait_read_clear_triggered (reg : List PLX_WAIT_OBJECT) (o : PLX_WAIT_OBJECT)
    (thread timeout : Nat) (hmem : o ∈ reg) (hnodup : (reg.map (fun x => x.addr)).Nodup)
    (htrig : o.state = .PLX_STATE_TRIGGERED)
    (hfree : ∀ x ∈ reg, ∀ sl ∈ x.WaitQueue, sl.thread ≠ thread) :
    ∃ reg1 reg2 o2,
      WaitEnter thread o.addr timeout reg = (reg1, none) ∧
      WaitLeave thread reg1 = some (.matched o.Source_Ints o.Source_Doorbell, reg2) ∧
      reg2.find? (fun x => x.addr = o.addr) = some o2 ∧
      o2.Source_Ints = 0 ∧ o2.Source_Doorbell = 0 ∧
      o2.SleepCount = o.SleepCount ∧ o2.WaitQueue = o.WaitQueue ∧
      (∀ x ∈ reg, x.addr ≠ o.addr → x ∈ reg2) ∧ reg2.length = reg.length := by
  obtain ⟨h1, h2⟩ := Wait_on_triggered reg o thread timeout hmem hnodup htrig hfree
  obtain ⟨pre, post, hreg, hpre, hpost⟩ := registry_split reg o hmem hnodup
  refine ⟨(WaitEnter thread o.addr timeout reg).1, _,
    { o with Source_Ints := 0, Source_Doorbell := 0, state := .PLX_STATE_WAITING },
    Prod.ext rfl h1, h2, ?_, rfl, rfl, rfl, rfl, ?_, ?_⟩
  · rw [hreg, updateObject_split _ pre post o hpre hpost]
    exact find?_addr_split pre post
      { o with Source_Ints := 0, Source_Doorbell := 0, state := .PLX_STATE_WAITING } hpre
  · intro x hx hxa
    rw [hreg, updateObject_split _ pre post o hpre hpost]
    rw [hreg] at hx
    rcases List.mem_append.mp hx with h | h
    · exact List.mem_append_left _ h
    · rcases List.mem_cons.mp h with h | h
      · exact absurd (h ▸ rfl) hxa
      · exact List.mem_append_right _ (List.mem_cons_of_mem _ h)
  · simp [updateObject]

/-- A trigger fired before `Wait`: after a `Dispatch` that intersects neither mask the `Wait`
times out when its ticks have passed, and after one that intersects a mask the `Wait`
returns the matching bits without sleeping. -/
theorem trigger_before_Wait (reg : List PLX_WAIT_OBJECT) (o : PLX_WAIT_OBJECT)
    (t T fl fd k : Nat) (hmem : o ∈ reg) (hnodup : (reg.map (fun x => x.addr)).Nodup)
    (hfresh : o.Source_Ints = 0 ∧ o.Source_Doorbell = 0 ∧ o.state = .PLX_STATE_WAITING)
    (hfree : ∀ x ∈ reg, ∀ sl ∈ x.WaitQueue, sl.thread ≠ t) :
    (o.Notify_Flags &&& fl = 0 ∧ o.Notify_Doorbell &&& fd = 0 →
      resultsOf t ((CoreState.mk reg []).run
          (.dispatch fl fd :: .waitEnter t o.addr T :: List.replicate k .tick)).results
        = if k < T then [] else [.TimedOut]) ∧
    ((o.Notify_Flags &&& fl ≠ 0 ∨ o.Notify_Doorbell &&& fd ≠ 0) →
      ((CoreState.mk reg []).run [.dispatch fl fd, .waitEnter t o.addr T]).blocked t = false ∧
      ((CoreState.mk reg []).run [.dispatch fl fd, .waitEnter t o.addr T]).results = [] ∧
      ((CoreState.mk reg []).run [.dispatch fl fd, .waitEnter t o.addr T, .waitLeave t]).results
        = [(t, .matched (o.Notify_Flags &&& fl) (o.Notify_Doorbell &&& fd))]) := by
  have hfreeD := Dispatch_not_sleeping fl fd t reg hfree
  have hnodupD : ((Dispatch fl fd reg).map (fun x => x.addr)).Nodup := by
    rw [Dispatch_addrs]; exact hnodup
  have hmemD : signalObject fl fd o ∈ Dispatch fl fd reg :=
    List.mem_map_of_mem _ hmem
  constructor
  · intro hno
    have hso : signalObject fl fd o = o := signalObject_of_not_intersects fl fd o hno
    rw [hso] at hmemD
    obtain ⟨pre, post, hsplit, hpre, hpost⟩ := registry_split _ o hmemD hnodupD
    show resultsOf t ((((CoreState.mk reg []).step (.dispatch fl fd)).step
      (.waitEnter t o.addr T)).run (List.replicate k .tick)).results = _
    have hne : o.state ≠ .PLX_STATE_TRIGGERED := by rw [hfresh.2.2]; decide
    by_cases hT : T = 0
    · have hE : WaitEnter t o.addr T (Dispatch fl fd reg) = (Dispatch fl fd reg, some .TimedOut) := by
        unfold WaitEnter
        rw [hsplit, find?_addr_split pre post o hpre]
        simp only [if_neg hne, if_pos hT]
      have hst : ((CoreState.mk reg []).step (.dispatch fl fd)).step (.waitEnter t o.addr T)
          = ⟨Dispatch fl fd reg, [(t, .TimedOut)]⟩ := by
        show (match WaitEnter t o.addr T (Dispatch fl fd reg) with
          | (reg, none) => ({ registry := reg, results := [] } : CoreState)
          | (reg, some r) => { registry := reg, results := [] ++ [(t, r)] }) = _
        rw [hE]
        rfl
      rw [hst, ticks_without_sleeper t k _ (sleepersOf_eq_nil t _ hfreeD), if_neg (by omega)]
      simp [resultsOf]
    · have hE : WaitEnter t o.addr T (Dispatch fl fd reg) =
          (pre ++ { o with SleepCount := o.SleepCount + 1,
                           WaitQueue := o.WaitQueue ++ [⟨t, T, false⟩] } :: post, none) := by
        unfold WaitEnter
        rw [hsplit, find?_addr_split pre post o hpre]
        simp only [if_neg hne, if_neg hT]
        rw [updateObject_split _ pre post o hpre hpost]
      have hst : ((CoreState.mk reg []).step (.dispatch fl fd)).step (.waitEnter t o.addr T)
          = ⟨pre ++ { o with SleepCount := o.SleepCount + 1,
                             WaitQueue := o.WaitQueue ++ [⟨t, T, false⟩] } :: post, []⟩ := by
        show (match WaitEnter t o.addr T (Dispatch fl fd reg) with
          | (reg, none) => ({ registry := reg, results := [] } : CoreState)
          | (reg, some r) => { registry := reg, results := [] ++ [(t, r)] }) = _
        rw [hE]
      have hfree2 : ∀ x ∈ pre ++ o :: post, ∀ sl ∈ x.WaitQueue, sl.thread ≠ t := by
        rw [← hsplit]; exact hfreeD
      have hS : sleepersOf t
          (pre ++ { o with SleepCount := o.SleepCount + 1,
                           WaitQueue := o.WaitQueue ++ [⟨t, T, false⟩] } :: post)
          = [⟨t, T, false⟩] := by
        rw [sleepersOf_append, sleepersOf_cons,
          sleepersOf_eq_nil t pre (fun x hx => hfree2 x (List.mem_append_left _ hx)),
          sleepersOf_eq_nil t post (fun x hx =>
            hfree2 x (List.mem_append_right _ (List.mem_cons_of_mem _ hx)))]
        have hq : o.WaitQueue.filter (fun s => s.thread = t) = [] := by
          rw [List.filter_eq_nil_iff]
          intro sl hsl
          simpa using hfree2 o (List.mem_append_right _ (List.mem_cons_self _ _)) sl hsl
        simp [List.filter_append, hq]
      rw [hst, ticks_time_out t k T _ (by omega) hS]
      rfl
  · intro hyes
    have hi : o.intersects fl fd = true := by
      simpa [PLX_WAIT_OBJECT.intersects] using hyes
    have htrig : (signalObject fl fd o).state = .PLX_STATE_TRIGGERED := by
      unfold signalObject
      rw [if_pos hi]
    obtain ⟨h1, h2⟩ := Wait_on_triggered (Dispatch fl fd reg) (signalObject fl fd o) t T hmemD
      hnodupD htrig hfreeD
    rw [signalObject_addr] at h1 h2
    have hst : (CoreState.mk reg []).run [.dispatch fl fd, .waitEnter t o.addr T]
        = ⟨(WaitEnter t o.addr T (Dispatch fl fd reg)).1, []⟩ := by
      show (match WaitEnter t o.addr T (Dispatch fl fd reg) with
        | (reg, none) => ({ registry := reg, results := [] } : CoreState)
        | (reg, some r) => { registry := reg, results := [] ++ [(t, r)] }) = _
      cases hw : WaitEnter t o.addr T (Dispatch fl fd reg) with
      | mk r1 r2 =>
        rw [hw] at h1
        simp only at h1
        subst h1
        rfl
    refine ⟨?_, ?_, ?_⟩
    · rw [hst]
      obtain ⟨pre, post, hsplit, hpre, hpost⟩ := registry_split _ _ hmemD hnodupD
      have hE : (WaitEnter t o.addr T (Dispatch fl fd reg)).1 =
          pre ++ { signalObject fl fd o with
                   SleepCount := (signalObject fl fd o).SleepCount + 1,
                   WaitQueue := (signalObject fl fd o).WaitQueue ++ [⟨t, T, true⟩] } :: post := by
        unfold WaitEnter
        rw [hsplit, ← signalObject_addr fl fd o, find?_addr_split pre post _ hpre]
        simp only [if_pos htrig]
        rw [updateObject_split _ pre post _ hpre hpost]
      rw [hE]
      apply blocked_eq_false
      intro x hx sl hsl ht
      have hfree2 : ∀ x ∈ pre ++ signalObject fl fd o :: post, ∀ sl ∈ x.WaitQueue,
          sl.thread ≠ t := by
        rw [← hsplit]; exact hfreeD
      rcases List.mem_append.mp hx with h | h
      · exact absurd ht (hfree2 x (List.mem_append_left _ h) sl hsl)
      · rcases List.mem_cons.mp h with h | h
        · subst h
          rcases List.mem_append.mp hsl with h3 | h3
          · exact absurd ht
              (hfree2 _ (List.mem_append_right _ (List.mem_cons_self _ _)) sl h3)
          · rw [List.mem_singleton] at h3
            subst h3
            rfl
        · exact absurd ht
            (hfree2 x (List.mem_append_right _ (List.mem_cons_of_mem _ h)) sl hsl)
    · rw [hst]
    · show (((CoreState.mk reg []).run [.dispatch fl fd, .waitEnter t o.addr T]).step
        (.waitLeave t)).results = _
      rw [hst]
      show (match WaitLeave t (WaitEnter t o.addr T (Dispatch fl fd reg)).1 with
        | none => (⟨(WaitEnter t o.addr T (Dispatch fl fd reg)).1, []⟩ : CoreState)
        | some (r, reg) => { registry := reg, results := [] ++ [(t, r)] }).results = _
      rw [h2, (signalObject_sources fl fd o).1, (signalObject_sources fl fd o).2,
        hfresh.1, hfresh.2.1, Nat.zero_or, Nat.zero_or]
      rfl

/-- A sleeper with at most `r` ticks left is not blocked after `r` ticks, and `Cancel` retires
the objects it names and wakes their sleepers with Cancelled. -/
theorem Cancel_wakes_sleepers (s : CoreState) (t r : Nat) (es : List CoreEvent)
    (target : Option Nat) (client : Nat)
    (hq : ∀ x ∈ s.registry, ∀ sl ∈ x.WaitQueue, sl.thread = t → sl.woken = false →
      1 ≤ sl.remaining ∧ sl.remaining ≤ r)
    (hes : ∀ e ∈ es, e.isWaitEnterOf t = false)
    (hticks : r ≤ countTicks es) :
    (s.run es).blocked t = false ∧
    (∀ reg : List PLX_WAIT_OBJECT, (∃ x ∈ reg, x.hasWoken t = true) →
      ∃ line doorbell reg1, WaitLeave t reg = some (.matched line doorbell, reg1)) ∧
    (∀ (reg : List PLX_WAIT_OBJECT) (id timeout : Nat), (∀ x ∈ reg, x.addr ≠ id) →
      WaitEnter t id timeout reg = (reg, some .InvalidHandle)) ∧
    (∀ x ∈ (Cancel target client s.registry).registry,
      cancelTarget target client x = false ∧ x ∈ s.registry) ∧
    (∀ x ∈ (Cancel target client s.registry).retired,
      x.state = .PLX_STATE_CANCELLED ∧ x.WaitQueue = [] ∧ x.SleepCount = 0) ∧
    (∀ x ∈ s.registry, cancelTarget target client x = true →
      x ∉ (Cancel target client s.registry).registry ∧
      ∀ sl ∈ x.WaitQueue, (sl.thread, WaitResult.Cancelled) ∈
        (Cancel target client s.registry).woken) ∧
    (∀ p ∈ (Cancel target client s.registry).woken, p.2 = .Cancelled) ∧
    ((∀ x ∈ s.registry, (∃ sl ∈ x.WaitQueue, sl.thread = t) →
        cancelTarget target client x = true) →
      (s.step (.cancel target client)).blocked t = false ∧
      ∀ x ∈ (s.step (.cancel target client)).registry, ∀ sl ∈ x.WaitQueue, sl.thread ≠ t) := by
  refine ⟨?_, fun reg h => WaitLeave_of_woken t reg h,
    fun reg id timeout h => WaitEnter_unknown t id timeout reg h, ?_, ?_, ?_, ?_, ?_⟩
  · apply blocked_eq_false
    intro x hx sl hsl ht
    by_contra hw
    have hw2 : sl.woken = false := by simpa using hw
    have := run_keeps_bound t es r s hes hq x hx sl hsl ht hw2
    omega
  · intro x hx
    have := List.mem_filter.mp hx
    exact ⟨by simpa using this.2, this.1⟩
  · intro x hx
    obtain ⟨y, _, rfl⟩ := List.mem_map.mp hx
    exact ⟨rfl, rfl, rfl⟩
  · intro x hx hc
    constructor
    · intro hmem
      have := (List.mem_filter.mp hmem).2
      simp [hc] at this
    · intro sl hsl
      show (sl.thread, WaitResult.Cancelled) ∈ List.flatMap _ _
      rw [List.mem_flatMap]
      exact ⟨x, List.mem_filter.mpr ⟨hx, hc⟩, List.mem_map.mpr ⟨sl, hsl, rfl⟩⟩
  · intro p hp
    have hp2 : p ∈ List.flatMap _ _ := hp
    rw [List.mem_flatMap] at hp2
    obtain ⟨x, _, hx⟩ := hp2
    obtain ⟨sl, _, rfl⟩ := List.mem_map.mp hx
    rfl
  · intro hall
    have hnone : ∀ x ∈ (s.step (.cancel target client)).registry, ∀ sl ∈ x.WaitQueue,
        sl.thread ≠ t := by
      intro x hx sl hsl ht
      have hx2 : x ∈ (Cancel target client s.registry).registry := hx
      have h1 := List.mem_filter.mp hx2
      have h2 := hall x h1.1 ⟨sl, hsl, ht⟩
      simp [h2] at h1
    refine ⟨?_, hnone⟩
    apply blocked_eq_false
    intro x hx sl hsl ht
    exact absurd ht (hnone x hx sl hsl)

/-! ### The claims on `Wait` -/

theorem isQuietFor_cases (o : PLX_WAIT_OBJECT) (e : CoreEvent) (h : e.isQuietFor o = true) :
    e = .tick ∨ ∃ fl fd, e = .dispatch fl fd ∧
      o.Notify_Flags &&& fl = 0 ∧ o.Notify_Doorbell &&& fd = 0 := by
  cases e with
  | tick => exact Or.inl rfl
  | dispatch line doorbell =>
    right
    refine ⟨line, doorbell, rfl, ?_⟩
    simpa [CoreEvent.isQuietFor, PLX_WAIT_OBJECT.intersects] using h
  | register alloc client lineMask doorbellMask => cases h
  | waitEnter thread id timeout => cases h
  | waitLeave thread => cases h
  | status id => cases h
  | cancel target client => cases h

/-- C15: a trigger recorded before `Wait` is not lost, and a trigger that does not match
does not wake, whether it fires before the `Wait` or while the thread sleeps.  Take a
registered object with no observed bits, Waiting, and a thread that is not asleep.  If
`Dispatch` fires bits that intersect neither mask and the thread then calls `Wait` with
timeout `T` and only time passes, then after `k` ticks its `Wait` has returned TimedOut when
`T ≤ k`, and nothing before.  If `Dispatch` fires bits that intersect a mask and the thread
then calls `Wait`, the thread is not put to sleep and its `Wait` returns, with no tick
passing, the masks ANDed with the fired bits.  If the thread calls `Wait` with timeout `T`,
with or without a non-matching `Dispatch` before, and then only ticks and `Dispatch` calls
that intersect neither mask follow, in any order and number, the thread stays blocked and its
`Wait` returns nothing while fewer than `T` ticks have passed, and its `Wait` has returned
TimedOut, once, when `T` ticks have passed. -/
theorem trigger_kept_and_mismatch_times_out (reg : List PLX_WAIT_OBJECT) (o : PLX_WAIT_OBJECT)
    (t T fl fd k : Nat) (hmem : o ∈ reg) (hnodup : (reg.map (fun x => x.addr)).Nodup)
    (hfresh : o.Source_Ints = 0 ∧ o.Source_Doorbell = 0 ∧ o.state = .PLX_STATE_WAITING)
    (hfree : ∀ x ∈ reg, ∀ sl ∈ x.WaitQueue, sl.thread ≠ t) :
    (o.Notify_Flags &&& fl = 0 ∧ o.Notify_Doorbell &&& fd = 0 →
      resultsOf t ((CoreState.mk reg []).run
          (.dispatch fl fd :: .waitEnter t o.addr T :: List.replicate k .tick)).results
        = if k < T then [] else [.TimedOut]) ∧
    ((o.Notify_Flags &&& fl ≠ 0 ∨ o.Notify_Doorbell &&& fd ≠ 0) →
      ((CoreState.mk reg []).run [.dispatch fl fd, .waitEnter t o.addr T]).blocked t = false ∧
      ((CoreState.mk reg []).run [.dispatch fl fd, .waitEnter t o.addr T]).results = [] ∧
      ((CoreState.mk reg []).run [.dispatch fl fd, .waitEnter t o.addr T, .waitLeave t]).results
        = [(t, .matched (o.Notify_Flags &&& fl) (o.Notify_Doorbell &&& fd))]) ∧
    (∀ post : List CoreEvent,
      (∀ e ∈ post, e.isQuietFor o = true) →
      resultsOf t ((CoreState.mk reg []).run (.waitEnter t o.addr T :: post)).results
        = (if countTicks post < T then [] else [.TimedOut]) ∧
      (countTicks post < T →
        ((CoreState.mk reg []).run (.waitEnter t o.addr T :: post)).blocked t = true) ∧
      (o.Notify_Flags &&& fl = 0 ∧ o.Notify_Doorbell &&& fd = 0 →
        resultsOf t ((CoreState.mk reg []).run
            (.dispatch fl fd :: .waitEnter t o.addr T :: post)).results
          = (if countTicks post < T then [] else [.TimedOut]) ∧
        (countTicks post < T →
          ((CoreState.mk reg []).run
            (.dispatch fl fd :: .waitEnter t o.addr T :: post)).blocked t = true))) := by
  obtain ⟨h1, h2⟩ := trigger_before_Wait reg o t T fl fd k hmem hnodup hfresh hfree
  have hstate : o.state ≠ .PLX_STATE_TRIGGERED := by rw [hfresh.2.2]; decide
  refine ⟨h1, h2, ?_⟩
  intro post hquiet
  have hpost := fun e he => isQuietFor_cases o e (hquiet e he)
  obtain ⟨a1, a2⟩ := enter_then_quiet reg o t T [] post hmem hnodup hstate hfree hpost
  refine ⟨a1, a2, ?_⟩
  intro hno
  have hso : signalObject fl fd o = o := signalObject_of_not_intersects fl fd o hno
  have hmemD : o ∈ Dispatch fl fd reg := by
    have := List.mem_map_of_mem (signalObject fl fd) hmem
    rw [hso] at this
    exact this
  have hnodupD : ((Dispatch fl fd reg).map (fun x => x.addr)).Nodup := by
    rw [Dispatch_addrs]; exact hnodup
  exact enter_then_quiet (Dispatch fl fd reg) o t T [] post hmemD hnodupD hstate
    (Dispatch_not_sleeping fl fd t reg hfree) hpost

/-- Witness for C15 on the example registry: thread 9 waits three ticks on the object at
0x2000, whose line mask is 0x3.  A dispatch of line bit 4 while it sleeps does not wake it:
it is blocked after two ticks and its wait times out with the third.  After a dispatch of
line bit 2 before the wait, the wait returns that bit at once. -/
theorem trigger_kept_and_mismatch_times_out_witness :
    resultsOf 9 ((CoreState.mk exampleWaitObjects []).run
        [.waitEnter 9 0x2000 3, .tick, .dispatch 4 0, .tick, .tick]).results = [.TimedOut] ∧
    ((CoreState.mk exampleWaitObjects []).run
        [.waitEnter 9 0x2000 3, .tick, .dispatch 4 0, .tick]).blocked 9 = true ∧
    ((CoreState.mk exampleWaitObjects []).run
        [.dispatch 2 0, .waitEnter 9 0x2000 3, .waitLeave 9]).results
      = [(9, .matched 2 0)] :=
  ⟨((trigger_kept_and_mismatch_times_out exampleWaitObjects (exampleWaitObject 0x2000 20 0x3 0)
      9 3 4 0 3 (by decide) (by decide) ⟨rfl, rfl, rfl⟩ (by decide)).2.2
      [.tick, .dispatch 4 0, .tick, .tick] (by decide)).1,
    ((trigger_kept_and_mismatch_times_out exampleWaitObjects (exampleWaitObject 0x2000 20 0x3 0)
      9 3 4 0 3 (by decide) (by decide) ⟨rfl, rfl, rfl⟩ (by decide)).2.2
      [.tick, .dispatch 4 0, .tick] (by decide)).2.1 (by decide),
    by decide⟩

/-- C17: `Wait` reads and clears in one step, whether or not it slept.  Take a registered
object and a thread that is not asleep.  If the object is Triggered when `Wait` is called,
the thread is not put to sleep; `Wait` returns exactly the observed line and doorbell bits
the object has at that moment, and afterwards both observed fields are zero and sleeper
count and wait queue are what they were before the `Wait` began.  If the object is not
Triggered and the timeout is not 0, the thread is put to sleep and the sleeper count goes up
by one; when `Dispatch` calls follow of which one intersects a mask, the thread is woken and
its `Wait` returns exactly the observed bits the object has at that moment, the bits it had
before ORed with the matching bits of every call; afterwards both observed fields are zero,
the sleeper count is what it was before the `Wait` began, and the thread has left the wait
queue.  And at any moment, whatever went before: when a thread leaves `Wait` as a woken
sleeper of an object, it gets exactly the observed bits the object has then, both fields are
zero afterwards, the sleeper count is one less and the thread has left the queue; every
other object is unchanged. -/
theorem Wait_reads_and_clears (reg : List PLX_WAIT_OBJECT) (o : PLX_WAIT_OBJECT)
    (thread timeout : Nat) (hmem : o ∈ reg) (hnodup : (reg.map (fun x => x.addr)).Nodup)
    (hfree : ∀ x ∈ reg, ∀ sl ∈ x.WaitQueue, sl.thread ≠ thread) :
    (o.state = .PLX_STATE_TRIGGERED →
      ∃ reg1 reg2 o2,
        WaitEnter thread o.addr timeout reg = (reg1, none) ∧
        WaitLeave thread reg1 = some (.matched o.Source_Ints o.Source_Doorbell, reg2) ∧
        reg2.find? (fun x => x.addr = o.addr) = some o2 ∧
        o2.Source_Ints = 0 ∧ o2.Source_Doorbell = 0 ∧
        o2.SleepCount = o.SleepCount ∧ o2.WaitQueue = o.WaitQueue ∧
        (∀ x ∈ reg, x.addr ≠ o.addr → x ∈ reg2) ∧ reg2.length = reg.length) ∧
    (o.state ≠ .PLX_STATE_TRIGGERED → 0 < timeout →
      ∀ ds : List (Nat × Nat), (∃ d ∈ ds, o.intersects d.1 d.2 = true) →
      ∃ reg1 o2 reg3 o3,
        WaitEnter thread o.addr timeout reg = (reg1, none) ∧
        (CoreState.mk reg1 []).blocked thread = true ∧
        (ds.foldl (fun r d => Dispatch d.1 d.2 r) reg1).find? (fun x => x.addr = o.addr)
          = some o2 ∧
        o2.Source_Ints = o.Source_Ints |||
          orLine (ds.map (fun d => (o.Notify_Flags &&& d.1, o.Notify_Doorbell &&& d.2))) ∧
        o2.Source_Doorbell = o.Source_Doorbell |||
          orDoorbell (ds.map (fun d => (o.Notify_Flags &&& d.1, o.Notify_Doorbell &&& d.2))) ∧
        o2.SleepCount = o.SleepCount + 1 ∧
        WaitLeave thread (ds.foldl (fun r d => Dispatch d.1 d.2 r) reg1)
          = some (.matched o2.Source_Ints o2.Source_Doorbell, reg3) ∧
        reg3.find? (fun x => x.addr = o.addr) = some o3 ∧
        o3.Source_Ints = 0 ∧ o3.Source_Doorbell = 0 ∧
        o3.SleepCount = o.SleepCount ∧
        o3.WaitQueue = o.WaitQueue.map (fun s => { s with woken := true }) ∧
        (∀ x ∈ ds.foldl (fun r d => Dispatch d.1 d.2 r) reg1, x.addr ≠ o.addr → x ∈ reg3) ∧
        reg3.length = reg.length) ∧
    (∀ (reg1 : List PLX_WAIT_OBJECT) (x : PLX_WAIT_OBJECT), x ∈ reg1 →
      (reg1.map (fun y => y.addr)).Nodup → x.hasWoken thread = true →
      (∀ y ∈ reg1, y.addr ≠ x.addr → y.hasWoken thread = false) →
      ∃ reg2 x2,
        WaitLeave thread reg1 = some (.matched x.Source_Ints x.Source_Doorbell, reg2) ∧
        reg2.find? (fun y => y.addr = x.addr) = some x2 ∧
        x2.Source_Ints = 0 ∧ x2.Source_Doorbell = 0 ∧
        x2.SleepCount = x.SleepCount - 1 ∧
        x2.WaitQueue = x.WaitQueue.filter (fun s => s.thread ≠ thread) ∧
        (∀ y ∈ reg1, y.addr ≠ x.addr → y ∈ reg2) ∧ reg2.length = reg1.length) :=
  ⟨fun htrig => Wait_read_clear_triggered reg o thread timeout hmem hnodup htrig hfree,
    fun hstate hT ds hds =>
      Wait_read_clear_woken reg o thread timeout ds hmem hnodup hfree hstate hT hds,
    fun reg1 x hx hnd hw hothers => WaitLeave_read_clear thread reg1 x hx hnd hw hothers⟩

/-- Witness for C17 on the example registry: thread 9 waits on the object at 0x2000, whose
line mask is 0x3, and sleeps; a dispatch of line bit 4 does not wake it, a dispatch of line
bit 2 does; it reads line bit 2 and leaves the object cleared, with no sleeper. -/
theorem Wait_reads_and_clears_witness :
    ∃ reg1 o2 reg3 o3,
      WaitEnter 9 0x2000 5 exampleWaitObjects = (reg1, none) ∧
      (CoreState.mk reg1 []).blocked 9 = true ∧
      ([(4, 0), (2, 0)].foldl (fun r d => Dispatch d.1 d.2 r) reg1).find?
        (fun x => x.addr = 0x2000) = some o2 ∧
      o2.Source_Ints = 2 ∧ o2.Source_Doorbell = 0 ∧ o2.SleepCount = 1 ∧
      WaitLeave 9 ([(4, 0), (2, 0)].foldl (fun r d => Dispatch d.1 d.2 r) reg1)
        = some (.matched o2.Source_Ints o2.Source_Doorbell, reg3) ∧
      reg3.find? (fun x => x.addr = 0x2000) = some o3 ∧
      o3.Source_Ints = 0 ∧ o3.Source_Doorbell = 0 ∧ o3.SleepCount = 0 ∧ o3.WaitQueue = [] ∧
      (∀ x ∈ [(4, 0), (2, 0)].foldl (fun r d => Dispatch d.1 d.2 r) reg1,
        x.addr ≠ 0x2000 → x ∈ reg3) ∧
      reg3.length = 3 :=
  (Wait_reads_and_clears exampleWaitObjects (exampleWaitObject 0x2000 20 0x3 0) 9 5
    (by decide) (by decide) (by decide)).2.1 (by decide) (by decide) [(4, 0), (2, 0)]
    ⟨(2, 0), by decide, by decide⟩

/-- C19: every blocking `Wait` terminates with one of its four outcomes, and `Cancel` leaves
no thread blocked on a cancelled object.  A thread that is not asleep calls `Wait` with a
timeout; whatever events follow, by this or other threads (only that the thread does not
call `Wait` again before this call has returned), once as many ticks have passed as the
timeout counts and the thread has run, its `Wait` has returned exactly one result, which is
matched bits, TimedOut, Cancelled or InvalidHandle, and the thread is in no wait queue.  A
thread asleep with at most `k` ticks to its timeout is no longer blocked once `k` ticks have
passed; a woken thread leaves `Wait` with matched bits; `Wait` on an id that is not
registered returns InvalidHandle at once.  After `Cancel`, no object it names is registered,
every retired object is Cancelled with an empty wait queue and sleeper count 0, every thread
that slept on one of them has been woken with result Cancelled, and `Cancel` wakes nobody
with another result. -/
theorem Wait_terminates_and_Cancel_wakes (s : CoreState) (t id timeout : Nat)
    (es : List CoreEvent) (target : Option Nat) (client : Nat)
    (hnodup : (s.registry.map (fun x => x.addr)).Nodup)
    (hfree : ∀ x ∈ s.registry, ∀ sl ∈ x.WaitQueue, sl.thread ≠ t)
    (hes : ∀ e ∈ es, e.isWaitEnterOf t = false)
    (hticks : timeout ≤ countTicks es) :
    (∃ r, resultsOf t (((s.step (.waitEnter t id timeout)).run es).step (.waitLeave t)).results
        = resultsOf t s.results ++ [r] ∧
      ((∃ line doorbell, r = .matched line doorbell) ∨ r = .TimedOut ∨ r = .Cancelled ∨
        r = .InvalidHandle)) ∧
    sleepersOf t (((s.step (.waitEnter t id timeout)).run es).step (.waitLeave t)).registry
      = [] ∧
    (((s.step (.waitEnter t id timeout)).run es).step (.waitLeave t)).blocked t = false ∧
    (∀ (s2 : CoreState) (k : Nat),
      (∀ x ∈ s2.registry, ∀ sl ∈ x.WaitQueue, sl.thread = t → sl.woken = false →
        1 ≤ sl.remaining ∧ sl.remaining ≤ k) →
      k ≤ countTicks es → (s2.run es).blocked t = false) ∧
    (∀ reg : List PLX_WAIT_OBJECT, (∃ x ∈ reg, x.hasWoken t = true) →
      ∃ line doorbell reg1, WaitLeave t reg = some (.matched line doorbell, reg1)) ∧
    (∀ (reg : List PLX_WAIT_OBJECT) (id1 timeout1 : Nat), (∀ x ∈ reg, x.addr ≠ id1) →
      WaitEnter t id1 timeout1 reg = (reg, some .InvalidHandle)) ∧
    (∀ x ∈ (Cancel target client s.registry).registry,
      cancelTarget target client x = false ∧ x ∈ s.registry) ∧
    (∀ x ∈ (Cancel target client s.registry).retired,
      x.state = .PLX_STATE_CANCELLED ∧ x.WaitQueue = [] ∧ x.SleepCount = 0) ∧
    (∀ x ∈ s.registry, cancelTarget target client x = true →
      x ∉ (Cancel target client s.registry).registry ∧
      ∀ sl ∈ x.WaitQueue, (sl.thread, WaitResult.Cancelled) ∈
        (Cancel target client s.registry).woken) ∧
    (∀ p ∈ (Cancel target client s.registry).woken, p.2 = .Cancelled) ∧
    ((∀ x ∈ s.registry, (∃ sl ∈ x.WaitQueue, sl.thread = t) →
        cancelTarget target client x = true) →
      (s.step (.cancel target client)).blocked t = false ∧
      ∀ x ∈ (s.step (.cancel target client)).registry, ∀ sl ∈ x.WaitQueue, sl.thread ≠ t) := by
  obtain ⟨r, hr, hnil⟩ := Wait_returns_once t id timeout s es hnodup hfree hes hticks
  have hq : ∀ x ∈ s.registry, ∀ sl ∈ x.WaitQueue, sl.thread = t → sl.woken = false →
      1 ≤ sl.remaining ∧ sl.remaining ≤ timeout :=
    fun x hx sl hsl ht _ => absurd ht (hfree x hx sl hsl)
  obtain ⟨_, c2, c3, c4, c5, c6, c7, c8⟩ :=
    Cancel_wakes_sleepers s t timeout es target client hq hes hticks
  refine ⟨⟨r, hr, ?_⟩, hnil, ?_, ?_, c2, c3, c4, c5, c6, c7, c8⟩
  · cases r with
    | matched line doorbell => exact Or.inl ⟨line, doorbell, rfl⟩
    | TimedOut => exact Or.inr (Or.inl rfl)
    | Cancelled => exact Or.inr (Or.inr (Or.inl rfl))
    | InvalidHandle => exact Or.inr (Or.inr (Or.inr rfl))
  · apply blocked_eq_false
    intro x hx sl hsl ht
    exact absurd ht ((sleepersOf_eq_nil_iff t _).mp hnil x hx sl hsl)
  · intro s2 k hq2 hk
    exact (Cancel_wakes_sleepers s2 t k es target client hq2 hes hk).1

/-- Witness for C19: thread 9 waits three ticks on the example object at 0x2000; a dispatch
of line bit 4, which does not match, and three ticks follow, and its `Wait` has returned
TimedOut; and cancelling all objects of client 10 wakes thread 7 with Cancelled. -/
theorem Wait_terminates_and_Cancel_wakes_witness :
    (∃ r, resultsOf 9 ((((CoreState.mk exampleWaitObjects []).step (.waitEnter 9 0x2000 3)).run
        [.tick, .dispatch 4 0, .tick, .tick]).step (.waitLeave 9)).results
        = resultsOf 9 (CoreState.mk exampleWaitObjects []).results ++ [r] ∧
      ((∃ line doorbell, r = .matched line doorbell) ∨ r = .TimedOut ∨ r = .Cancelled ∨
        r = .InvalidHandle)) ∧
    resultsOf 9 ((((CoreState.mk exampleWaitObjects []).step (.waitEnter 9 0x2000 3)).run
        [.tick, .dispatch 4 0, .tick, .tick]).step (.waitLeave 9)).results = [.TimedOut] ∧
    (Cancel none 10 exampleWaitObjects).woken = [(7, .Cancelled)] ∧
    (Cancel none 10 exampleWaitObjects).registry = [exampleWaitObject 0x2000 20 0x3 0] :=
  ⟨(Wait_terminates_and_Cancel_wakes (CoreState.mk exampleWaitObjects []) 9 0x2000 3
      [.tick, .dispatch 4 0, .tick, .tick] none 10
      (by decide) (by decide) (by decide) (by decide)).1,
    by decide, by decide, by decide⟩

end Plx8000
